import Mathlib

/-!
# Verification of the space-missions numerical core

A shallow embedding, over the real numbers, of the state algebra, the
integrators, the force model and the solvers of the `space-missions`
TypeScript repository, together with theorems settling the behavioural
claims made by its specification.

Conventions.  `THREE.Vector3` is embedded as `Vec3` (three real fields)
with the vector operations used by the sources.  JavaScript `number`
arithmetic is embedded as exact real arithmetic except for the Lambert
solver, whose specified behaviour depends on IEEE special values; there
a dedicated type `JSNum` (a real number, an infinity of either sign, or
NaN) is used.  `Math.atan2 y x` is embedded as the complex argument of
`x + y*I`, which has the same value on every input (signed zeros aside).
Loops are embedded as fuel-indexed recursions with fuel large enough for
every run the theorems speak about.
-/

noncomputable section

open Real

/-- Embedding of `THREE.Vector3`: three real components. -/
@[ext]
structure Vec3 where
  x : ℝ
  y : ℝ
  z : ℝ

namespace Vec3

/-- The zero vector, `new THREE.Vector3()`. -/
def zero : Vec3 := ⟨0, 0, 0⟩

/-- `a.add(b)` componentwise. -/
def add (a b : Vec3) : Vec3 := ⟨a.x + b.x, a.y + b.y, a.z + b.z⟩

/-- `a.sub(b)` componentwise. -/
def sub (a b : Vec3) : Vec3 := ⟨a.x - b.x, a.y - b.y, a.z - b.z⟩

/-- `a.multiplyScalar(s)`. -/
def smul (s : ℝ) (a : Vec3) : Vec3 := ⟨s * a.x, s * a.y, s * a.z⟩

/-- `a.divideScalar(s)` (THREE multiplies by `1 / s`). -/
def divideScalar (s : ℝ) (a : Vec3) : Vec3 := smul (1 / s) a

/-- `a.negate()`. -/
def neg (a : Vec3) : Vec3 := ⟨-a.x, -a.y, -a.z⟩

/-- `a.dot(b)`. -/
def dot (a b : Vec3) : ℝ := a.x * b.x + a.y * b.y + a.z * b.z

/-- `a.lengthSq()`. -/
def lengthSq (a : Vec3) : ℝ := a.x * a.x + a.y * a.y + a.z * a.z

/-- `a.length()`: the Euclidean norm. -/
def length (a : Vec3) : ℝ := Real.sqrt a.lengthSq

/-- `new THREE.Vector3().crossVectors(a, b)`. -/
def cross (a b : Vec3) : Vec3 :=
  ⟨a.y * b.z - a.z * b.y, a.z * b.x - a.x * b.z, a.x * b.y - a.y * b.x⟩

/-- `a.distanceTo(b)`. -/
def distanceTo (a b : Vec3) : ℝ := (a.sub b).length

/-- `a.normalize()`: THREE divides by `length() || 1`, so the zero vector
is left unchanged. -/
def normalize (a : Vec3) : Vec3 :=
  if a.length = 0 then a.divideScalar 1 else a.divideScalar a.length

end Vec3

/-- Embedding of the `StateVector` record: position (km), velocity (km/s)
and time (s).  The sources store `THREE.Vector3` fields. -/
@[ext]
structure StateVector where
  position : Vec3
  velocity : Vec3
  time : ℝ

/-- Embedding of `StateDerivative`: a pure callback whose `position`
field carries the velocity contribution and whose `velocity` field the
acceleration contribution. -/
abbrev StateDerivative := StateVector → ℝ → StateVector

/-- `Math.atan2 y x`, embedded as the argument of the complex number
`x + y*I`.  Both have range `(-π, π]`, both return `0` at the origin and
both agree on every axis and quadrant (signed zeros aside). -/
def atan2 (y x : ℝ) : ℝ := Complex.arg ⟨x, y⟩

/-- `Math.acos` after the clamp `Math.max(-1, Math.min(1, t))` that the
sources apply to every `acos` argument. -/
def acosClamp (t : ℝ) : ℝ := Real.arccos (max (-1) (min 1 t))

/-- `Math.atanh x = log((1+x)/(1-x)) / 2` (its value on `(-1, 1)`;
outside, JavaScript yields non-finite values and no theorem below
evaluates it there). -/
def atanh (x : ℝ) : ℝ := Real.log ((1 + x) / (1 - x)) / 2

/-! ## J2Perturbation (src/physics/forces/J2Perturbation.ts) -/

/-- The fields of `HarmonicPerturbationConfig` that `J2Perturbation`
reads.  The optional `j2` coefficient is embedded as a real number, the
absent/zero case being the JavaScript-falsy one. -/
structure HarmonicPerturbationConfig where
  j2 : ℝ
  planetRadius : ℝ

namespace J2Perturbation

/-- `J2Perturbation.calculateAcceleration`.  `mu` is the constructor
argument (default 398600.4418); `mass` and `time` are unused by the
source body. -/
def calculateAcceleration (config : HarmonicPerturbationConfig) (mu : ℝ)
    (position _velocity : Vec3) (_mass _time : ℝ) : Vec3 :=
  if config.j2 = 0 then ⟨0, 0, 0⟩ else
  let r := position.length
  let re := config.planetRadius
  let j2 := config.j2
  let factor := 1.5 * j2 * mu * (re / r) ^ 2 / r ^ 3
  let x := position.x / r
  let y := position.y / r
  let z := position.z / r
  let z2 := z * z
  ⟨factor * x * (5 * z2 - 1), factor * y * (5 * z2 - 1), factor * z * (5 * z2 - 3)⟩

end J2Perturbation

/-! ## ManeuverOptimizer (solvers; the class lives beside EulerIntegrator
in the sources) -/

/-- Return record of `ManeuverOptimizer.hohmannTransfer`. -/
structure HohmannResult where
  deltaV1 : ℝ
  deltaV2 : ℝ
  totalDeltaV : ℝ
  transferTime : ℝ
  semiMajorAxis : ℝ

namespace ManeuverOptimizer

/-- `ManeuverOptimizer.hohmannTransfer(r1, r2, mu)`. -/
def hohmannTransfer (r1 r2 mu : ℝ) : HohmannResult :=
  let a_transfer := (r1 + r2) / 2
  let v1_circular := Real.sqrt (mu / r1)
  let v2_circular := Real.sqrt (mu / r2)
  let v1_transfer := Real.sqrt (mu * (2 / r1 - 1 / a_transfer))
  let v2_transfer := Real.sqrt (mu * (2 / r2 - 1 / a_transfer))
  let deltaV1 := |v1_transfer - v1_circular|
  let deltaV2 := |v2_circular - v2_transfer|
  let totalDeltaV := deltaV1 + deltaV2
  let transferTime := π * Real.sqrt (a_transfer * a_transfer * a_transfer / mu)
  { deltaV1 := deltaV1, deltaV2 := deltaV2, totalDeltaV := totalDeltaV,
    transferTime := transferTime, semiMajorAxis := a_transfer }

end ManeuverOptimizer

/-! ## Verlet (src/physics/integrators/Verlet.ts) -/

namespace Verlet

/-- `Verlet.step`.  The instance field `previousAcceleration` is passed
in explicitly (`none` right after `reset()`), and the updated cache is
returned beside the new state, mirroring the assignment
`this.previousAcceleration = currentAccel`. -/
def step (previousAcceleration : Option StateVector) (state : StateVector)
    (derivative : StateDerivative) (deltaTime : ℝ) :
    StateVector × Option StateVector :=
  let dt := deltaTime
  let dt2 := dt * dt
  let currentAccel := derivative state state.time
  let newPosition :=
    match previousAcceleration with
    | some _ =>
        (state.position.add (Vec3.smul dt state.velocity)).add
          (Vec3.smul (0.5 * dt2) currentAccel.velocity)
    | none =>
        (state.position.add (Vec3.smul dt state.velocity)).add
          (Vec3.smul (0.5 * dt2) currentAccel.velocity)
  let tempState : StateVector :=
    { position := newPosition, velocity := state.velocity, time := state.time + dt }
  let newAccel := derivative tempState (state.time + dt)
  let newVelocity :=
    (state.velocity.add (Vec3.smul (0.5 * dt) currentAccel.velocity)).add
      (Vec3.smul (0.5 * dt) newAccel.velocity)
  ({ position := newPosition, velocity := newVelocity, time := state.time + dt },
    some currentAccel)

end Verlet

/-! ## Integrator base class (src/physics/integrators/Integrator.ts) -/

/-- The `IntegratorConfig` fields the embedded code reads.  The source
defaults are `adaptiveStep = false`, `minStep = 1e-6`, `maxStep = 3600`,
`errorTolerance = 1e-12`. -/
structure IntegratorConfig where
  adaptiveStep : Bool
  minStep : ℝ
  maxStep : ℝ
  errorTolerance : ℝ

/-- The source's default `IntegratorConfig`. -/
def IntegratorConfig.default : IntegratorConfig :=
  { adaptiveStep := false, minStep := 1e-6, maxStep := 3600, errorTolerance := 1e-12 }

/-- Result record of `adaptiveStep`: `{ state, nextStep, error }`. -/
structure AdaptiveResult where
  state : StateVector
  nextStep : ℝ
  error : ℝ

namespace Integrator

/-- `Integrator.addStates(state1, state2, scale2)`. -/
def addStates (state1 state2 : StateVector) (scale2 : ℝ) : StateVector :=
  { position := state1.position.add (Vec3.smul scale2 state2.position),
    velocity := state1.velocity.add (Vec3.smul scale2 state2.velocity),
    time := state1.time }

/-- `Integrator.scaleState(state, scale)`. -/
def scaleState (state : StateVector) (scale : ℝ) : StateVector :=
  { position := Vec3.smul scale state.position,
    velocity := Vec3.smul scale state.velocity,
    time := state.time }

/-- `Integrator.calculateError(state1, state2)`: the combined relative
error `max(‖Δp‖ / max(‖p₁‖, 1), ‖Δv‖ / max(‖v₁‖, 1))`. -/
def calculateError (state1 state2 : StateVector) : ℝ :=
  let positionError := state1.position.distanceTo state2.position
  let velocityError := state1.velocity.distanceTo state2.velocity
  let positionMagnitude := state1.position.length
  let velocityMagnitude := state1.velocity.length
  max (positionError / max positionMagnitude 1) (velocityError / max velocityMagnitude 1)

/-- The base class's default `adaptiveStep`: one plain step, `nextStep`
unchanged, zero error (overridden by the concrete integrators). -/
def adaptiveStepDefault (stepFn : StateVector → StateDerivative → ℝ → StateVector)
    (state : StateVector) (derivative : StateDerivative) (deltaTime : ℝ) :
    AdaptiveResult :=
  { state := stepFn state derivative deltaTime, nextStep := deltaTime, error := 0 }

/-- The `while (currentTime < totalTime)` loop of `Integrator.integrate`,
fuel-indexed.  Each iteration clamps the step so the end is not
overshot, advances via `step` (or `adaptiveStep` when enabled — note the
source reassigns `dt` to `nextStep` *before* `currentTime += dt`),
overwrites the new state's `time` with the accumulated time, records the
state and clamps `dt` into `[minStep, maxStep]`. -/
def integrateLoop (stepFn : StateVector → StateDerivative → ℝ → StateVector)
    (adaptiveFn : StateVector → StateDerivative → ℝ → AdaptiveResult)
    (config : IntegratorConfig) (derivative : StateDerivative) (totalTime : ℝ) :
    ℕ → ℝ → ℝ → StateVector → List StateVector
  | 0, _, _, _ => []
  | fuel + 1, currentTime, dt0, currentState =>
    if currentTime < totalTime then
      let dt1 := if currentTime + dt0 > totalTime then totalTime - currentTime else dt0
      let stepResult := stepFn currentState derivative dt1
      let next :=
        if config.adaptiveStep then
          let adaptiveResult := adaptiveFn currentState derivative dt1
          (adaptiveResult.state, adaptiveResult.nextStep)
        else (stepResult, dt1)
      let newTime := currentTime + next.2
      let recorded : StateVector := { next.1 with time := newTime }
      let dtClamped := max config.minStep (min next.2 config.maxStep)
      recorded :: integrateLoop stepFn adaptiveFn config derivative totalTime
        fuel newTime dtClamped recorded
    else []

/-- `Integrator.integrate(initialState, derivative, timeStep, totalTime)`.
The JavaScript `while` loop is given fuel that covers every terminating
run considered by the theorems below. -/
def integrate (stepFn : StateVector → StateDerivative → ℝ → StateVector)
    (adaptiveFn : StateVector → StateDerivative → ℝ → AdaptiveResult)
    (config : IntegratorConfig) (initialState : StateVector)
    (derivative : StateDerivative) (timeStep totalTime : ℝ) : List StateVector :=
  initialState ::
    integrateLoop stepFn adaptiveFn config derivative totalTime
      ((⌈totalTime / timeStep⌉).toNat + (⌈totalTime / config.minStep⌉).toNat + 1)
      0 timeStep initialState

end Integrator

/-! ## EulerIntegrator.step and RungeKutta4.step -/

namespace EulerIntegrator

/-- `EulerIntegrator.step`: `y + dt·f(y, t)`. -/
def step (state : StateVector) (derivative : StateDerivative) (deltaTime : ℝ) :
    StateVector :=
  let k1 := derivative state state.time
  { position := state.position.add (Vec3.smul deltaTime k1.position),
    velocity := state.velocity.add (Vec3.smul deltaTime k1.velocity),
    time := state.time + deltaTime }

end EulerIntegrator

namespace RungeKutta4

/-- `RungeKutta4.step`: the classical four-stage step with weights
`1/6, 1/3, 1/3, 1/6`. -/
def step (state : StateVector) (derivative : StateDerivative) (deltaTime : ℝ) :
    StateVector :=
  let dt := deltaTime
  let dt_2 := dt / 2
  let k1 := derivative state state.time
  let state2 := Integrator.addStates state k1 dt_2
  let k2 := derivative state2 (state.time + dt_2)
  let state3 := Integrator.addStates state k2 dt_2
  let k3 := derivative state3 (state.time + dt_2)
  let state4 := Integrator.addStates state k3 dt
  let k4 := derivative state4 (state.time + dt)
  { position := (((state.position.add (Vec3.smul (dt / 6) k1.position)).add
        (Vec3.smul (dt / 3) k2.position)).add
        (Vec3.smul (dt / 3) k3.position)).add
        (Vec3.smul (dt / 6) k4.position),
    velocity := (((state.velocity.add (Vec3.smul (dt / 6) k1.velocity)).add
        (Vec3.smul (dt / 3) k2.velocity)).add
        (Vec3.smul (dt / 3) k3.velocity)).add
        (Vec3.smul (dt / 6) k4.velocity),
    time := state.time + dt }

end RungeKutta4

/-! ## AdaptiveStepsize (wrapper in Integrator.ts) -/

/-- Result record of `AdaptiveStepsize.tryStep`. -/
structure TryResult where
  state : StateVector
  error : ℝ

namespace AdaptiveStepsize

/-- `AdaptiveStepsize.tryStep`: Richardson trial — one full step of the
base integrator against two half-steps; the twin-step solution is kept
and the reported error is `calculateError(fullStep, halfStep2)`. -/
def tryStep (baseStep : StateVector → StateDerivative → ℝ → StateVector)
    (state : StateVector) (derivative : StateDerivative) (deltaTime : ℝ) :
    TryResult :=
  let fullStep := baseStep state derivative deltaTime
  let halfStep1 := baseStep state derivative (deltaTime / 2)
  let halfStep2 := baseStep halfStep1 derivative (deltaTime / 2)
  { state := halfStep2, error := Integrator.calculateError fullStep halfStep2 }

/-- `AdaptiveStepsize.calculateNextStep(currentStep, error)`. -/
def calculateNextStep (config : IntegratorConfig) (currentStep error : ℝ) : ℝ :=
  if error = 0 then currentStep * 2
  else
    let optimalStep := currentStep * 0.9 * (config.errorTolerance / error) ^ (0.2 : ℝ)
    max (0.1 * currentStep) (min (5 * currentStep) optimalStep)

/-- The `while (iterations < maxIterations)` loop of
`AdaptiveStepsize.adaptiveStep`, fuel-indexed by the remaining
iterations (`maxIterations = 10`).  `none` means the loop ended without
accepting a step (exhaustion, or the halved step fell below `minStep`),
after which the caller falls back to a `minStep` trial. -/
def adaptiveLoop (baseStep : StateVector → StateDerivative → ℝ → StateVector)
    (config : IntegratorConfig) (state : StateVector) (derivative : StateDerivative) :
    ℕ → ℝ → Option AdaptiveResult
  | 0, _ => none
  | n + 1, dt =>
    let result := tryStep baseStep state derivative dt
    if result.error ≤ config.errorTolerance then
      let nextStep0 := calculateNextStep config dt result.error
      let change := nextStep0 / dt
      let nextStep1 :=
        if change > 2 then dt * 2 else if change < 0.5 then dt * 0.5 else nextStep0
      some { state := result.state,
             nextStep := max config.minStep (min nextStep1 config.maxStep),
             error := result.error }
    else
      let dt2 := dt * 0.5
      if dt2 < config.minStep then none
      else adaptiveLoop baseStep config state derivative n dt2

/-- `AdaptiveStepsize.adaptiveStep`: accept within at most 10 trials,
otherwise warn and return the `minStep` trial's state and actual
error. -/
def adaptiveStep (baseStep : StateVector → StateDerivative → ℝ → StateVector)
    (config : IntegratorConfig) (state : StateVector) (derivative : StateDerivative)
    (deltaTime : ℝ) : AdaptiveResult :=
  match adaptiveLoop baseStep config state derivative 10 deltaTime with
  | some res => res
  | none =>
    let fallbackResult := tryStep baseStep state derivative config.minStep
    { state := fallbackResult.state, nextStep := config.minStep,
      error := fallbackResult.error }

end AdaptiveStepsize

/-- The state error metric in the spec's words:
`max(‖Δp‖ / max(‖p₁‖, 1), ‖Δv‖ / max(‖v₁‖, 1))` — written independently
of `Integrator.calculateError` for the refinement comparison. -/
def errorMetricSpec (s1 s2 : StateVector) : ℝ :=
  max ((s1.position.sub s2.position).length / max s1.position.length 1)
    ((s1.velocity.sub s2.velocity).length / max s1.velocity.length 1)

/-- A time-only quartic derivative (`dp/dt = (t⁴, 0, 0)`, no
acceleration), used as a concrete input for the Richardson-trial
counterexample: RK4 is not exact on it, so the full and twin steps
differ. -/
def timeQuartic : StateDerivative :=
  fun _ t => { position := ⟨t ^ 4, 0, 0⟩, velocity := Vec3.zero, time := 0 }

/-- The rest state at the origin at time `0`. -/
def restState : StateVector := { position := Vec3.zero, velocity := Vec3.zero, time := 0 }

/-! ## KeplerSolver (src/physics/solvers/KeplerSolver.ts) -/

namespace KeplerSolver

/-- The `while (angle < 0) angle += 2π` half of `normalizeAngle`. -/
def normAngleUp (angle : ℝ) : ℝ :=
  if h : angle < 0 then normAngleUp (angle + 2 * π) else angle
termination_by (⌈-angle / (2 * π)⌉).toNat
decreasing_by
  have hc : 0 < 2 * π := by positivity
  have key : ⌈-(angle + 2 * π) / (2 * π)⌉ = ⌈-angle / (2 * π)⌉ - 1 := by
    rw [show -(angle + 2 * π) / (2 * π) = -angle / (2 * π) - 1 by
      field_simp
      ring]
    rw [show (1 : ℝ) = ((1 : ℤ) : ℝ) by norm_num, Int.ceil_sub_int]
  have hpos : 0 < ⌈-angle / (2 * π)⌉ :=
    Int.ceil_pos.mpr (div_pos (by linarith) hc)
  simp only [key]
  omega

/-- The `while (angle >= 2π) angle -= 2π` half of `normalizeAngle`. -/
def normAngleDown (angle : ℝ) : ℝ :=
  if h : 2 * π ≤ angle then normAngleDown (angle - 2 * π) else angle
termination_by (⌊angle / (2 * π)⌋).toNat
decreasing_by
  have hc : 0 < 2 * π := by positivity
  have key : ⌊(angle - 2 * π) / (2 * π)⌋ = ⌊angle / (2 * π)⌋ - 1 := by
    rw [show (angle - 2 * π) / (2 * π) = angle / (2 * π) - 1 by
      field_simp]
    rw [show (1 : ℝ) = ((1 : ℤ) : ℝ) by norm_num, Int.floor_sub_int]
  have hone : 1 ≤ ⌊angle / (2 * π)⌋ := by
    rw [show (1 : ℤ) = ⌊(1 : ℝ)⌋ by norm_num]
    exact Int.floor_le_floor ((one_le_div hc).mpr h)
  simp only [key]
  omega

/-- `KeplerSolver.normalizeAngle`: bring an angle into `[0, 2π)`. -/
def normalizeAngle (angle : ℝ) : ℝ := normAngleDown (normAngleUp angle)

/-- The Newton iteration of `solveKeplerEquation`, fuel-indexed by the
remaining iterations (`MAX_ITERATIONS = 50`).  `none` models the raised
non-convergence error. -/
def solveKeplerLoop (e M tolerance : ℝ) : ℕ → ℝ → Option ℝ
  | 0, _ => none
  | n + 1, E0 =>
    let f := E0 - e * Real.sin E0 - M
    let fp := 1 - e * Real.cos E0
    let deltaE := f / fp
    let E1 := E0 - deltaE
    if |deltaE| < tolerance then some E1 else solveKeplerLoop e M tolerance n E1

/-- `KeplerSolver.solveKeplerEquation(M, e, tolerance)`: normalize `M`,
start from `E = M + e·sin M` and iterate Newton. -/
def solveKeplerEquation (meanAnomaly eccentricity tolerance : ℝ) : Option ℝ :=
  let M := normalizeAngle meanAnomaly
  solveKeplerLoop eccentricity M tolerance 50 (M + eccentricity * Real.sin M)

/-- The Newton iteration of `solveKeplerHyperbolic`, fuel-indexed. -/
def solveKeplerHypLoop (e M tolerance : ℝ) : ℕ → ℝ → Option ℝ
  | 0, _ => none
  | n + 1, H0 =>
    let f := e * Real.sinh H0 - H0 - M
    let fp := e * Real.cosh H0 - 1
    let deltaH := f / fp
    let H1 := H0 - deltaH
    if |deltaH| < tolerance then some H1 else solveKeplerHypLoop e M tolerance n H1

/-- `KeplerSolver.solveKeplerHyperbolic(M, e, tolerance)`; `none` models
both the domain error (`e ≤ 1`) and non-convergence. -/
def solveKeplerHyperbolic (meanAnomaly eccentricity tolerance : ℝ) : Option ℝ :=
  if eccentricity ≤ 1 then none
  else
    let M := meanAnomaly
    let H0 := Real.log (2 * |M| / eccentricity + 1.8)
    let H1 := if M < 0 then -H0 else H0
    solveKeplerHypLoop eccentricity M tolerance 50 H1

/-- `KeplerSolver.eccentricToTrueAnomaly(E, e)`: half-angle `atan2`
forms, elliptic and hyperbolic branches. -/
def eccentricToTrueAnomaly (eccentricAnomaly eccentricity : ℝ) : ℝ :=
  if eccentricity < 1 then
    2 * atan2 (Real.sqrt (1 + eccentricity) * Real.sin (eccentricAnomaly / 2))
      (Real.sqrt (1 - eccentricity) * Real.cos (eccentricAnomaly / 2))
  else
    2 * atan2 (Real.sqrt (eccentricity + 1) * Real.sinh (eccentricAnomaly / 2))
      (Real.sqrt (eccentricity - 1) * Real.cosh (eccentricAnomaly / 2))

/-- `KeplerSolver.trueToEccentricAnomaly(ν, e)`. -/
def trueToEccentricAnomaly (trueAnomaly eccentricity : ℝ) : ℝ :=
  if eccentricity < 1 then
    2 * atan2 (Real.sqrt (1 - eccentricity) * Real.sin (trueAnomaly / 2))
      (Real.sqrt (1 + eccentricity) * Real.cos (trueAnomaly / 2))
  else
    2 * atanh (Real.sqrt ((eccentricity - 1) / (eccentricity + 1)) *
      Real.tan (trueAnomaly / 2))

/-- `KeplerSolver.trueToMeanAnomaly(ν, e)`. -/
def trueToMeanAnomaly (trueAnomaly eccentricity : ℝ) : ℝ :=
  let E := trueToEccentricAnomaly trueAnomaly eccentricity
  if eccentricity < 1 then E - eccentricity * Real.sin E
  else eccentricity * Real.sinh E - E

/-- `KeplerSolver.meanToTrueAnomaly(M, e)`; `none` when the underlying
Kepler solve raises. -/
def meanToTrueAnomaly (meanAnomaly eccentricity : ℝ) : Option ℝ :=
  if eccentricity < 1 then
    (solveKeplerEquation meanAnomaly eccentricity 1e-12).map
      (fun E => eccentricToTrueAnomaly E eccentricity)
  else
    (solveKeplerHyperbolic meanAnomaly eccentricity 1e-12).map
      (fun H => eccentricToTrueAnomaly H eccentricity)

end KeplerSolver

/-! ## OrbitalElements and the launch-window scan
(ManeuverOptimizer.launchWindowOptimization) -/

/-- Embedding of the `OrbitalElements` record (the `epoch: Date` field
carries no numeric content used by the embedded code and is omitted). -/
structure OrbitalElements where
  semiMajorAxis : ℝ
  eccentricity : ℝ
  inclination : ℝ
  longitudeOfAscendingNode : ℝ
  argumentOfPeriapsis : ℝ
  trueAnomaly : ℝ

/-- The `launchSite` argument: geodetic latitude and longitude (rad). -/
structure LaunchSite where
  latitude : ℝ
  longitude : ℝ

/-- One entry of the list returned by `launchWindowOptimization`. -/
structure LaunchOpportunity where
  launchTime : ℝ
  azimuth : ℝ
  deltaV : ℝ
  inclination : ℝ

namespace ManeuverOptimizer

/-- The per-sample body of the launch-window `for` loop. -/
def launchOpportunityAt (targetOrbit : OrbitalElements) (launchSite : LaunchSite)
    (mu t : ℝ) : LaunchOpportunity :=
  let earthRotationRate : ℝ := 7.2921159e-5
  let _longitude := launchSite.longitude + earthRotationRate * t
  let beta := Real.arcsin (Real.cos targetOrbit.inclination / Real.cos launchSite.latitude)
  let azimuth := atan2 (Real.sin beta)
    (Real.tan targetOrbit.inclination / Real.sin launchSite.latitude)
  let v_orbit := Real.sqrt (mu / targetOrbit.semiMajorAxis)
  let v_earth := 465.1 * Real.cos launchSite.latitude
  let deltaV := Real.sqrt (v_orbit * v_orbit + v_earth * v_earth -
    2 * v_orbit * v_earth * Real.cos azimuth)
  { launchTime := t, azimuth := azimuth * 180 / π, deltaV := deltaV,
    inclination := targetOrbit.inclination * 180 / π }

/-- The `for (let t = 0; t < timeWindow; t += dt)` scan (`dt = 600` s),
fuel-indexed. -/
def launchWindowLoop (targetOrbit : OrbitalElements) (launchSite : LaunchSite)
    (mu timeWindow : ℝ) : ℕ → ℝ → List LaunchOpportunity
  | 0, _ => []
  | n + 1, t =>
    if t < timeWindow then
      launchOpportunityAt targetOrbit launchSite mu t ::
        launchWindowLoop targetOrbit launchSite mu timeWindow n (t + 600)
    else []

/-- `ManeuverOptimizer.launchWindowOptimization(targetOrbit, launchSite,
timeWindow, mu)`: scan every 10 minutes, then sort ascending by
`deltaV` (`opportunities.sort((a, b) => a.deltaV - b.deltaV)`). -/
def launchWindowOptimization (targetOrbit : OrbitalElements) (launchSite : LaunchSite)
    (timeWindow mu : ℝ) : List LaunchOpportunity :=
  (launchWindowLoop targetOrbit launchSite mu timeWindow
      ((⌈timeWindow / 600⌉).toNat + 1) 0).mergeSort
    (fun a b => decide (a.deltaV ≤ b.deltaV))

end ManeuverOptimizer

/-! ## OrbitalMechanicsSolver
(src/physics/solvers/OrbitalMechanicsSolver.ts) -/

namespace OrbitalMechanicsSolver

/-- `OrbitalMechanicsSolver.stateVectorToElements(state, mu)` with its
singularity branches (circular, equatorial, circular-equatorial) and the
clamped `acos` calls. -/
def stateVectorToElements (state : StateVector) (mu : ℝ) : OrbitalElements :=
  let r := state.position
  let v := state.velocity
  let rMag := r.length
  let vMag := v.length
  let h := Vec3.cross r v
  let hMag := h.length
  let energy := vMag * vMag / 2 - mu / rMag
  let a := -mu / (2 * energy)
  let eVector := Vec3.sub (Vec3.divideScalar mu (Vec3.cross v h)) r.normalize
  let e := eVector.length
  let i := acosClamp (h.z / hMag)
  let n : Vec3 := ⟨-h.y, h.x, 0⟩
  let nMag := n.length
  let Omega :=
    if nMag > 1e-10 then
      let Omega0 := acosClamp (n.x / nMag)
      if n.y < 0 then 2 * π - Omega0 else Omega0
    else 0
  let omega :=
    if nMag > 1e-10 ∧ e > 1e-10 then
      let omega0 := acosClamp (Vec3.dot n eVector / (nMag * e))
      if eVector.z < 0 then 2 * π - omega0 else omega0
    else if e > 1e-10 then atan2 eVector.y eVector.x
    else 0
  let nu :=
    if e > 1e-10 then
      let nu0 := acosClamp (Vec3.dot eVector r / (e * rMag))
      if Vec3.dot r v < 0 then 2 * π - nu0 else nu0
    else if nMag > 1e-10 then
      let nu0 := acosClamp (Vec3.dot n r / (nMag * rMag))
      if r.z < 0 then 2 * π - nu0 else nu0
    else atan2 r.y r.x
  { semiMajorAxis := a, eccentricity := e, inclination := i,
    longitudeOfAscendingNode := Omega, argumentOfPeriapsis := omega,
    trueAnomaly := nu }

/-- `OrbitalMechanicsSolver.elementsToStateVector(elements, mu)`:
perifocal position/velocity rotated into the inertial frame. -/
def elementsToStateVector (elements : OrbitalElements) (mu : ℝ) : StateVector :=
  let a := elements.semiMajorAxis
  let e := elements.eccentricity
  let i := elements.inclination
  let Omega := elements.longitudeOfAscendingNode
  let omega := elements.argumentOfPeriapsis
  let nu := elements.trueAnomaly
  let p := a * (1 - e * e)
  let r := p / (1 + e * Real.cos nu)
  let x_orb := r * Real.cos nu
  let y_orb := r * Real.sin nu
  let h := Real.sqrt (mu * p)
  let vx_orb := -(mu / h) * Real.sin nu
  let vy_orb := mu / h * (e + Real.cos nu)
  let cosOmega := Real.cos Omega
  let sinOmega := Real.sin Omega
  let cosI := Real.cos i
  let sinI := Real.sin i
  let cosW := Real.cos omega
  let sinW := Real.sin omega
  let P11 := cosOmega * cosW - sinOmega * sinW * cosI
  let P12 := -cosOmega * sinW - sinOmega * cosW * cosI
  let P21 := sinOmega * cosW + cosOmega * sinW * cosI
  let P22 := -sinOmega * sinW + cosOmega * cosW * cosI
  let P31 := sinW * sinI
  let P32 := cosW * sinI
  { position := ⟨P11 * x_orb + P12 * y_orb, P21 * x_orb + P22 * y_orb,
      P31 * x_orb + P32 * y_orb⟩,
    velocity := ⟨P11 * vx_orb + P12 * vy_orb, P21 * vx_orb + P22 * vy_orb,
      P31 * vx_orb + P32 * vy_orb⟩,
    time := 0 }

/-- The angular-momentum vector `h = r × v` of `stateVectorToElements`. -/
def hVecOf (r v : Vec3) : Vec3 := Vec3.cross r v

/-- The node-line vector `n = (-h_y, h_x, 0)` of `stateVectorToElements`. -/
def nVecOf (r v : Vec3) : Vec3 :=
  ⟨-(Vec3.cross r v).y, (Vec3.cross r v).x, 0⟩

/-- The eccentricity vector `(v × h)/μ - r̂` of `stateVectorToElements`. -/
def eVecOf (r v : Vec3) (mu : ℝ) : Vec3 :=
  Vec3.sub (Vec3.divideScalar mu (Vec3.cross v (Vec3.cross r v))) r.normalize

end OrbitalMechanicsSolver


/-! ## LambertSolver (src/physics/solvers/LambertSolver.ts)

The Lambert routines run on JavaScript numbers, whose special values
(`Infinity`, `-Infinity`, `NaN`) drive the `isFinite` feasibility checks,
so they are embedded over `JSNum`: an IEEE-style extension of `ℝ` with
the two infinities and `NaN` (reals in place of finite doubles, a single
zero). -/

inductive JSNum where
  | fin (x : ℝ)
  | inf
  | ninf
  | nan
deriving DecidableEq

namespace JSNum

/-- `x + y` with IEEE special-value rules. -/
def add : JSNum → JSNum → JSNum
  | nan, _ => nan
  | _, nan => nan
  | inf, ninf => nan
  | ninf, inf => nan
  | inf, _ => inf
  | _, inf => inf
  | ninf, _ => ninf
  | _, ninf => ninf
  | fin x, fin y => fin (x + y)

/-- Unary minus. -/
def neg : JSNum → JSNum
  | fin x => fin (-x)
  | inf => ninf
  | ninf => inf
  | nan => nan

/-- `x - y = x + (-y)`. -/
def sub (a b : JSNum) : JSNum := add a (neg b)

/-- `x * y` with IEEE special-value rules (`0 * ∞ = NaN`). -/
def mul : JSNum → JSNum → JSNum
  | nan, _ => nan
  | _, nan => nan
  | inf, inf => inf
  | inf, ninf => ninf
  | ninf, inf => ninf
  | ninf, ninf => inf
  | inf, fin y => if 0 < y then inf else if y < 0 then ninf else nan
  | fin x, inf => if 0 < x then inf else if x < 0 then ninf else nan
  | ninf, fin y => if 0 < y then ninf else if y < 0 then inf else nan
  | fin x, ninf => if 0 < x then ninf else if x < 0 then inf else nan
  | fin x, fin y => fin (x * y)

/-- `x / y` with IEEE special-value rules (`x / 0 = ±∞` by the sign of
`x`, `0 / 0 = NaN`, finite over infinite is `0`). -/
def div : JSNum → JSNum → JSNum
  | nan, _ => nan
  | _, nan => nan
  | inf, inf => nan
  | inf, ninf => nan
  | ninf, inf => nan
  | ninf, ninf => nan
  | fin _, inf => fin 0
  | fin _, ninf => fin 0
  | inf, fin y => if y < 0 then ninf else inf
  | ninf, fin y => if y < 0 then inf else ninf
  | fin x, fin y =>
    if y = 0 then (if 0 < x then inf else if x < 0 then ninf else nan)
    else fin (x / y)

/-- `Math.abs`. -/
def abs : JSNum → JSNum
  | fin x => fin |x|
  | inf => inf
  | ninf => inf
  | nan => nan

/-- `Math.sqrt` (negative argument gives `NaN`). -/
def sqrt : JSNum → JSNum
  | fin x => if x < 0 then nan else fin (Real.sqrt x)
  | inf => inf
  | ninf => nan
  | nan => nan

/-- `Math.sin`. -/
def sin : JSNum → JSNum
  | fin x => fin (Real.sin x)
  | _ => nan

/-- `Math.cos`. -/
def cos : JSNum → JSNum
  | fin x => fin (Real.cos x)
  | _ => nan

/-- `Math.asin` (`NaN` outside `[-1, 1]`). -/
def asin : JSNum → JSNum
  | fin x => if |x| ≤ 1 then fin (Real.arcsin x) else nan
  | _ => nan

/-- `Math.acos` (`NaN` outside `[-1, 1]`). -/
def acos : JSNum → JSNum
  | fin x => if |x| ≤ 1 then fin (Real.arccos x) else nan
  | _ => nan

/-- `Math.sinh`. -/
def sinh : JSNum → JSNum
  | fin x => fin (Real.sinh x)
  | inf => inf
  | ninf => ninf
  | nan => nan

/-- `Math.asinh`. -/
def asinh : JSNum → JSNum
  | fin x => fin (Real.arsinh x)
  | inf => inf
  | ninf => ninf
  | nan => nan

/-- The strict comparison `x < y` (false whenever `NaN` is involved). -/
def ltB : JSNum → JSNum → Bool
  | nan, _ => false
  | _, nan => false
  | fin x, fin y => decide (x < y)
  | inf, _ => false
  | ninf, ninf => false
  | ninf, _ => true
  | fin _, inf => true
  | fin _, ninf => false

/-- `Number.isFinite`. -/
def isFiniteB : JSNum → Bool
  | fin _ => true
  | _ => false

/-- `Math.min` (`NaN` absorbs). -/
def minJ : JSNum → JSNum → JSNum
  | nan, _ => nan
  | _, nan => nan
  | ninf, _ => ninf
  | _, ninf => ninf
  | inf, b => b
  | a, inf => a
  | fin x, fin y => fin (min x y)

/-- `Math.max` (`NaN` absorbs). -/
def maxJ : JSNum → JSNum → JSNum
  | nan, _ => nan
  | _, nan => nan
  | inf, _ => inf
  | _, inf => inf
  | ninf, b => b
  | a, ninf => a
  | fin x, fin y => fin (max x y)

/-- The JavaScript truthiness coalescing `v || 1` used by
`THREE.Vector3.normalize` (`0` and `NaN` are falsy). -/
def orOne (a : JSNum) : JSNum :=
  if a = fin 0 ∨ a = nan then fin 1 else a

end JSNum

/-- A `THREE.Vector3` of JavaScript numbers. -/
structure JSVec3 where
  x : JSNum
  y : JSNum
  z : JSNum
deriving DecidableEq

namespace JSVec3

/-- `new THREE.Vector3()`. -/
def zero : JSVec3 := ⟨.fin 0, .fin 0, .fin 0⟩

/-- `a.dot(b)`. -/
def dot (a b : JSVec3) : JSNum :=
  ((a.x.mul b.x).add (a.y.mul b.y)).add (a.z.mul b.z)

/-- `a.lengthSq()`. -/
def lengthSq (a : JSVec3) : JSNum :=
  ((a.x.mul a.x).add (a.y.mul a.y)).add (a.z.mul a.z)

/-- `a.length()`. -/
def length (a : JSVec3) : JSNum := a.lengthSq.sqrt

/-- `crossVectors(a, b)`. -/
def cross (a b : JSVec3) : JSVec3 :=
  ⟨(a.y.mul b.z).sub (a.z.mul b.y), (a.z.mul b.x).sub (a.x.mul b.z),
    (a.x.mul b.y).sub (a.y.mul b.x)⟩

/-- `a.multiplyScalar(s)`. -/
def multiplyScalar (a : JSVec3) (s : JSNum) : JSVec3 :=
  ⟨a.x.mul s, a.y.mul s, a.z.mul s⟩

/-- `a.add(b)`. -/
def addV (a b : JSVec3) : JSVec3 :=
  ⟨a.x.add b.x, a.y.add b.y, a.z.add b.z⟩

/-- `a.negate()`. -/
def negate (a : JSVec3) : JSVec3 := ⟨a.x.neg, a.y.neg, a.z.neg⟩

/-- `a.normalize() = a.divideScalar(a.length() || 1)`, and
`divideScalar(s) = multiplyScalar(1 / s)`. -/
def normalize (a : JSVec3) : JSVec3 :=
  a.multiplyScalar ((JSNum.fin 1).div a.length.orOne)

end JSVec3

/-- The `LambertConfig` input (defaults `clockwise = false`,
`multiRevolution = 0` already applied). -/
structure LambertConfig where
  mu : JSNum
  r1 : JSVec3
  r2 : JSVec3
  tof : JSNum
  clockwise : Bool
  multiRevolution : ℕ

/-- The `LambertSolution` record returned by `LambertSolver.solve`. -/
structure LambertSolution where
  v1 : JSVec3
  v2 : JSVec3
  deltaV : JSNum
  trajectory : List (JSVec3 × JSVec3 × JSNum)
  feasible : Bool

namespace LambertSolver

/-- `LambertSolver.calculateMinimumTOF(s, c, mu)` (the unused local
`a = s / 2` of the source is kept). -/
def calculateMinimumTOF (s c mu : JSNum) : JSNum :=
  let _a := s.div (.fin 2)
  let sqrt2s := ((JSNum.fin 2).mul s).sqrt
  let sqrt2sc := ((JSNum.fin 2).mul (s.sub c)).sqrt
  (((JSNum.fin 1).div (.fin 3)).mul (((JSNum.fin 2).div mu).sqrt)).mul
    ((s.mul sqrt2s).sub ((s.sub c).mul sqrt2sc))

/-- `LambertSolver.calculateDTDA(a, s, c, mu, multiRev)`. -/
def calculateDTDA (a s c mu : JSNum) (multiRev : ℕ) : JSNum :=
  if JSNum.ltB (.fin 0) a then
    let alpha := (JSNum.fin 2).mul ((s.div ((JSNum.fin 2).mul a)).sqrt.asin)
    let beta := (JSNum.fin 2).mul (((s.sub c).div ((JSNum.fin 2).mul a)).sqrt.asin)
    let dalphaDA := ((s.div (((JSNum.fin 2).mul ((a.mul a).mul a)))).sqrt.neg).div
      (((JSNum.fin 1).sub (s.div ((JSNum.fin 2).mul a))).sqrt)
    let dbetaDA := (((s.sub c).div (((JSNum.fin 2).mul ((a.mul a).mul a)))).sqrt.neg).div
      (((JSNum.fin 1).sub ((s.sub c).div ((JSNum.fin 2).mul a))).sqrt)
    ((((JSNum.fin 3).div (.fin 2)).mul ((a.div mu).sqrt)).mul
        (((alpha.sub alpha.sin).sub (beta.sub beta.sin)).add
          (.fin (2 * π * multiRev)))).add
      (((((a.mul a).mul a).div mu).sqrt).mul
        ((((JSNum.fin 1).sub alpha.cos).mul dalphaDA).sub
          (((JSNum.fin 1).sub beta.cos).mul dbetaDA)))
  else JSNum.fin 1

/-- One-state encoding of the Newton `for` loop of
`solveLambertEquation`: the state is the pair `(a, alpha)`, the `break`
on `|error| < 1e-12` returns the current state, and exhausted fuel is
the loop running through all its iterations. -/
def solveLambertLoop (s c tof mu : JSNum) (multiRev : ℕ) :
    ℕ → JSNum × JSNum → JSNum × JSNum
  | 0, st => st
  | n + 1, (a, _) =>
    let alphaE := (JSNum.fin 2).mul ((s.div ((JSNum.fin 2).mul a)).sqrt.asin)
    let beta := (JSNum.fin 2).mul (((s.sub c).div ((JSNum.fin 2).mul a)).sqrt.asin)
    let res : JSNum × JSNum :=
      if JSNum.ltB (.fin 0) a then
        (((((a.mul a).mul a).div mu).sqrt).mul
          (((alphaE.sub alphaE.sin).sub (beta.sub beta.sin)).add
            (.fin (2 * π * multiRev))), alphaE)
      else
        let alphaH := (JSNum.fin 2).mul ((s.div (((JSNum.fin 2).mul a).neg)).sqrt.asinh)
        let betaH := (JSNum.fin 2).mul (((s.sub c).div (((JSNum.fin 2).mul a).neg)).sqrt.asinh)
        (((((a.neg.mul a.neg).mul a.neg).div mu).sqrt).mul
          ((alphaH.sinh.sub alphaH).sub (betaH.sinh.sub betaH)), alphaH)
    let tofCalc := res.1
    let alpha := res.2
    let error := tofCalc.sub tof
    if JSNum.ltB error.abs (.fin 1e-12) then (a, alpha)
    else
      let dtda := calculateDTDA a s c mu multiRev
      solveLambertLoop s c tof mu multiRev n (a.sub (error.div dtda), alpha)

/-- `LambertSolver.solveLambertEquation` (the unused `lambda` of the
source is kept; 100 Newton iterations). -/
def solveLambertEquation (s c tof mu : JSNum) (multiRev : ℕ)
    (r1Mag r2Mag : JSNum) : JSNum × JSNum :=
  let _lambda := ((JSNum.fin 1).sub (c.div s)).sqrt
  let st := solveLambertLoop s c tof mu multiRev 100 (s.div (.fin 2), .fin 0)
  let a := st.1
  let alpha := st.2
  let p := (((((JSNum.fin 4).mul a).mul (s.sub r1Mag)).mul (s.sub r2Mag)).mul
      (((alpha.div (.fin 2)).sin).mul ((alpha.div (.fin 2)).sin))).div (c.mul c)
  (a, p)

/-- `LambertSolver.calculateVelocities`. -/
def calculateVelocities (r1 r2 : JSVec3) (a p mu deltaNu : JSNum)
    (clockwise : Bool) : JSVec3 × JSVec3 :=
  let _a := a
  let _r1Mag := r1.length
  let _r2Mag := r2.length
  let ur1 := r1.normalize
  let ur2 := r2.normalize
  let h0 := (JSVec3.cross r1 r2).normalize
  let h := if clockwise then h0.negate else h0
  let sqrtMuP := (mu.div p).sqrt
  let sinSupp := (JSNum.fin π).sub deltaNu
  let vr1 := (sqrtMuP.mul deltaNu.sin).div sinSupp.sin
  let vr2 := ((sqrtMuP.neg).mul deltaNu.sin).div sinSupp.sin
  let vt1 := (sqrtMuP.mul (deltaNu.cos.sub (.fin 1))).div sinSupp.sin
  let vt2 := (sqrtMuP.mul ((JSNum.fin 1).sub deltaNu.cos)).div sinSupp.sin
  let ut1 := (JSVec3.cross h ur1).normalize
  let ut2 := (JSVec3.cross h ur2).normalize
  ((ur1.multiplyScalar vr1).addV (ut1.multiplyScalar vt1),
    (ur2.multiplyScalar vr2).addV (ut2.multiplyScalar vt2))

/-- The body of `generateTrajectory`'s improved-Euler propagation loop,
fuel-indexed by the number of entries still to push (`steps + 1`
initially); the propagation runs only while `i < steps`. -/
def trajLoop (mu dt : JSNum) : ℕ → ℕ → JSVec3 → JSVec3 →
    List (JSVec3 × JSVec3 × JSNum)
  | 0, _, _, _ => []
  | n + 1, i, r, v =>
    let entry : JSVec3 × JSVec3 × JSNum := (r, v, (JSNum.fin i).mul dt)
    match n with
    | 0 => [entry]
    | m + 1 =>
      let accel := (r.normalize).multiplyScalar ((mu.neg).div r.lengthSq)
      let rNext := (r.addV (v.multiplyScalar dt)).addV
        (accel.multiplyScalar (((JSNum.fin 0.5).mul dt).mul dt))
      let aNext := (rNext.normalize).multiplyScalar ((mu.neg).div rNext.lengthSq)
      let vNext := v.addV ((accel.addV aNext).multiplyScalar ((JSNum.fin 0.5).mul dt))
      entry :: trajLoop mu dt (m + 1) (i + 1) rNext vNext

/-- `LambertSolver.generateTrajectory(r0, v0, tof, mu)` with the default
`steps = 100`. -/
def generateTrajectory (r0 v0 : JSVec3) (tof mu : JSNum) :
    List (JSVec3 × JSVec3 × JSNum) :=
  trajLoop mu (tof.div (.fin 100)) 101 0 r0 v0

/-- `LambertSolver.solve(config)`. -/
def solve (config : LambertConfig) : LambertSolution :=
  let mu := config.mu
  let r1 := config.r1
  let r2 := config.r2
  let tof := config.tof
  let r1Mag := r1.length
  let r2Mag := r2.length
  let cosDeltaNu := (r1.dot r2).div (r1Mag.mul r2Mag)
  let normal := JSVec3.cross r1 r2
  let deltaNu0 := (JSNum.maxJ (.fin (-1)) (JSNum.minJ (.fin 1) cosDeltaNu)).acos
  let deltaNu1 :=
    if config.clockwise && JSNum.ltB (.fin 0) normal.z then
      (JSNum.fin (2 * π)).sub deltaNu0
    else if (!config.clockwise) && JSNum.ltB normal.z (.fin 0) then
      (JSNum.fin (2 * π)).sub deltaNu0
    else deltaNu0
  let deltaNu := deltaNu1.add (.fin (2 * π * config.multiRevolution))
  let c := (((r1Mag.mul r1Mag).add (r2Mag.mul r2Mag)).sub
    ((((JSNum.fin 2).mul r1Mag).mul r2Mag).mul cosDeltaNu)).sqrt
  let s := ((r1Mag.add r2Mag).add c).div (.fin 2)
  let tofMin := calculateMinimumTOF s c mu
  if JSNum.ltB tof tofMin then
    { v1 := JSVec3.zero, v2 := JSVec3.zero, deltaV := JSNum.inf,
      trajectory := [], feasible := false }
  else
    let ap := solveLambertEquation s c tof mu config.multiRevolution r1Mag r2Mag
    if !ap.1.isFiniteB || !ap.2.isFiniteB then
      { v1 := JSVec3.zero, v2 := JSVec3.zero, deltaV := JSNum.inf,
        trajectory := [], feasible := false }
    else
      let vv := calculateVelocities r1 r2 ap.1 ap.2 mu deltaNu config.clockwise
      let deltaV := vv.1.length.add vv.2.length
      let trajectory := generateTrajectory r1 vv.1 tof mu
      { v1 := vv.1, v2 := vv.2, deltaV := deltaV, trajectory := trajectory,
        feasible := true }

end LambertSolver

/-! ### Theorems -/

/-- Claim C2 counterexample.  At position `(2, 0, 0)` with `j2 = 1`,
`Re = 1`, `mu = 1`, the code returns x-acceleration
`factor * (p_x / r) * (5*(z/r)^2 - 1) = -3/64`, while the claimed
formula `factor * p_x * (5*(z/r)^2 - 1)` evaluates to `-3/32`. -/
theorem J2_claimed_formula_false :
    (J2Perturbation.calculateAcceleration ⟨1, 1⟩ 1 ⟨2, 0, 0⟩ Vec3.zero 1 0).x = -(3 / 64) ∧
      1.5 * (1 : ℝ) * 1 * (1 / 2) ^ 2 / 2 ^ 3 * 2 * (5 * (0 / 2) ^ 2 - 1) = -(3 / 32) ∧
      (-(3 / 64) : ℝ) ≠ -(3 / 32) := by
  have h4 : Real.sqrt 4 = 2 := by
    rw [show (4 : ℝ) = 2 ^ 2 by norm_num, Real.sqrt_sq (by norm_num : (0 : ℝ) ≤ 2)]
  refine ⟨?_, by norm_num, by norm_num⟩
  simp only [J2Perturbation.calculateAcceleration, Vec3.length, Vec3.lengthSq]
  norm_num [h4]

/-- Claim C2 (amended): for a configured `j2 ≠ 0` and any position with
`r = ‖p‖ > 0`, the returned acceleration has components
`1.5*J2*mu*(Re/r)^2/r^3 * (p_i/r) * (5*(z/r)^2 - 1)` in x and y and
`... * (p_z/r) * (5*(z/r)^2 - 3)` in z: the code scales by the
*normalized* position components, not the raw ones. -/
theorem J2_calculateAcceleration_eq (config : HarmonicPerturbationConfig) (mu : ℝ)
    (p v : Vec3) (m t : ℝ) (hj : config.j2 ≠ 0) (hr : 0 < p.length) :
    J2Perturbation.calculateAcceleration config mu p v m t =
      ⟨1.5 * config.j2 * mu * (config.planetRadius / p.length) ^ 2 / p.length ^ 3 *
          (p.x / p.length) * (5 * (p.z / p.length) ^ 2 - 1),
        1.5 * config.j2 * mu * (config.planetRadius / p.length) ^ 2 / p.length ^ 3 *
          (p.y / p.length) * (5 * (p.z / p.length) ^ 2 - 1),
        1.5 * config.j2 * mu * (config.planetRadius / p.length) ^ 2 / p.length ^ 3 *
          (p.z / p.length) * (5 * (p.z / p.length) ^ 2 - 3)⟩ := by
  simp only [J2Perturbation.calculateAcceleration, if_neg hj]
  ext <;> ring

/-- Witness for the amended claim C2 at the counterexample's input. -/
theorem J2_calculateAcceleration_eq_witness :
    (⟨1, 1⟩ : HarmonicPerturbationConfig).j2 ≠ 0 ∧ 0 < (⟨2, 0, 0⟩ : Vec3).length ∧
      J2Perturbation.calculateAcceleration ⟨1, 1⟩ 1 ⟨2, 0, 0⟩ Vec3.zero 1 0 =
        ⟨1.5 * 1 * 1 * (1 / (2 : ℝ)) ^ 2 / 2 ^ 3 * (2 / 2) * (5 * (0 / 2) ^ 2 - 1),
          1.5 * 1 * 1 * (1 / (2 : ℝ)) ^ 2 / 2 ^ 3 * (0 / 2) * (5 * (0 / 2) ^ 2 - 1),
          1.5 * 1 * 1 * (1 / (2 : ℝ)) ^ 2 / 2 ^ 3 * (0 / 2) * (5 * (0 / 2) ^ 2 - 3)⟩ := by
  have h4 : Real.sqrt 4 = 2 := by
    rw [show (4 : ℝ) = 2 ^ 2 by norm_num, Real.sqrt_sq (by norm_num : (0 : ℝ) ≤ 2)]
  have hlen : (⟨2, 0, 0⟩ : Vec3).length = 2 := by
    simp only [Vec3.length, Vec3.lengthSq]
    norm_num [h4]
  have hj : (⟨1, 1⟩ : HarmonicPerturbationConfig).j2 ≠ 0 := one_ne_zero
  have hr : 0 < (⟨2, 0, 0⟩ : Vec3).length := by rw [hlen]; norm_num
  refine ⟨hj, hr, ?_⟩
  have := J2_calculateAcceleration_eq ⟨1, 1⟩ 1 ⟨2, 0, 0⟩ Vec3.zero 1 0 hj hr
  rw [this, hlen]

/-- Claim C8: `hohmannTransfer` returns the closed-form transfer:
`a_t = (r1+r2)/2`, the two circular/transfer speed differences in
absolute value, their sum, and `transferTime = π·√(a_t³/μ)`, which is
half the transfer-orbit period `2π·√(a_t³/μ)`. -/
theorem hohmannTransfer_spec (r1 r2 mu : ℝ) (h1 : 0 < r1) (h2 : 0 < r2) (hmu : 0 < mu) :
    (ManeuverOptimizer.hohmannTransfer r1 r2 mu).semiMajorAxis = (r1 + r2) / 2 ∧
    (ManeuverOptimizer.hohmannTransfer r1 r2 mu).deltaV1 =
      |Real.sqrt (mu * (2 / r1 - 1 / ((r1 + r2) / 2))) - Real.sqrt (mu / r1)| ∧
    (ManeuverOptimizer.hohmannTransfer r1 r2 mu).deltaV2 =
      |Real.sqrt (mu / r2) - Real.sqrt (mu * (2 / r2 - 1 / ((r1 + r2) / 2)))| ∧
    (ManeuverOptimizer.hohmannTransfer r1 r2 mu).totalDeltaV =
      (ManeuverOptimizer.hohmannTransfer r1 r2 mu).deltaV1 +
        (ManeuverOptimizer.hohmannTransfer r1 r2 mu).deltaV2 ∧
    (ManeuverOptimizer.hohmannTransfer r1 r2 mu).transferTime =
      π * Real.sqrt (((r1 + r2) / 2) ^ 3 / mu) ∧
    (ManeuverOptimizer.hohmannTransfer r1 r2 mu).transferTime =
      2 * π * Real.sqrt (((r1 + r2) / 2) ^ 3 / mu) / 2 := by
  refine ⟨rfl, rfl, rfl, rfl, ?_, ?_⟩ <;>
    simp only [ManeuverOptimizer.hohmannTransfer] <;> try ring_nf

/-- Witness for claim C8 at `r1 = 1`, `r2 = 3`, `mu = 1`. -/
theorem hohmannTransfer_spec_witness :
    (ManeuverOptimizer.hohmannTransfer 1 3 1).semiMajorAxis = (1 + 3) / 2 ∧
    (ManeuverOptimizer.hohmannTransfer 1 3 1).transferTime =
      π * Real.sqrt (((1 + 3) / 2) ^ 3 / 1) := by
  have h := hohmannTransfer_spec 1 3 1 (by norm_num) (by norm_num) (by norm_num)
  exact ⟨h.1, h.2.2.2.2.1⟩

/-! #### Vector algebra toolkit -/

theorem Vec3.lengthSq_nonneg (a : Vec3) : 0 ≤ a.lengthSq := by
  simp only [Vec3.lengthSq]
  nlinarith [sq_nonneg a.x, sq_nonneg a.y, sq_nonneg a.z]

theorem Vec3.length_nonneg (a : Vec3) : 0 ≤ a.length := Real.sqrt_nonneg _

theorem Vec3.sq_length (a : Vec3) : a.length ^ 2 = a.lengthSq :=
  Real.sq_sqrt a.lengthSq_nonneg

theorem Vec3.length_mul_self (a : Vec3) : a.length * a.length = a.lengthSq :=
  Real.mul_self_sqrt a.lengthSq_nonneg

theorem Vec3.lengthSq_eq_zero_iff (a : Vec3) : a.lengthSq = 0 ↔ a = ⟨0, 0, 0⟩ := by
  constructor
  · intro h
    simp only [Vec3.lengthSq] at h
    ext
    · show a.x = 0
      nlinarith [sq_nonneg a.x, sq_nonneg a.y, sq_nonneg a.z]
    · show a.y = 0
      nlinarith [sq_nonneg a.x, sq_nonneg a.y, sq_nonneg a.z]
    · show a.z = 0
      nlinarith [sq_nonneg a.x, sq_nonneg a.y, sq_nonneg a.z]
  · intro h
    rw [h]
    simp [Vec3.lengthSq]

theorem Vec3.length_eq_zero_iff (a : Vec3) : a.length = 0 ↔ a = ⟨0, 0, 0⟩ := by
  rw [Vec3.length, Real.sqrt_eq_zero a.lengthSq_nonneg, Vec3.lengthSq_eq_zero_iff]

theorem Vec3.dot_comm (a b : Vec3) : a.dot b = b.dot a := by
  simp only [Vec3.dot]; ring

theorem Vec3.dot_self_eq (a : Vec3) : a.dot a = a.lengthSq := by
  simp only [Vec3.dot, Vec3.lengthSq]

theorem Vec3.dot_add_right (a b c : Vec3) : a.dot (b.add c) = a.dot b + a.dot c := by
  simp only [Vec3.dot, Vec3.add]; ring

theorem Vec3.dot_sub_right (a b c : Vec3) : a.dot (b.sub c) = a.dot b - a.dot c := by
  simp only [Vec3.dot, Vec3.sub]; ring

theorem Vec3.dot_smul_right (s : ℝ) (a b : Vec3) :
    a.dot (Vec3.smul s b) = s * a.dot b := by
  simp only [Vec3.dot, Vec3.smul]; ring

theorem Vec3.lagrange (a b : Vec3) :
    (Vec3.cross a b).lengthSq = a.lengthSq * b.lengthSq - (a.dot b) ^ 2 := by
  simp only [Vec3.cross, Vec3.lengthSq, Vec3.dot]; ring

theorem Vec3.dot_cross_left (a b : Vec3) : (Vec3.cross a b).dot a = 0 := by
  simp only [Vec3.cross, Vec3.dot]; ring

theorem Vec3.dot_cross_right (a b : Vec3) : (Vec3.cross a b).dot b = 0 := by
  simp only [Vec3.cross, Vec3.dot]; ring

theorem Vec3.triple_rot (a b c : Vec3) :
    (Vec3.cross a b).dot c = (Vec3.cross b c).dot a := by
  simp only [Vec3.cross, Vec3.dot]; ring

theorem Vec3.cross_cross (u w g : Vec3) :
    Vec3.cross (Vec3.cross u w) g =
      Vec3.sub (Vec3.smul (g.dot u) w) (Vec3.smul (g.dot w) u) := by
  ext <;> simp only [Vec3.cross, Vec3.sub, Vec3.smul, Vec3.dot] <;> ring

theorem Vec3.sub_eq_zero_iff (a b : Vec3) : a.sub b = ⟨0, 0, 0⟩ ↔ a = b := by
  constructor
  · intro h
    have hx := congrArg Vec3.x h
    have hy := congrArg Vec3.y h
    have hz := congrArg Vec3.z h
    simp only [Vec3.sub] at hx hy hz
    ext <;> linarith
  · intro h
    rw [h]
    ext <;> simp [Vec3.sub]

theorem Vec3.abs_dot_le (a b : Vec3) : |a.dot b| ≤ a.length * b.length := by
  have hl := Vec3.lagrange a b
  have hc := (Vec3.cross a b).lengthSq_nonneg
  have h2 : (a.dot b) ^ 2 ≤ (a.length * b.length) ^ 2 := by
    rw [mul_pow, Vec3.sq_length, Vec3.sq_length]
    linarith
  calc |a.dot b| = Real.sqrt ((a.dot b) ^ 2) := (Real.sqrt_sq_eq_abs _).symm
    _ ≤ Real.sqrt ((a.length * b.length) ^ 2) := Real.sqrt_le_sqrt h2
    _ = |a.length * b.length| := Real.sqrt_sq_eq_abs _
    _ = a.length * b.length := abs_of_nonneg
        (mul_nonneg a.length_nonneg b.length_nonneg)

theorem Vec3.abs_x_le_length (a : Vec3) : |a.x| ≤ a.length := by
  rw [show |a.x| = Real.sqrt (a.x ^ 2) from (Real.sqrt_sq_eq_abs _).symm, Vec3.length]
  apply Real.sqrt_le_sqrt
  simp only [Vec3.lengthSq]
  nlinarith [sq_nonneg a.y, sq_nonneg a.z]

theorem Vec3.abs_z_le_length (a : Vec3) : |a.z| ≤ a.length := by
  rw [show |a.z| = Real.sqrt (a.z ^ 2) from (Real.sqrt_sq_eq_abs _).symm, Vec3.length]
  apply Real.sqrt_le_sqrt
  simp only [Vec3.lengthSq]
  nlinarith [sq_nonneg a.x, sq_nonneg a.y]

/-- A vector whose cross product with a unit vector vanishes is a
multiple of that unit vector. -/
theorem Vec3.eq_smul_of_cross_eq_zero {x g : Vec3} (hg : g.dot g = 1)
    (hx : Vec3.cross x g = ⟨0, 0, 0⟩) : x = Vec3.smul (x.dot g) g := by
  have hL := Vec3.lagrange x g
  rw [hx] at hL
  simp only [Vec3.lengthSq] at hL
  rw [Vec3.dot_self_eq] at hg
  have h0 : (x.sub (Vec3.smul (x.dot g) g)).lengthSq = 0 := by
    simp only [Vec3.lengthSq, Vec3.sub, Vec3.smul, Vec3.dot] at *
    nlinarith [hL, hg]
  rw [Vec3.lengthSq_eq_zero_iff] at h0
  exact (Vec3.sub_eq_zero_iff _ _).mp h0

/-- Orthogonal decomposition in the plane normal to a unit vector `g`:
any `x ⊥ g` splits along `w ⊥ g` and `g × w` (scaled form). -/
theorem Vec3.planeDecomp {w x g : Vec3} (hg : g.dot g = 1) (hwg : w.dot g = 0)
    (hxg : x.dot g = 0) :
    Vec3.smul (w.dot w) x =
      (Vec3.smul (w.dot x) w).add
        (Vec3.smul ((Vec3.cross g w).dot x) (Vec3.cross g w)) := by
  have hpar : Vec3.cross (Vec3.cross w x) g = ⟨0, 0, 0⟩ := by
    rw [Vec3.cross_cross, show g.dot w = 0 by rw [Vec3.dot_comm]; exact hwg,
      show g.dot x = 0 by rw [Vec3.dot_comm]; exact hxg]
    ext <;> simp [Vec3.sub, Vec3.smul]
  have hwx := Vec3.eq_smul_of_cross_eq_zero hg hpar
  have hdet : (Vec3.cross g w).dot x = (Vec3.cross w x).dot g := Vec3.triple_rot g w x
  -- ‖w×x‖² = ((w×x)·g)²
  have hnorm : (Vec3.cross w x).lengthSq = ((Vec3.cross w x).dot g) ^ 2 := by
    conv_lhs => rw [hwx]
    simp only [Vec3.lengthSq, Vec3.smul]
    rw [Vec3.dot_self_eq] at hg
    simp only [Vec3.lengthSq] at hg
    nlinarith [hg]
  have hL := Vec3.lagrange w x
  -- conclude componentwise via the zero-norm trick
  have hWX : w.dot w * x.dot x - (w.dot x) ^ 2 - ((Vec3.cross g w).dot x) ^ 2 = 0 := by
    rw [hdet, Vec3.dot_self_eq w, Vec3.dot_self_eq x]
    have h2 := hL
    rw [hnorm] at h2
    linarith
  have hGG : (Vec3.cross g w).dot (Vec3.cross g w) = w.dot w := by
    rw [Vec3.dot_self_eq, Vec3.lagrange, ← Vec3.dot_self_eq, ← Vec3.dot_self_eq, hg,
      show g.dot w = 0 by rw [Vec3.dot_comm]; exact hwg]
    ring
  have hwG : w.dot (Vec3.cross g w) = 0 := by
    rw [Vec3.dot_comm]
    exact Vec3.dot_cross_right g w
  have hexp : ((Vec3.smul (w.dot w) x).sub
      ((Vec3.smul (w.dot x) w).add
        (Vec3.smul ((Vec3.cross g w).dot x) (Vec3.cross g w)))).lengthSq =
      (w.dot w) ^ 2 * (x.dot x) + (w.dot x) ^ 2 * (w.dot w) +
        ((Vec3.cross g w).dot x) ^ 2 * ((Vec3.cross g w).dot (Vec3.cross g w)) -
        2 * (w.dot w) * (w.dot x) ^ 2 -
        2 * (w.dot w) * ((Vec3.cross g w).dot x) ^ 2 +
        2 * (w.dot x) * ((Vec3.cross g w).dot x) * (w.dot (Vec3.cross g w)) := by
    simp only [Vec3.lengthSq, Vec3.sub, Vec3.add, Vec3.smul, Vec3.dot, Vec3.cross]
    ring
  have h0 : ((Vec3.smul (w.dot w) x).sub
      ((Vec3.smul (w.dot x) w).add
        (Vec3.smul ((Vec3.cross g w).dot x) (Vec3.cross g w)))).lengthSq = 0 := by
    rw [hexp, hGG, hwG]
    linear_combination (w.dot w) * hWX
  rw [Vec3.lengthSq_eq_zero_iff] at h0
  exact (Vec3.sub_eq_zero_iff _ _).mp h0

theorem Vec3.dot_sub_left (a b c : Vec3) : (a.sub b).dot c = a.dot c - b.dot c := by
  simp only [Vec3.dot, Vec3.sub]; ring

theorem Vec3.dot_smul_left (s : ℝ) (a b : Vec3) :
    (Vec3.smul s a).dot b = s * a.dot b := by
  simp only [Vec3.dot, Vec3.smul]; ring

theorem Vec3.cross_sub_right (a b c : Vec3) :
    Vec3.cross a (b.sub c) = (Vec3.cross a b).sub (Vec3.cross a c) := by
  ext <;> simp only [Vec3.cross, Vec3.sub] <;> ring

theorem Vec3.cross_smul_right (s : ℝ) (a b : Vec3) :
    Vec3.cross a (Vec3.smul s b) = Vec3.smul s (Vec3.cross a b) := by
  ext <;> simp only [Vec3.cross, Vec3.smul] <;> ring

theorem Vec3.cross_smul_left (s : ℝ) (a b : Vec3) :
    Vec3.cross (Vec3.smul s a) b = Vec3.smul s (Vec3.cross a b) := by
  ext <;> simp only [Vec3.cross, Vec3.smul] <;> ring

theorem Vec3.lengthSq_smul (s : ℝ) (a : Vec3) :
    (Vec3.smul s a).lengthSq = s ^ 2 * a.lengthSq := by
  simp only [Vec3.lengthSq, Vec3.smul]; ring

theorem Vec3.normalize_of_ne_zero {a : Vec3} (ha : a.length ≠ 0) :
    a.normalize = Vec3.smul (1 / a.length) a := by
  rw [Vec3.normalize, if_neg ha, Vec3.divideScalar]

/-! #### Clamped-arccos branch values -/

theorem acosClamp_id {t : ℝ} (h1 : -1 ≤ t) (h2 : t ≤ 1) : acosClamp t = Real.arccos t := by
  rw [acosClamp, min_eq_right h2, max_eq_right h1]

/-- The cosine of a possibly sign-flipped clamped arccos. -/
theorem cos_acosClamp_branch (c : Prop) [Decidable c] {t : ℝ} (h1 : -1 ≤ t) (h2 : t ≤ 1) :
    Real.cos (if c then 2 * π - acosClamp t else acosClamp t) = t := by
  rw [acosClamp_id h1 h2]
  split_ifs with hc
  · rw [Real.cos_sub, Real.cos_two_pi, Real.sin_two_pi, Real.cos_arccos h1 h2]
    ring
  · exact Real.cos_arccos h1 h2

/-- The sine of a possibly sign-flipped clamped arccos, when the flip
condition carries the sign of the intended sine value `s`. -/
theorem sin_acosClamp_branch (c : Prop) [Decidable c] {t s : ℝ} (h1 : -1 ≤ t) (h2 : t ≤ 1)
    (hsq : 1 - t ^ 2 = s ^ 2) (hcs : c → s ≤ 0) (hncs : ¬c → 0 ≤ s) :
    Real.sin (if c then 2 * π - acosClamp t else acosClamp t) = s := by
  rw [acosClamp_id h1 h2]
  have hs : Real.sin (Real.arccos t) = |s| := by
    rw [Real.sin_arccos, hsq, Real.sqrt_sq_eq_abs]
  split_ifs with hc
  · rw [Real.sin_sub, Real.sin_two_pi, Real.cos_two_pi, hs, abs_of_nonpos (hcs hc)]
    ring
  · rw [hs, abs_of_nonneg (hncs hc)]

/-! #### Orbital-element identities for the eccentricity, node and
angular-momentum vectors -/

theorem hVec_dot_r (r v : Vec3) : (OrbitalMechanicsSolver.hVecOf r v).dot r = 0 :=
  Vec3.dot_cross_left r v

theorem hVec_dot_v (r v : Vec3) : (OrbitalMechanicsSolver.hVecOf r v).dot v = 0 :=
  Vec3.dot_cross_right r v

theorem cross_v_h_dot_r (r v : Vec3) :
    (Vec3.cross v (Vec3.cross r v)).dot r = (Vec3.cross r v).lengthSq := by
  simp only [Vec3.cross, Vec3.dot, Vec3.lengthSq]; ring

theorem cross_v_h_dot_v (r v : Vec3) :
    (Vec3.cross v (Vec3.cross r v)).dot v = 0 := by
  simp only [Vec3.cross, Vec3.dot]; ring

theorem cross_v_h_lengthSq (r v : Vec3) :
    (Vec3.cross v (Vec3.cross r v)).lengthSq =
      v.lengthSq * (Vec3.cross r v).lengthSq := by
  simp only [Vec3.cross, Vec3.lengthSq]; ring

theorem hVec_dot_eVec (r v : Vec3) (mu : ℝ) (hr : r.length ≠ 0) :
    (OrbitalMechanicsSolver.hVecOf r v).dot (OrbitalMechanicsSolver.eVecOf r v mu) = 0 := by
  rw [OrbitalMechanicsSolver.hVecOf, OrbitalMechanicsSolver.eVecOf,
    Vec3.normalize_of_ne_zero hr, Vec3.divideScalar, Vec3.dot_sub_right,
    Vec3.dot_smul_right, Vec3.dot_smul_right,
    show (Vec3.cross r v).dot (Vec3.cross v (Vec3.cross r v)) = 0 by
      rw [Vec3.dot_comm]; exact Vec3.dot_cross_right v (Vec3.cross r v),
    Vec3.dot_cross_left]
  ring

theorem eVec_dot_r (r v : Vec3) (mu : ℝ) (hr : r.length ≠ 0) (hmu : mu ≠ 0) :
    (OrbitalMechanicsSolver.eVecOf r v mu).dot r =
      (Vec3.cross r v).lengthSq / mu - r.length := by
  rw [OrbitalMechanicsSolver.eVecOf, Vec3.normalize_of_ne_zero hr, Vec3.divideScalar,
    Vec3.dot_sub_left, Vec3.dot_smul_left, Vec3.dot_smul_left, cross_v_h_dot_r,
    Vec3.dot_self_eq, ← Vec3.length_mul_self r]
  field_simp

theorem eVec_dot_v (r v : Vec3) (mu : ℝ) (hr : r.length ≠ 0) :
    (OrbitalMechanicsSolver.eVecOf r v mu).dot v = -(r.dot v) / r.length := by
  rw [OrbitalMechanicsSolver.eVecOf, Vec3.normalize_of_ne_zero hr, Vec3.divideScalar,
    Vec3.dot_sub_left, Vec3.dot_smul_left, Vec3.dot_smul_left, cross_v_h_dot_v]
  rw [show r.dot v = v.dot r from Vec3.dot_comm r v]
  ring

theorem eVec_lengthSq (r v : Vec3) (mu : ℝ) (hr : r.length ≠ 0) (hmu : mu ≠ 0) :
    (OrbitalMechanicsSolver.eVecOf r v mu).lengthSq =
      v.lengthSq * (Vec3.cross r v).lengthSq / mu ^ 2 -
        2 * (Vec3.cross r v).lengthSq / (mu * r.length) + 1 := by
  rw [show (OrbitalMechanicsSolver.eVecOf r v mu).lengthSq =
      (OrbitalMechanicsSolver.eVecOf r v mu).dot (OrbitalMechanicsSolver.eVecOf r v mu)
    from (Vec3.dot_self_eq _).symm]
  rw [OrbitalMechanicsSolver.eVecOf, Vec3.normalize_of_ne_zero hr, Vec3.divideScalar]
  simp only [Vec3.dot_sub_left, Vec3.dot_sub_right, Vec3.dot_smul_left, Vec3.dot_smul_right]
  rw [Vec3.dot_self_eq (Vec3.cross v (Vec3.cross r v)), cross_v_h_lengthSq]
  rw [show (Vec3.cross v (Vec3.cross r v)).dot r = (Vec3.cross r v).lengthSq from
    cross_v_h_dot_r r v]
  rw [show r.dot (Vec3.cross v (Vec3.cross r v)) = (Vec3.cross r v).lengthSq by
    rw [Vec3.dot_comm]; exact cross_v_h_dot_r r v]
  rw [Vec3.dot_self_eq r, ← Vec3.length_mul_self r]
  field_simp
  ring

/-- The cross product of the eccentricity vector with the position is a
multiple of the angular momentum: `e⃗ × r = ((r·v)/μ) h`. -/
theorem eVec_cross_r (r v : Vec3) (mu : ℝ) (hr : r.length ≠ 0) :
    Vec3.cross (OrbitalMechanicsSolver.eVecOf r v mu) r =
      Vec3.smul (r.dot v / mu) (Vec3.cross r v) := by
  rw [OrbitalMechanicsSolver.eVecOf, Vec3.normalize_of_ne_zero hr, Vec3.divideScalar]
  ext <;> simp only [Vec3.cross, Vec3.sub, Vec3.smul, Vec3.dot] <;> field_simp <;> ring

/-- The cross product of the node vector with any vector orthogonal to
`h` is `w_z · h`. -/
theorem nVec_cross (r v w : Vec3) (hw : (Vec3.cross r v).dot w = 0) :
    Vec3.cross (OrbitalMechanicsSolver.nVecOf r v) w =
      Vec3.smul w.z (Vec3.cross r v) := by
  simp only [Vec3.dot, Vec3.cross] at hw
  ext <;> simp only [OrbitalMechanicsSolver.nVecOf, Vec3.cross, Vec3.smul]
  · ring
  · ring
  · linear_combination -hw

/-- `getLast?` of a cons with nonempty tail. -/
theorem getLast?_cons_ne_nil {α : Type*} (a : α) {l : List α} (h : l ≠ []) :
    (a :: l).getLast? = l.getLast? := by
  rw [← List.singleton_append, List.getLast?_append_of_ne_nil _ h]

/-- The integrate loop is empty as soon as the accumulated time has
reached `totalTime`. -/
theorem integrateLoop_done (stepFn : StateVector → StateDerivative → ℝ → StateVector)
    (adaptiveFn : StateVector → StateDerivative → ℝ → AdaptiveResult)
    (config : IntegratorConfig) (f : StateDerivative) (T : ℝ) (fuel : ℕ)
    (t d : ℝ) (s : StateVector) (ht : ¬ t < T) :
    Integrator.integrateLoop stepFn adaptiveFn config f T fuel t d s = [] := by
  cases fuel <;> simp [Integrator.integrateLoop, ht]

/-- Fixed-step characterization of the integrate loop: with the adaptive
branch disabled and a step `d ∈ [minStep, maxStep]`, the loop from time
`t < T` emits exactly `⌈(T - t)/d⌉` states and ends exactly at time
`T`. -/
theorem integrateLoop_fixed (stepFn : StateVector → StateDerivative → ℝ → StateVector)
    (adaptiveFn : StateVector → StateDerivative → ℝ → AdaptiveResult)
    (config : IntegratorConfig) (f : StateDerivative) (T : ℝ)
    (had : config.adaptiveStep = false) (d : ℝ) (hd : 0 < d)
    (hm1 : config.minStep ≤ d) (hm2 : d ≤ config.maxStep) :
    ∀ (fuel : ℕ) (t : ℝ) (s : StateVector), t < T →
      (⌈(T - t) / d⌉).toNat ≤ fuel →
      (Integrator.integrateLoop stepFn adaptiveFn config f T fuel t d s).length =
          (⌈(T - t) / d⌉).toNat ∧
        ∃ sl, (Integrator.integrateLoop stepFn adaptiveFn config f T fuel t d s).getLast? =
            some sl ∧ sl.time = T := by
  intro fuel
  induction fuel with
  | zero =>
    intro t s ht hfuel
    exfalso
    have hpos : 0 < ⌈(T - t) / d⌉ := Int.ceil_pos.mpr (div_pos (by linarith) hd)
    omega
  | succ n ih =>
    intro t s ht hfuel
    have hclamp : max config.minStep (min d config.maxStep) = d := by
      rw [min_eq_left hm2, max_eq_right hm1]
    by_cases hover : t + d > T
    · -- final, clamped step
      have hceil : ⌈(T - t) / d⌉ = 1 := by
        have hlt : (T - t) / d ≤ 1 := by
          rw [div_le_one hd]; linarith
        have hpos : 0 < ⌈(T - t) / d⌉ := Int.ceil_pos.mpr (div_pos (by linarith) hd)
        have h1 : ⌈(T - t) / d⌉ ≤ 1 := by
          rw [show (1 : ℤ) = ⌈(1 : ℝ)⌉ by norm_num]
          exact Int.ceil_le_ceil hlt
        omega
      have hstop : ∀ (fuel : ℕ) (dd : ℝ) (ss : StateVector),
          Integrator.integrateLoop stepFn adaptiveFn config f T fuel
            (t + (T - t)) dd ss = [] := by
        intro fuel dd ss
        apply integrateLoop_done
        rw [show t + (T - t) = T by ring]
        exact lt_irrefl T
      simp only [Integrator.integrateLoop, if_pos ht, if_pos hover, had,
        Bool.false_eq_true, if_false, hstop, hceil]
      refine ⟨rfl, ?_⟩
      refine ⟨_, rfl, ?_⟩
      show t + (T - t) = T
      ring
    · -- full step of size d
      push_neg at hover
      have hdt1 : ¬ t + d > T := by linarith
      by_cases hend : t + d = T
      · have hceil : ⌈(T - t) / d⌉ = 1 := by
          have hone : (T - t) / d = 1 := by
            rw [div_eq_one_iff_eq hd.ne']; linarith
          rw [hone, Int.ceil_one]
        have hstop : ∀ (fuel : ℕ) (dd : ℝ) (ss : StateVector),
            Integrator.integrateLoop stepFn adaptiveFn config f T fuel
              (t + d) dd ss = [] := by
          intro fuel dd ss
          apply integrateLoop_done
          rw [hend]
          exact lt_irrefl T
        simp only [Integrator.integrateLoop, if_pos ht, if_neg hdt1, had,
          Bool.false_eq_true, if_false, hstop, hceil]
        refine ⟨rfl, ?_⟩
        refine ⟨_, rfl, ?_⟩
        exact hend
      · have hmid : t + d < T := lt_of_le_of_ne hover hend
        have hceil2 : ⌈(T - (t + d)) / d⌉ = ⌈(T - t) / d⌉ - 1 := by
          have hx : (T - (t + d)) / d = (T - t) / d - 1 := by
            field_simp
            ring
          rw [hx, show (1 : ℝ) = ((1 : ℤ) : ℝ) by norm_num, Int.ceil_sub_int]
        have hge2 : 2 ≤ ⌈(T - t) / d⌉ := by
          have hlt : (1 : ℝ) < (T - t) / d := by
            rw [lt_div_iff hd]; linarith
          have := Int.lt_ceil.mpr (lt_of_le_of_lt (by norm_num : ((1 : ℤ) : ℝ) ≤ 1) hlt)
          omega
        have hfuel2 : (⌈(T - (t + d)) / d⌉).toNat ≤ n := by
          rw [hceil2]; omega
        obtain ⟨hlen, sl, hlast, htime⟩ := ih (t + d)
          ({ (if config.adaptiveStep = true then
                ((adaptiveFn s f (if t + d > T then T - t else d)).state,
                  (adaptiveFn s f (if t + d > T then T - t else d)).nextStep)
              else (stepFn s f (if t + d > T then T - t else d), if t + d > T then T - t else d)).1
              with time := t + d }) hmid hfuel2
        have hne : Integrator.integrateLoop stepFn adaptiveFn config f T n (t + d) d
            ({ (if config.adaptiveStep = true then
                ((adaptiveFn s f (if t + d > T then T - t else d)).state,
                  (adaptiveFn s f (if t + d > T then T - t else d)).nextStep)
              else (stepFn s f (if t + d > T then T - t else d), if t + d > T then T - t else d)).1
              with time := t + d }) ≠ [] := by
          intro hnil
          rw [hnil] at hlen
          simp only [List.length_nil] at hlen
          have hpos : 0 < ⌈(T - (t + d)) / d⌉ :=
            Int.ceil_pos.mpr (div_pos (by linarith) hd)
          omega
        simp only [Integrator.integrateLoop, if_pos ht, if_neg hdt1, had,
          Bool.false_eq_true, if_false, hclamp]
        simp only [had, Bool.false_eq_true, if_false, if_neg hdt1] at hlen hlast hne
        constructor
        · simp only [List.length_cons, hlen, hceil2]
          omega
        · refine ⟨sl, ?_, htime⟩
          rw [getLast?_cons_ne_nil _ hne]
          exact hlast

/-- Claim C4: with the adaptive option disabled and a fixed step
`dt ∈ [minStep, maxStep]`, `Integrator.integrate` returns exactly
`⌈T/dt⌉ + 1` states, the first being the initial state and the last
carrying time exactly `T` (the final step being clamped). -/
theorem integrate_fixed_step_spec
    (stepFn : StateVector → StateDerivative → ℝ → StateVector)
    (adaptiveFn : StateVector → StateDerivative → ℝ → AdaptiveResult)
    (config : IntegratorConfig) (s0 : StateVector) (f : StateDerivative) (dt T : ℝ)
    (had : config.adaptiveStep = false) (hd : 0 < dt) (hm1 : config.minStep ≤ dt)
    (hm2 : dt ≤ config.maxStep) (hT : 0 < T) :
    (Integrator.integrate stepFn adaptiveFn config s0 f dt T).length =
        (⌈T / dt⌉).toNat + 1 ∧
      (Integrator.integrate stepFn adaptiveFn config s0 f dt T).head? = some s0 ∧
      ∃ sl, (Integrator.integrate stepFn adaptiveFn config s0 f dt T).getLast? =
          some sl ∧ sl.time = T := by
  have hfuel : (⌈(T - 0) / dt⌉).toNat ≤
      (⌈T / dt⌉).toNat + (⌈T / config.minStep⌉).toNat + 1 := by
    rw [sub_zero]; omega
  obtain ⟨hlen, sl, hlast, htime⟩ :=
    integrateLoop_fixed stepFn adaptiveFn config f T had dt hd hm1 hm2
      ((⌈T / dt⌉).toNat + (⌈T / config.minStep⌉).toNat + 1) 0 s0 hT hfuel
  rw [sub_zero] at hlen
  refine ⟨?_, rfl, sl, ?_, htime⟩
  · simp only [Integrator.integrate, List.length_cons, hlen]
  · have hne : Integrator.integrateLoop stepFn adaptiveFn config f T
        ((⌈T / dt⌉).toNat + (⌈T / config.minStep⌉).toNat + 1) 0 dt s0 ≠ [] := by
      intro hnil
      rw [hnil] at hlen
      simp only [List.length_nil] at hlen
      have hpos : 0 < ⌈T / dt⌉ := Int.ceil_pos.mpr (div_pos hT hd)
      omega
    simp only [Integrator.integrate]
    rw [getLast?_cons_ne_nil _ hne]
    exact hlast

/-- Witness for claim C4: Euler base step, default configuration,
`dt = 1`, `T = 2`. -/
theorem integrate_fixed_step_spec_witness :
    (Integrator.integrate EulerIntegrator.step
          (Integrator.adaptiveStepDefault EulerIntegrator.step)
          IntegratorConfig.default restState timeQuartic 1 2).length =
        (⌈(2 : ℝ) / 1⌉).toNat + 1 ∧
      (Integrator.integrate EulerIntegrator.step
          (Integrator.adaptiveStepDefault EulerIntegrator.step)
          IntegratorConfig.default restState timeQuartic 1 2).head? = some restState ∧
      ∃ sl, (Integrator.integrate EulerIntegrator.step
          (Integrator.adaptiveStepDefault EulerIntegrator.step)
          IntegratorConfig.default restState timeQuartic 1 2).getLast? =
          some sl ∧ sl.time = 2 :=
  integrate_fixed_step_spec EulerIntegrator.step
    (Integrator.adaptiveStepDefault EulerIntegrator.step) IntegratorConfig.default
    restState timeQuartic 1 2 rfl (by norm_num)
    (by simp only [IntegratorConfig.default]; norm_num)
    (by simp only [IntegratorConfig.default]; norm_num) (by norm_num)

/-- Successful runs of the adaptive-step loop: the accepted result is a
`tryStep` outcome at the proposed step halved `k < n` times, and its
error passed the tolerance test. -/
theorem adaptiveLoop_accepted (baseStep : StateVector → StateDerivative → ℝ → StateVector)
    (config : IntegratorConfig) (s : StateVector) (f : StateDerivative) :
    ∀ (n : ℕ) (d : ℝ) (res : AdaptiveResult),
      AdaptiveStepsize.adaptiveLoop baseStep config s f n d = some res →
      ∃ k : ℕ, k < n ∧
        res.state = (AdaptiveStepsize.tryStep baseStep s f (d / 2 ^ k)).state ∧
        res.error = (AdaptiveStepsize.tryStep baseStep s f (d / 2 ^ k)).error ∧
        res.error ≤ config.errorTolerance := by
  intro n
  induction n with
  | zero => intro d res h; exact absurd h (by simp [AdaptiveStepsize.adaptiveLoop])
  | succ m ih =>
    intro d res h
    simp only [AdaptiveStepsize.adaptiveLoop] at h
    by_cases hacc : (AdaptiveStepsize.tryStep baseStep s f d).error ≤ config.errorTolerance
    · rw [if_pos hacc] at h
      refine ⟨0, Nat.succ_pos m, ?_⟩
      have hd0 : d / 2 ^ (0 : ℕ) = d := by norm_num
      rw [hd0]
      cases h
      exact ⟨rfl, rfl, hacc⟩
    · rw [if_neg hacc] at h
      by_cases hmin : d * 0.5 < config.minStep
      · rw [if_pos hmin] at h
        exact absurd h (by simp)
      · rw [if_neg hmin] at h
        obtain ⟨k, hk, hs, he, htol⟩ := ih (d * 0.5) res h
        refine ⟨k + 1, by omega, ?_, ?_, htol⟩
        · rw [show d * 0.5 / 2 ^ k = d / 2 ^ (k + 1) by rw [pow_succ]; ring] at hs
          exact hs
        · rw [show d * 0.5 / 2 ^ k = d / 2 ^ (k + 1) by rw [pow_succ]; ring] at he
          exact he

/-- Claim C5: `AdaptiveStepsize.adaptiveStep` either accepts a trial —
a `tryStep` at the proposed step halved at most `maxIterations = 10`
times (`k ≤ 9`), whose error is below `errorTolerance` — or, when the
tolerance is never met or the halved step falls below `minStep`, returns
the `minStep` trial's state and its actual error (with a console
warning, not an exception). -/
theorem adaptiveStep_accept_or_fallback
    (baseStep : StateVector → StateDerivative → ℝ → StateVector)
    (config : IntegratorConfig) (s : StateVector) (f : StateDerivative) (dt : ℝ) :
    (∃ k : ℕ, k ≤ 9 ∧
        (AdaptiveStepsize.adaptiveStep baseStep config s f dt).state =
          (AdaptiveStepsize.tryStep baseStep s f (dt / 2 ^ k)).state ∧
        (AdaptiveStepsize.adaptiveStep baseStep config s f dt).error =
          (AdaptiveStepsize.tryStep baseStep s f (dt / 2 ^ k)).error ∧
        (AdaptiveStepsize.adaptiveStep baseStep config s f dt).error ≤
          config.errorTolerance) ∨
      ((AdaptiveStepsize.adaptiveStep baseStep config s f dt).state =
          (AdaptiveStepsize.tryStep baseStep s f config.minStep).state ∧
        (AdaptiveStepsize.adaptiveStep baseStep config s f dt).nextStep =
          config.minStep ∧
        (AdaptiveStepsize.adaptiveStep baseStep config s f dt).error =
          (AdaptiveStepsize.tryStep baseStep s f config.minStep).error) := by
  rcases hloop : AdaptiveStepsize.adaptiveLoop baseStep config s f 10 dt with _ | res
  · right
    simp only [AdaptiveStepsize.adaptiveStep, hloop]
    exact ⟨trivial, trivial, trivial⟩
  · left
    obtain ⟨k, hk, hs, he, htol⟩ :=
      adaptiveLoop_accepted baseStep config s f 10 dt res hloop
    refine ⟨k, by omega, ?_⟩
    simp only [AdaptiveStepsize.adaptiveStep, hloop]
    exact ⟨hs, he, htol⟩

/-- Claim C6 (amended): `AdaptiveStepsize.tryStep` takes one full step
of the base integrator and two half-steps, keeps the twin (two-half-
step) solution as its state, and reports as error the relative metric
`max(‖Δp‖/max(‖p₁‖,1), ‖Δv‖/max(‖v₁‖,1))` between the full and twin
solutions — with *no* division by 15 (that factor appears only in
`RungeKutta4.adaptiveStep`, not here). -/
theorem tryStep_richardson (baseStep : StateVector → StateDerivative → ℝ → StateVector)
    (s : StateVector) (f : StateDerivative) (dt : ℝ) :
    (AdaptiveStepsize.tryStep baseStep s f dt).state =
        baseStep (baseStep s f (dt / 2)) f (dt / 2) ∧
      (AdaptiveStepsize.tryStep baseStep s f dt).error =
        errorMetricSpec (baseStep s f dt) (baseStep (baseStep s f (dt / 2)) f (dt / 2)) :=
  ⟨rfl, rfl⟩

/-- The length of a vector on the x-axis. -/
theorem Vec3.length_xaxis (x : ℝ) : Vec3.length ⟨x, 0, 0⟩ = |x| := by
  simp only [Vec3.length, Vec3.lengthSq, mul_zero, add_zero]
  exact Real.sqrt_mul_self_eq_abs x

/-- Claim C6 counterexample.  With the default RK4 base integrator, the
quartic time-only derivative, the rest state and `dt = 2`, the reported
error is the full/twin metric itself (`3/80`), not that metric divided
by 15. -/
theorem tryStep_div15_false :
    (AdaptiveStepsize.tryStep RungeKutta4.step restState timeQuartic 2).error ≠
      errorMetricSpec (RungeKutta4.step restState timeQuartic 2)
        (RungeKutta4.step (RungeKutta4.step restState timeQuartic (2 / 2))
          timeQuartic (2 / 2)) / 15 := by
  have hfull : RungeKutta4.step restState timeQuartic 2 =
      ⟨⟨20 / 3, 0, 0⟩, ⟨0, 0, 0⟩, 2⟩ := by
    simp only [RungeKutta4.step, Integrator.addStates, timeQuartic, restState,
      Vec3.add, Vec3.smul, Vec3.zero, StateVector.ext_iff, Vec3.ext_iff]
    norm_num
  have hhalf1 : RungeKutta4.step restState timeQuartic (2 / 2) =
      ⟨⟨5 / 24, 0, 0⟩, ⟨0, 0, 0⟩, 1⟩ := by
    simp only [RungeKutta4.step, Integrator.addStates, timeQuartic, restState,
      Vec3.add, Vec3.smul, Vec3.zero, StateVector.ext_iff, Vec3.ext_iff]
    norm_num
  have hhalf2 : RungeKutta4.step (⟨⟨5 / 24, 0, 0⟩, ⟨0, 0, 0⟩, 1⟩ : StateVector)
      timeQuartic (2 / 2) = ⟨⟨77 / 12, 0, 0⟩, ⟨0, 0, 0⟩, 2⟩ := by
    simp only [RungeKutta4.step, Integrator.addStates, timeQuartic,
      Vec3.add, Vec3.smul, Vec3.zero, StateVector.ext_iff, Vec3.ext_iff]
    norm_num
  have hmetric : errorMetricSpec (⟨⟨20 / 3, 0, 0⟩, ⟨0, 0, 0⟩, 2⟩ : StateVector)
      (⟨⟨77 / 12, 0, 0⟩, ⟨0, 0, 0⟩, 2⟩ : StateVector) = 3 / 80 := by
    simp only [errorMetricSpec, Vec3.sub, sub_zero]
    rw [show (20 : ℝ) / 3 - 77 / 12 = 1 / 4 by norm_num]
    simp only [Vec3.length_xaxis]
    rw [abs_of_nonneg (by norm_num : (0 : ℝ) ≤ 1 / 4),
      abs_of_nonneg (by norm_num : (0 : ℝ) ≤ 20 / 3), abs_zero]
    rw [max_eq_left (by norm_num : (1 : ℝ) ≤ 20 / 3),
      max_eq_right (by norm_num : (0 : ℝ) ≤ 1)]
    rw [show (1 / 4 : ℝ) / (20 / 3) = 3 / 80 by norm_num]
    rw [show (0 : ℝ) / 1 = 0 by norm_num]
    exact max_eq_left (by norm_num)
  have herr : (AdaptiveStepsize.tryStep RungeKutta4.step restState timeQuartic 2).error =
      3 / 80 := by
    have := (tryStep_richardson RungeKutta4.step restState timeQuartic 2).2
    rw [this, hfull, hhalf1, hhalf2, hmetric]
  rw [herr, hfull, hhalf1, hhalf2, hmetric]
  norm_num

/-- Positive scaling of both arguments does not change `atan2`. -/
theorem atan2_smul_pos (k y x : ℝ) (hk : 0 < k) : atan2 (k * y) (k * x) = atan2 y x := by
  unfold atan2
  have hz : (⟨k * x, k * y⟩ : ℂ) = (k : ℂ) * ⟨x, y⟩ := by
    apply Complex.ext <;> simp [Complex.mul_re, Complex.mul_im]
  rw [hz, Complex.arg_real_mul _ hk]

/-- `atan2 (sin θ) (cos θ) = θ` on `(-π, π]`. -/
theorem atan2_sin_cos {θ : ℝ} (h1 : -π < θ) (h2 : θ ≤ π) :
    atan2 (Real.sin θ) (Real.cos θ) = θ := by
  unfold atan2
  rw [Complex.mk_eq_add_mul_I, Complex.ofReal_cos, Complex.ofReal_sin,
    Complex.arg_cos_add_sin_mul_I ⟨h1, h2⟩]

/-- The half-angle `atan2` conversions are mutually inverse on the
elliptic branch: converting an eccentric anomaly in `(-2π, 2π]` to true
anomaly and back is the identity. -/
theorem ecc_true_roundtrip (e E : ℝ) (he0 : 0 ≤ e) (he1 : e < 1)
    (hE1 : -(2 * π) < E) (hE2 : E ≤ 2 * π) :
    KeplerSolver.trueToEccentricAnomaly (KeplerSolver.eccentricToTrueAnomaly E e) e = E := by
  have hs1m : 0 < Real.sqrt (1 - e) := Real.sqrt_pos.mpr (by linarith)
  have hs1p : 0 < Real.sqrt (1 + e) := Real.sqrt_pos.mpr (by linarith)
  set θ := E / 2 with hθdef
  have hθ1 : -π < θ := by rw [hθdef]; linarith
  have hθ2 : θ ≤ π := by rw [hθdef]; linarith
  set w := Real.sqrt (1 - e) * Real.cos θ with hwdef
  set u := Real.sqrt (1 + e) * Real.sin θ with hudef
  have hz : (⟨w, u⟩ : ℂ) ≠ 0 := by
    intro h0
    rw [Complex.ext_iff] at h0
    obtain ⟨hre, him⟩ := h0
    simp only [Complex.zero_re, Complex.zero_im] at hre him
    have hc : Real.cos θ = 0 := by
      rcases mul_eq_zero.mp hre with h | h
      · exact absurd h (ne_of_gt hs1m)
      · exact h
    have hs : Real.sin θ = 0 := by
      rcases mul_eq_zero.mp him with h | h
      · exact absurd h (ne_of_gt hs1p)
      · exact h
    nlinarith [Real.sin_sq_add_cos_sq θ]
  have hA : 0 < Complex.abs ⟨w, u⟩ := Complex.abs.pos hz
  have hinner : KeplerSolver.eccentricToTrueAnomaly E e = 2 * Complex.arg ⟨w, u⟩ := by
    rw [KeplerSolver.eccentricToTrueAnomaly, if_pos he1]
    rfl
  rw [hinner, KeplerSolver.trueToEccentricAnomaly, if_pos he1]
  rw [show 2 * Complex.arg ⟨w, u⟩ / 2 = Complex.arg ⟨w, u⟩ by ring]
  have hcos : Real.cos (Complex.arg ⟨w, u⟩) = w / Complex.abs ⟨w, u⟩ :=
    Complex.cos_arg hz
  have hsin : Real.sin (Complex.arg ⟨w, u⟩) = u / Complex.abs ⟨w, u⟩ :=
    Complex.sin_arg _
  rw [hcos, hsin]
  set k := Real.sqrt (1 - e) * Real.sqrt (1 + e) / Complex.abs ⟨w, u⟩ with hkdef
  have hk : 0 < k := div_pos (mul_pos hs1m hs1p) hA
  have harg1 : Real.sqrt (1 - e) * (u / Complex.abs ⟨w, u⟩) = k * Real.sin θ := by
    rw [hkdef, hudef]
    field_simp
    ring
  have harg2 : Real.sqrt (1 + e) * (w / Complex.abs ⟨w, u⟩) = k * Real.cos θ := by
    rw [hkdef, hwdef]
    field_simp
    ring
  rw [harg1, harg2, atan2_smul_pos _ _ _ hk, atan2_sin_cos hθ1 hθ2, hθdef]
  ring

/-- Cubic bound on the sine remainder, `|sin u - u| ≤ |u|³/4` for
`|u| ≤ 1`. -/
theorem abs_sin_sub_self_le {u : ℝ} (hu : |u| ≤ 1) :
    |Real.sin u - u| ≤ |u| ^ 3 / 4 := by
  rcases le_or_lt 0 u with hpos | hneg
  · rcases eq_or_lt_of_le hpos with h0 | h0
    · simp [← h0]
    · have hu1 : u ≤ 1 := le_trans (le_abs_self u) hu
      have h1 : Real.sin u < u := Real.sin_lt h0
      have h2 : u - u ^ 3 / 4 < Real.sin u := Real.sin_gt_sub_cube h0 hu1
      rw [abs_of_neg (by linarith), abs_of_pos h0]
      linarith
  · have hv : 0 < -u := by linarith
    have hv1 : -u ≤ 1 := by rw [abs_of_neg hneg] at hu; exact hu
    have h1 : Real.sin (-u) < -u := Real.sin_lt hv
    have h2 : -u - (-u) ^ 3 / 4 < Real.sin (-u) := Real.sin_gt_sub_cube hv hv1
    rw [Real.sin_neg] at h1 h2
    rw [abs_of_neg hneg, abs_of_pos (by linarith : 0 < Real.sin u - u)]
    nlinarith

/-- Lipschitz bound for the cosine. -/
theorem abs_cos_sub_cos_le (x y : ℝ) : |Real.cos x - Real.cos y| ≤ |x - y| := by
  rw [Real.cos_sub_cos, abs_mul, abs_mul, abs_neg, abs_two]
  have hs : |Real.sin ((x - y) / 2)| ≤ |x - y| / 2 := by
    have := Real.abs_sin_le_abs (x := (x - y) / 2)
    rwa [abs_div, abs_two] at this
  calc 2 * |Real.sin ((x + y) / 2)| * |Real.sin ((x - y) / 2)|
      ≤ 2 * 1 * (|x - y| / 2) := by
        gcongr
        exact Real.abs_sin_le_one _
    _ = |x - y| := by ring

/-- Second-order Taylor bound for the sine at a Newton update:
`|sin(a+h) - sin a - h cos a| ≤ h²/2 + |h|³/4` for `|h| ≤ 1`. -/
theorem sin_newton_taylor (a h : ℝ) (hh : |h| ≤ 1) :
    |Real.sin (a + h) - Real.sin a - h * Real.cos a| ≤ h ^ 2 / 2 + |h| ^ 3 / 4 := by
  have e1 : (a + h - a) / 2 = h / 2 := by ring
  have e2 : (a + h + a) / 2 = a + h / 2 := by ring
  have hsplit : Real.sin (a + h) - Real.sin a =
      2 * Real.sin (h / 2) * Real.cos (a + h / 2) := by
    rw [Real.sin_sub_sin, e1, e2]
  have key : Real.sin (a + h) - Real.sin a - h * Real.cos a =
      2 * Real.sin (h / 2) * (Real.cos (a + h / 2) - Real.cos a) +
        (2 * Real.sin (h / 2) - h) * Real.cos a := by
    rw [hsplit]; ring
  rw [key]
  have habs2 : |h| * |h| = h ^ 2 := by rw [← abs_mul, abs_mul_self]; ring
  have hs1 : |Real.sin (h / 2)| ≤ |h| / 2 := by
    have := Real.abs_sin_le_abs (x := h / 2)
    rwa [abs_div, abs_two] at this
  have hb1 : |2 * Real.sin (h / 2) * (Real.cos (a + h / 2) - Real.cos a)| ≤ h ^ 2 / 2 := by
    rw [abs_mul, abs_mul, abs_two]
    have hc1 : |Real.cos (a + h / 2) - Real.cos a| ≤ |h| / 2 := by
      have := abs_cos_sub_cos_le (a + h / 2) a
      rwa [show a + h / 2 - a = h / 2 by ring, abs_div, abs_two] at this
    calc 2 * |Real.sin (h / 2)| * |Real.cos (a + h / 2) - Real.cos a|
        ≤ 2 * (|h| / 2) * (|h| / 2) := by gcongr
      _ = h ^ 2 / 2 := by rw [show 2 * (|h| / 2) * (|h| / 2) = |h| * |h| / 2 by ring, habs2]
  have hb2 : |(2 * Real.sin (h / 2) - h) * Real.cos a| ≤ |h| ^ 3 / 4 := by
    rw [abs_mul]
    have hu : |h / 2| ≤ 1 := by
      rw [abs_div, abs_two]
      linarith
    have hsub := abs_sin_sub_self_le hu
    have hs2 : |2 * Real.sin (h / 2) - h| ≤ |h| ^ 3 / 16 := by
      rw [show 2 * Real.sin (h / 2) - h = 2 * (Real.sin (h / 2) - h / 2) by ring,
        abs_mul, abs_two]
      rw [abs_div, abs_two] at hsub
      calc 2 * |Real.sin (h / 2) - h / 2| ≤ 2 * ((|h| / 2) ^ 3 / 4) := by gcongr
        _ = |h| ^ 3 / 16 := by ring
    calc |2 * Real.sin (h / 2) - h| * |Real.cos a| ≤ (|h| ^ 3 / 16) * 1 := by
          gcongr
          exact Real.abs_cos_le_one a
      _ ≤ |h| ^ 3 / 4 := by
          have : 0 ≤ |h| ^ 3 := by positivity
          linarith
  calc |2 * Real.sin (h / 2) * (Real.cos (a + h / 2) - Real.cos a) +
        (2 * Real.sin (h / 2) - h) * Real.cos a|
      ≤ |2 * Real.sin (h / 2) * (Real.cos (a + h / 2) - Real.cos a)| +
        |(2 * Real.sin (h / 2) - h) * Real.cos a| := abs_add _ _
    _ ≤ h ^ 2 / 2 + |h| ^ 3 / 4 := by linarith

/-- Monotonicity bound for `g(E) = E - e·sin E`:
`(x - y)(1 - e) ≤ g x - g y` whenever `y ≤ x` and `0 ≤ e ≤ 1`. -/
theorem kepler_g_mono (e : ℝ) (he0 : 0 ≤ e) (he1 : e ≤ 1) {x y : ℝ} (hxy : y ≤ x) :
    (x - y) * (1 - e) ≤ (x - e * Real.sin x) - (y - e * Real.sin y) := by
  have hs : |Real.sin x - Real.sin y| ≤ |x - y| := by
    rw [Real.sin_sub_sin]
    have h1 : |Real.sin ((x - y) / 2)| ≤ |x - y| / 2 := by
      have := Real.abs_sin_le_abs (x := (x - y) / 2)
      rwa [abs_div, abs_two] at this
    calc |2 * Real.sin ((x - y) / 2) * Real.cos ((x + y) / 2)|
        = 2 * |Real.sin ((x - y) / 2)| * |Real.cos ((x + y) / 2)| := by
          rw [abs_mul, abs_mul, abs_two]
      _ ≤ 2 * (|x - y| / 2) * 1 := by
          gcongr
          exact Real.abs_cos_le_one _
      _ = |x - y| := by ring
  have h2 : Real.sin x - Real.sin y ≤ x - y := by
    have ha := (abs_le.mp hs).2
    rwa [abs_of_nonneg (by linarith : (0 : ℝ) ≤ x - y)] at ha
  nlinarith [mul_le_mul_of_nonneg_left h2 he0]

/-- After an accepted Newton update with `|ΔE| < 10⁻¹²`, the residual of
Kepler's equation at the returned anomaly is below `10⁻²⁴`. -/
theorem kepler_newton_residual (e M Ep : ℝ) (he0 : 0 ≤ e) (he1 : e < 1)
    (hd : |(Ep - e * Real.sin Ep - M) / (1 - e * Real.cos Ep)| < 1e-12) :
    |(Ep - (Ep - e * Real.sin Ep - M) / (1 - e * Real.cos Ep)) -
        e * Real.sin (Ep - (Ep - e * Real.sin Ep - M) / (1 - e * Real.cos Ep)) - M| <
      1e-24 := by
  have hfppos : 0 < 1 - e * Real.cos Ep := by
    nlinarith [Real.cos_le_one Ep, Real.neg_one_le_cos Ep]
  set d := (Ep - e * Real.sin Ep - M) / (1 - e * Real.cos Ep) with hddef
  have hM : M = Ep - e * Real.sin Ep - d * (1 - e * Real.cos Ep) := by
    rw [hddef]
    field_simp
  have hdle : |d| ≤ 1 := by
    have : (1e-12 : ℝ) ≤ 1 := by norm_num
    linarith [le_of_lt hd]
  have htaylor := sin_newton_taylor Ep (-d) (by rwa [abs_neg])
  rw [show Ep + -d = Ep - d by ring] at htaylor
  have hkey : (Ep - d) - e * Real.sin (Ep - d) - M =
      -e * (Real.sin (Ep - d) - Real.sin Ep - (-d) * Real.cos Ep) := by
    rw [hM]
    ring
  rw [hkey, abs_mul, abs_neg, abs_of_nonneg he0]
  have hd2 : d ^ 2 < 1e-24 := by
    rw [← sq_abs]
    nlinarith [abs_nonneg d]
  have hd3 : |d| ^ 3 < 1e-36 := by
    have h3 : |d| ^ 3 < (1e-12 : ℝ) ^ 3 := by gcongr
    have h4 : ((1e-12 : ℝ)) ^ 3 = 1e-36 := by norm_num
    linarith
  have habs3 : |(-d)| ^ 3 = |d| ^ 3 := by rw [abs_neg]
  have hbound : |Real.sin (Ep - d) - Real.sin Ep - (-d) * Real.cos Ep| ≤
      d ^ 2 / 2 + |d| ^ 3 / 4 := by
    have h2 : (-d) ^ 2 = d ^ 2 := by ring
    rw [h2, habs3] at htaylor
    exact htaylor
  calc e * |Real.sin (Ep - d) - Real.sin Ep - (-d) * Real.cos Ep|
      ≤ 1 * (d ^ 2 / 2 + |d| ^ 3 / 4) := by
        apply mul_le_mul (le_of_lt he1) hbound (abs_nonneg _) (by norm_num)
    _ < 1e-24 := by nlinarith

/-- One unfolding of the elliptic Kepler Newton loop. -/
theorem solveKeplerLoop_step (e M tol : ℝ) (n : ℕ) (E0 : ℝ) :
    KeplerSolver.solveKeplerLoop e M tol (n + 1) E0 =
      if |(E0 - e * Real.sin E0 - M) / (1 - e * Real.cos E0)| < tol
      then some (E0 - (E0 - e * Real.sin E0 - M) / (1 - e * Real.cos E0))
      else KeplerSolver.solveKeplerLoop e M tol n
        (E0 - (E0 - e * Real.sin E0 - M) / (1 - e * Real.cos E0)) := rfl

/-- Successful runs of the elliptic Kepler Newton loop end on an
accepted update: the returned anomaly is `Ep - ΔE` for some `Ep` with
`|ΔE| < tolerance`. -/
theorem solveKeplerLoop_success (e M tol : ℝ) :
    ∀ (n : ℕ) (E0 E : ℝ), KeplerSolver.solveKeplerLoop e M tol n E0 = some E →
      ∃ Ep, E = Ep - (Ep - e * Real.sin Ep - M) / (1 - e * Real.cos Ep) ∧
        |(Ep - e * Real.sin Ep - M) / (1 - e * Real.cos Ep)| < tol := by
  intro n
  induction n with
  | zero =>
    intro E0 E h
    exact absurd h (by simp [KeplerSolver.solveKeplerLoop])
  | succ m ih =>
    intro E0 E h
    simp only [KeplerSolver.solveKeplerLoop] at h
    by_cases hc : |(E0 - e * Real.sin E0 - M) / (1 - e * Real.cos E0)| < tol
    · rw [if_pos hc] at h
      exact ⟨E0, (Option.some.inj h).symm, hc⟩
    · rw [if_neg hc] at h
      exact ih _ _ h

/-- `normalizeAngle` is the identity on `[0, 2π)`. -/
theorem normalizeAngle_id {M : ℝ} (h0 : 0 ≤ M) (h2 : M < 2 * π) :
    KeplerSolver.normalizeAngle M = M := by
  rw [KeplerSolver.normalizeAngle, KeplerSolver.normAngleUp, dif_neg (not_lt.mpr h0),
    KeplerSolver.normAngleDown, dif_neg (not_le.mpr h2)]

/-- Claim C7: for `0 ≤ e < 1` and `M ∈ [0, 2π)` (kept a residual's width
`10⁻²⁴` away from `2π`, where the half-angle wrap could fire), whenever
the Newton solve returns — the source raises on non-convergence — the
round trip `M → E → ν → E → M` through `meanToTrueAnomaly` and
`trueToMeanAnomaly` reproduces `M` to within `10⁻¹²`. -/
theorem kepler_roundtrip_spec (e M ν : ℝ) (he0 : 0 ≤ e) (he1 : e < 1)
    (hM0 : 0 ≤ M) (hM2 : M ≤ 2 * π - 1e-24)
    (hsolve : KeplerSolver.meanToTrueAnomaly M e = some ν) :
    |KeplerSolver.trueToMeanAnomaly ν e - M| ≤ 1e-12 := by
  have hpi := Real.pi_gt_three
  have hM2' : M < 2 * π := by nlinarith
  rw [KeplerSolver.meanToTrueAnomaly, if_pos he1] at hsolve
  obtain ⟨E, hE, hν⟩ := Option.map_eq_some'.mp hsolve
  rw [KeplerSolver.solveKeplerEquation, normalizeAngle_id hM0 hM2'] at hE
  obtain ⟨Ep, hEeq, hdlt⟩ := solveKeplerLoop_success e M 1e-12 50 _ E hE
  have hres : |E - e * Real.sin E - M| < 1e-24 := by
    rw [hEeq]
    exact kepler_newton_residual e M Ep he0 he1 hdlt
  have habs := abs_lt.mp hres
  have hEle : E ≤ 2 * π := by
    by_contra hgt
    push_neg at hgt
    have hmono := kepler_g_mono e he0 (le_of_lt he1) (le_of_lt hgt)
    have hg2 : Real.sin (2 * π) = 0 := Real.sin_two_pi
    have h1 : 0 ≤ (E - 2 * π) * (1 - e) :=
      mul_nonneg (by linarith) (by linarith)
    nlinarith [habs.2]
  have hEgt : -(2 * π) < E := by
    by_contra hle
    push_neg at hle
    have hmono := kepler_g_mono e he0 (le_of_lt he1) hle
    have hgm2 : Real.sin (-(2 * π)) = 0 := by
      rw [Real.sin_neg, Real.sin_two_pi, neg_zero]
    have h1 : 0 ≤ (-(2 * π) - E) * (1 - e) :=
      mul_nonneg (by linarith) (by linarith)
    nlinarith [habs.1]
  subst hν
  rw [KeplerSolver.trueToMeanAnomaly]
  simp only [if_pos he1]
  rw [ecc_true_roundtrip e E he0 he1 hEgt hEle]
  have h12 : (1e-24 : ℝ) ≤ 1e-12 := by norm_num
  calc |E - e * Real.sin E - M| ≤ 1e-24 := le_of_lt hres
    _ ≤ 1e-12 := h12

/-- Witness for claim C7 at `e = 0`, `M = π` (the Newton solve accepts
its initial guess immediately there). -/
theorem kepler_roundtrip_spec_witness :
    KeplerSolver.meanToTrueAnomaly π 0 =
        some (KeplerSolver.eccentricToTrueAnomaly π 0) ∧
      |KeplerSolver.trueToMeanAnomaly (KeplerSolver.eccentricToTrueAnomaly π 0) 0 - π| ≤
        1e-12 := by
  have hpi := Real.pi_gt_three
  have hnorm : KeplerSolver.normalizeAngle π = π :=
    normalizeAngle_id (le_of_lt Real.pi_pos) (by nlinarith)
  have hq : (π - 0 * Real.sin π - π) / (1 - 0 * Real.cos π) = 0 := by
    norm_num
  have hs : KeplerSolver.meanToTrueAnomaly π 0 =
      some (KeplerSolver.eccentricToTrueAnomaly π 0) := by
    rw [KeplerSolver.meanToTrueAnomaly, if_pos (by norm_num : (0 : ℝ) < 1),
      KeplerSolver.solveKeplerEquation, hnorm,
      show π + (0 : ℝ) * Real.sin π = π by ring,
      show (50 : ℕ) = 49 + 1 from rfl, solveKeplerLoop_step, hq]
    rw [if_pos (by norm_num : |(0 : ℝ)| < 1e-12), sub_zero]
    rfl
  refine ⟨hs, ?_⟩
  exact kepler_roundtrip_spec 0 π _ le_rfl (by norm_num) (le_of_lt Real.pi_pos)
    (by nlinarith) hs

/-- One unfolding of the launch-window scan loop. -/
theorem launchWindowLoop_step (O : OrbitalElements) (S : LaunchSite)
    (mu timeWindow : ℝ) (n : ℕ) (t : ℝ) :
    ManeuverOptimizer.launchWindowLoop O S mu timeWindow (n + 1) t =
      if t < timeWindow then
        ManeuverOptimizer.launchOpportunityAt O S mu t ::
          ManeuverOptimizer.launchWindowLoop O S mu timeWindow n (t + 600)
      else [] := rfl

/-- The 24-hour launch-window scan at 10-minute steps: characterization
of the raw loop from sample index `k`. -/
theorem launchWindowLoop_spec (O : OrbitalElements) (S : LaunchSite) (mu : ℝ) :
    ∀ (m k : ℕ), k + m = 144 →
      (ManeuverOptimizer.launchWindowLoop O S mu 86400 (m + 1)
          ((600 : ℝ) * k)).length = m ∧
        ∀ o ∈ ManeuverOptimizer.launchWindowLoop O S mu 86400 (m + 1) ((600 : ℝ) * k),
          ∃ j : ℕ, j < 144 ∧
            o = ManeuverOptimizer.launchOpportunityAt O S mu ((600 : ℝ) * j) := by
  intro m
  induction m with
  | zero =>
    intro k hk
    have hk144 : k = 144 := by omega
    subst hk144
    have ht : ¬ ((600 : ℝ) * ((144 : ℕ) : ℝ) < 86400) := by push_cast; norm_num
    rw [launchWindowLoop_step, if_neg ht]
    exact ⟨rfl, by simp⟩
  | succ m ih =>
    intro k hk
    have hk143 : (k : ℝ) ≤ 143 := by
      have : k ≤ 143 := by omega
      exact_mod_cast this
    have ht : (600 : ℝ) * k < 86400 := by nlinarith
    have hnext : (600 : ℝ) * k + 600 = (600 : ℝ) * ((k + 1 : ℕ) : ℝ) := by
      push_cast; ring
    obtain ⟨ihlen, ihmem⟩ := ih (k + 1) (by omega)
    rw [launchWindowLoop_step, if_pos ht, hnext]
    constructor
    · rw [List.length_cons, ihlen]
    · intro o ho
      rcases List.mem_cons.mp ho with ho | ho
      · exact ⟨k, by omega, ho⟩
      · exact ihmem o ho

/-- Claim C9 (amended): `launchWindowOptimization` (default 24 h window)
returns one opportunity per 10-minute launch time `600·k`, `k < 144`,
each reporting `ΔV = √(v_orb² + v_earth² − 2·v_orb·v_earth·cos(azimuth))`
where `azimuth = atan2(sin β, tan i / sin φ)` and
`β = asin(cos i / cos φ)`: the code puts `cos(azimuth)`, not `cos β`,
in the ΔV formula. -/
theorem launchWindow_corrected (O : OrbitalElements) (S : LaunchSite) (mu : ℝ) :
    (ManeuverOptimizer.launchWindowOptimization O S 86400 mu).length = 144 ∧
      ∀ o ∈ ManeuverOptimizer.launchWindowOptimization O S 86400 mu,
        (∃ k : ℕ, k < 144 ∧ o.launchTime = 600 * k) ∧
          o.deltaV = Real.sqrt
            (Real.sqrt (mu / O.semiMajorAxis) ^ 2 + (465.1 * Real.cos S.latitude) ^ 2 -
              2 * Real.sqrt (mu / O.semiMajorAxis) * (465.1 * Real.cos S.latitude) *
                Real.cos (atan2
                  (Real.sin (Real.arcsin (Real.cos O.inclination / Real.cos S.latitude)))
                  (Real.tan O.inclination / Real.sin S.latitude))) := by
  have hfuel : (⌈(86400 : ℝ) / 600⌉).toNat + 1 = 145 := by
    rw [show (86400 : ℝ) / 600 = ((144 : ℤ) : ℝ) by norm_num, Int.ceil_intCast]
    rfl
  have hzero : ((600 : ℝ) * ((0 : ℕ) : ℝ)) = 0 := by push_cast; ring
  obtain ⟨hlen, hmem⟩ := launchWindowLoop_spec O S mu 144 0 (by omega)
  rw [hzero] at hlen hmem
  have hperm := (ManeuverOptimizer.launchWindowLoop O S mu 86400 145 0).mergeSort_perm
    (fun a b => decide (a.deltaV ≤ b.deltaV))
  constructor
  · rw [ManeuverOptimizer.launchWindowOptimization, hfuel, hperm.length_eq, hlen]
  · intro o ho
    rw [ManeuverOptimizer.launchWindowOptimization, hfuel, hperm.mem_iff] at ho
    obtain ⟨j, hj, hoeq⟩ := hmem o ho
    subst hoeq
    refine ⟨⟨j, hj, rfl⟩, ?_⟩
    show Real.sqrt _ = _
    congr 1
    ring

set_option maxHeartbeats 1000000 in
/-- Claim C9 counterexample.  At inclination `π/3`, latitude `π/4` and
`μ = a = 1`, the code's per-sample ΔV uses `cos(azimuth)` with
`azimuth = atan2(sin β, tan i / sin φ) = atan2(√2/2, √6)` whose cosine
is `√(12/13)`, while the claimed formula uses `cos β = √2/2`; the two
ΔV values differ, so not every returned opportunity satisfies the
claimed formula. -/
theorem launchWindow_cosBeta_false :
    ¬ ∀ o ∈ ManeuverOptimizer.launchWindowOptimization ⟨1, 0, π / 3, 0, 0, 0⟩
          ⟨π / 4, 0⟩ 86400 1,
        o.deltaV = Real.sqrt
          (Real.sqrt ((1 : ℝ) / 1) ^ 2 + (465.1 * Real.cos (π / 4)) ^ 2 -
            2 * Real.sqrt ((1 : ℝ) / 1) * (465.1 * Real.cos (π / 4)) *
              Real.cos (Real.arcsin (Real.cos (π / 3) / Real.cos (π / 4)))) := by
  intro hall
  obtain ⟨hlen, hmem⟩ := launchWindow_corrected ⟨1, 0, π / 3, 0, 0, 0⟩ ⟨π / 4, 0⟩ 1
  have hne : ManeuverOptimizer.launchWindowOptimization ⟨1, 0, π / 3, 0, 0, 0⟩
      ⟨π / 4, 0⟩ 86400 1 ≠ [] := by
    intro h
    rw [h] at hlen
    simp at hlen
  obtain ⟨o, ho⟩ := List.exists_mem_of_ne_nil _ hne
  have h1 := (hmem o ho).2
  have h2 := hall o ho
  dsimp only at h1
  -- shared numeric facts
  have hpi := Real.pi_gt_three
  have h2m : Real.sqrt 2 * Real.sqrt 2 = 2 := Real.mul_self_sqrt (by norm_num)
  have h3m : Real.sqrt 3 * Real.sqrt 3 = 3 := Real.mul_self_sqrt (by norm_num)
  have h6m : Real.sqrt 6 * Real.sqrt 6 = 6 := Real.mul_self_sqrt (by norm_num)
  have h2pos : (0 : ℝ) < Real.sqrt 2 := Real.sqrt_pos.mpr (by norm_num)
  have h6pos : (0 : ℝ) < Real.sqrt 6 := Real.sqrt_pos.mpr (by norm_num)
  have hs22pos : (0 : ℝ) < Real.sqrt 2 / 2 := by positivity
  -- the ratio cos i / cos φ is sin (π/4)
  have hratio : (1 / 2 : ℝ) / (Real.sqrt 2 / 2) = Real.sqrt 2 / 2 := by
    rw [div_eq_iff (ne_of_gt hs22pos)]
    nlinarith
  have hbeta : Real.arcsin (Real.cos (π / 3) / Real.cos (π / 4)) = π / 4 := by
    rw [Real.cos_pi_div_three, Real.cos_pi_div_four, hratio, ← Real.sin_pi_div_four,
      Real.arcsin_sin (by linarith) (by linarith)]
  -- tan(π/3) / sin(π/4) = √6
  have htan3 : Real.tan (π / 3) = Real.sqrt 3 := by
    rw [Real.tan_eq_sin_div_cos, Real.sin_pi_div_three, Real.cos_pi_div_three]
    field_simp
  have hx6 : Real.tan (π / 3) / Real.sin (π / 4) = Real.sqrt 6 := by
    rw [htan3, Real.sin_pi_div_four, div_eq_iff (ne_of_gt hs22pos)]
    have h12 : Real.sqrt 6 * Real.sqrt 2 = Real.sqrt 12 := by
      rw [← Real.sqrt_mul (by norm_num : (0 : ℝ) ≤ 6)]
      norm_num
    have h12' : Real.sqrt 12 = 2 * Real.sqrt 3 := by
      rw [show (12 : ℝ) = 2 ^ 2 * 3 by norm_num, Real.sqrt_mul (by positivity),
        Real.sqrt_sq (by norm_num : (0 : ℝ) ≤ 2)]
    rw [show Real.sqrt 6 * (Real.sqrt 2 / 2) = Real.sqrt 6 * Real.sqrt 2 / 2 by ring,
      h12, h12']
    ring
  -- cosine of the code's azimuth
  have hz : (⟨Real.sqrt 6, Real.sqrt 2 / 2⟩ : ℂ) ≠ 0 := by
    intro h0
    rw [Complex.ext_iff] at h0
    simp only [Complex.zero_re, Complex.zero_im] at h0
    exact absurd h0.1 (ne_of_gt h6pos)
  have habs : Complex.abs ⟨Real.sqrt 6, Real.sqrt 2 / 2⟩ = Real.sqrt (13 / 2) := by
    rw [Complex.abs_apply, Complex.normSq_mk]
    congr 1
    nlinarith
  have hcosaz : Real.cos (atan2 (Real.sqrt 2 / 2) (Real.sqrt 6)) = Real.sqrt (12 / 13) := by
    rw [atan2, Complex.cos_arg hz]
    show Real.sqrt 6 / Complex.abs _ = _
    rw [habs, ← Real.sqrt_div (by norm_num : (0 : ℝ) ≤ 6)]
    norm_num
  -- rewrite the code-side equation
  rw [hbeta, hx6, Real.sin_pi_div_four, hcosaz] at h1
  rw [hbeta] at h2
  rw [h1] at h2
  clear hall hmem hlen hne ho h1
  clear o
  -- both radicands are nonnegative, so the radicands must agree
  set ve : ℝ := 465.1 * Real.cos (π / 4) with hvedef
  have hve : ve = 465.1 * (Real.sqrt 2 / 2) := by rw [hvedef, Real.cos_pi_div_four]
  have hvepos : 0 < ve := by rw [hve]; positivity
  have hone : Real.sqrt ((1 : ℝ) / 1) = 1 := by norm_num
  rw [hone, Real.cos_pi_div_four] at h2
  have hc1le : Real.sqrt (12 / 13) ≤ 1 := by
    rw [show (1 : ℝ) = Real.sqrt 1 by rw [Real.sqrt_one]]
    exact Real.sqrt_le_sqrt (by norm_num)
  have hc2le : Real.sqrt 2 / 2 ≤ 1 := by nlinarith
  have hc1pos : 0 ≤ Real.sqrt (12 / 13) := Real.sqrt_nonneg _
  have hA0 : 0 ≤ 1 ^ 2 + ve ^ 2 - 2 * 1 * ve * Real.sqrt (12 / 13) := by nlinarith
  have hB0 : 0 ≤ 1 ^ 2 + ve ^ 2 - 2 * 1 * ve * (Real.sqrt 2 / 2) := by nlinarith
  have hrad := (Real.sqrt_inj hA0 hB0).mp h2
  have hcancel : ve * Real.sqrt (12 / 13) = ve * (Real.sqrt 2 / 2) := by linarith
  have hkey : Real.sqrt (12 / 13) = Real.sqrt 2 / 2 :=
    mul_left_cancel₀ (ne_of_gt hvepos) hcancel
  have h1213 : Real.sqrt (12 / 13) * Real.sqrt (12 / 13) = 12 / 13 :=
    Real.mul_self_sqrt (by norm_num)
  rw [hkey] at h1213
  nlinarith

/-- Claim C10: the state returned by `Verlet.step` does not depend on the
cached `previousAcceleration`: for any cache contents, the position and
velocity (and time) equal those produced right after `reset()`, because
the first-step branch and the cached branch compute the same updates. -/
theorem verlet_step_cache_independent (cache : Option StateVector)
    (state : StateVector) (derivative : StateDerivative) (dt : ℝ) :
    (Verlet.step cache state derivative dt).1 =
      (Verlet.step none state derivative dt).1 := by
  cases cache <;> rfl

/-! #### Round trip through the orbital elements (claim C1) -/

theorem Vec3.smul_smul (a b : ℝ) (x : Vec3) :
    Vec3.smul a (Vec3.smul b x) = Vec3.smul (a * b) x := by
  ext <;> simp only [Vec3.smul] <;> ring

theorem Vec3.smul_cancel {s : ℝ} (hs : s ≠ 0) {a b : Vec3}
    (h : Vec3.smul s a = Vec3.smul s b) : a = b := by
  have hx := congrArg Vec3.x h
  have hy := congrArg Vec3.y h
  have hz := congrArg Vec3.z h
  simp only [Vec3.smul] at hx hy hz
  ext
  · exact mul_left_cancel₀ hs hx
  · exact mul_left_cancel₀ hs hy
  · exact mul_left_cancel₀ hs hz

/-- A vector of two-column linear combinations is the sum of the scaled
columns. -/
theorem Vec3.col_comb (a b c d f g x y : ℝ) :
    (⟨a * x + d * y, b * x + f * y, c * x + g * y⟩ : Vec3) =
      (Vec3.smul x ⟨a, b, c⟩).add (Vec3.smul y ⟨d, f, g⟩) := by
  ext <;> simp only [Vec3.add, Vec3.smul] <;> ring

/-- The cross product of the eccentricity vector with the velocity is
also a multiple of the angular momentum. -/
theorem eVec_cross_v (r v : Vec3) (mu : ℝ) (hr : r.length ≠ 0) :
    Vec3.cross (OrbitalMechanicsSolver.eVecOf r v mu) v =
      Vec3.smul (v.lengthSq / mu - 1 / r.length) (Vec3.cross r v) := by
  rw [OrbitalMechanicsSolver.eVecOf, Vec3.normalize_of_ne_zero hr, Vec3.divideScalar]
  ext <;> simp only [Vec3.cross, Vec3.sub, Vec3.smul, Vec3.lengthSq] <;>
    field_simp <;> ring

theorem div_abs_le_one {a b : ℝ} (hb : 0 < b) (h : |a| ≤ b) :
    -1 ≤ a / b ∧ a / b ≤ 1 := by
  rw [abs_le] at h
  constructor
  · rw [le_div_iff hb]
    linarith
  · rw [div_le_one hb]
    exact h.2

/-! The six fields of `stateVectorToElements` as closed expressions over
the helper vectors (all definitional). -/

theorem sVTE_a (r v : Vec3) (t mu : ℝ) :
    (OrbitalMechanicsSolver.stateVectorToElements ⟨r, v, t⟩ mu).semiMajorAxis =
      -mu / (2 * (v.length * v.length / 2 - mu / r.length)) := rfl

theorem sVTE_e (r v : Vec3) (t mu : ℝ) :
    (OrbitalMechanicsSolver.stateVectorToElements ⟨r, v, t⟩ mu).eccentricity =
      (OrbitalMechanicsSolver.eVecOf r v mu).length := rfl

theorem sVTE_i (r v : Vec3) (t mu : ℝ) :
    (OrbitalMechanicsSolver.stateVectorToElements ⟨r, v, t⟩ mu).inclination =
      acosClamp ((Vec3.cross r v).z / (Vec3.cross r v).length) := rfl

theorem sVTE_Omega (r v : Vec3) (t mu : ℝ) :
    (OrbitalMechanicsSolver.stateVectorToElements ⟨r, v, t⟩ mu).longitudeOfAscendingNode =
      (if (OrbitalMechanicsSolver.nVecOf r v).length > 1e-10 then
        (if (OrbitalMechanicsSolver.nVecOf r v).y < 0 then
          2 * π - acosClamp ((OrbitalMechanicsSolver.nVecOf r v).x /
            (OrbitalMechanicsSolver.nVecOf r v).length)
        else acosClamp ((OrbitalMechanicsSolver.nVecOf r v).x /
            (OrbitalMechanicsSolver.nVecOf r v).length))
      else 0) := rfl

theorem sVTE_w (r v : Vec3) (t mu : ℝ) :
    (OrbitalMechanicsSolver.stateVectorToElements ⟨r, v, t⟩ mu).argumentOfPeriapsis =
      (if (OrbitalMechanicsSolver.nVecOf r v).length > 1e-10 ∧
          (OrbitalMechanicsSolver.eVecOf r v mu).length > 1e-10 then
        (if (OrbitalMechanicsSolver.eVecOf r v mu).z < 0 then
          2 * π - acosClamp (Vec3.dot (OrbitalMechanicsSolver.nVecOf r v)
              (OrbitalMechanicsSolver.eVecOf r v mu) /
            ((OrbitalMechanicsSolver.nVecOf r v).length *
              (OrbitalMechanicsSolver.eVecOf r v mu).length))
        else acosClamp (Vec3.dot (OrbitalMechanicsSolver.nVecOf r v)
              (OrbitalMechanicsSolver.eVecOf r v mu) /
            ((OrbitalMechanicsSolver.nVecOf r v).length *
              (OrbitalMechanicsSolver.eVecOf r v mu).length)))
      else if (OrbitalMechanicsSolver.eVecOf r v mu).length > 1e-10 then
        atan2 (OrbitalMechanicsSolver.eVecOf r v mu).y
          (OrbitalMechanicsSolver.eVecOf r v mu).x
      else 0) := rfl

theorem sVTE_nu (r v : Vec3) (t mu : ℝ) :
    (OrbitalMechanicsSolver.stateVectorToElements ⟨r, v, t⟩ mu).trueAnomaly =
      (if (OrbitalMechanicsSolver.eVecOf r v mu).length > 1e-10 then
        (if Vec3.dot r v < 0 then
          2 * π - acosClamp (Vec3.dot (OrbitalMechanicsSolver.eVecOf r v mu) r /
            ((OrbitalMechanicsSolver.eVecOf r v mu).length * r.length))
        else acosClamp (Vec3.dot (OrbitalMechanicsSolver.eVecOf r v mu) r /
            ((OrbitalMechanicsSolver.eVecOf r v mu).length * r.length)))
      else if (OrbitalMechanicsSolver.nVecOf r v).length > 1e-10 then
        (if r.z < 0 then
          2 * π - acosClamp (Vec3.dot (OrbitalMechanicsSolver.nVecOf r v) r /
            ((OrbitalMechanicsSolver.nVecOf r v).length * r.length))
        else acosClamp (Vec3.dot (OrbitalMechanicsSolver.nVecOf r v) r /
            ((OrbitalMechanicsSolver.nVecOf r v).length * r.length)))
      else atan2 r.y r.x) := rfl

/-! Cosine and sine of each angular element, in the non-degenerate
branches. -/

theorem elems_cos_i (r v : Vec3) (t mu : ℝ) (hh : 0 < (Vec3.cross r v).length) :
    Real.cos ((OrbitalMechanicsSolver.stateVectorToElements ⟨r, v, t⟩ mu).inclination) =
      (Vec3.cross r v).z / (Vec3.cross r v).length := by
  rw [sVTE_i]
  obtain ⟨hb1, hb2⟩ := div_abs_le_one hh (Vec3.abs_z_le_length _)
  rw [acosClamp_id hb1 hb2]
  exact Real.cos_arccos hb1 hb2

theorem elems_sin_i (r v : Vec3) (t mu : ℝ) (hh : 0 < (Vec3.cross r v).length) :
    Real.sin ((OrbitalMechanicsSolver.stateVectorToElements ⟨r, v, t⟩ mu).inclination) =
      (OrbitalMechanicsSolver.nVecOf r v).length / (Vec3.cross r v).length := by
  rw [sVTE_i]
  obtain ⟨hb1, hb2⟩ := div_abs_le_one hh (Vec3.abs_z_le_length _)
  rw [acosClamp_id hb1 hb2, Real.sin_arccos]
  have h1 : (Vec3.cross r v).length ^ 2 = (Vec3.cross r v).lengthSq :=
    Vec3.sq_length _
  have h2 : (OrbitalMechanicsSolver.nVecOf r v).length ^ 2 =
      (OrbitalMechanicsSolver.nVecOf r v).lengthSq := Vec3.sq_length _
  have h3 : (Vec3.cross r v).lengthSq =
      (OrbitalMechanicsSolver.nVecOf r v).lengthSq + (Vec3.cross r v).z ^ 2 := by
    simp only [OrbitalMechanicsSolver.nVecOf, Vec3.lengthSq]; ring
  have hkey : 1 - ((Vec3.cross r v).z / (Vec3.cross r v).length) ^ 2 =
      ((OrbitalMechanicsSolver.nVecOf r v).length / (Vec3.cross r v).length) ^ 2 := by
    field_simp
    linarith [h1, h2, h3]
  rw [hkey, Real.sqrt_sq (div_nonneg (Vec3.length_nonneg _) hh.le)]

theorem elems_cos_Omega (r v : Vec3) (t mu : ℝ)
    (hn : 1e-10 < (OrbitalMechanicsSolver.nVecOf r v).length) :
    Real.cos ((OrbitalMechanicsSolver.stateVectorToElements
        ⟨r, v, t⟩ mu).longitudeOfAscendingNode) =
      (OrbitalMechanicsSolver.nVecOf r v).x /
        (OrbitalMechanicsSolver.nVecOf r v).length := by
  have hnM : 0 < (OrbitalMechanicsSolver.nVecOf r v).length :=
    lt_trans (by norm_num) hn
  rw [sVTE_Omega, if_pos hn]
  obtain ⟨hb1, hb2⟩ := div_abs_le_one hnM (Vec3.abs_x_le_length _)
  exact cos_acosClamp_branch _ hb1 hb2

theorem elems_sin_Omega (r v : Vec3) (t mu : ℝ)
    (hn : 1e-10 < (OrbitalMechanicsSolver.nVecOf r v).length) :
    Real.sin ((OrbitalMechanicsSolver.stateVectorToElements
        ⟨r, v, t⟩ mu).longitudeOfAscendingNode) =
      (OrbitalMechanicsSolver.nVecOf r v).y /
        (OrbitalMechanicsSolver.nVecOf r v).length := by
  have hnM : 0 < (OrbitalMechanicsSolver.nVecOf r v).length :=
    lt_trans (by norm_num) hn
  rw [sVTE_Omega, if_pos hn]
  obtain ⟨hb1, hb2⟩ := div_abs_le_one hnM (Vec3.abs_x_le_length _)
  apply sin_acosClamp_branch _ hb1 hb2
  · have h2 : (OrbitalMechanicsSolver.nVecOf r v).length ^ 2 =
        (OrbitalMechanicsSolver.nVecOf r v).lengthSq := Vec3.sq_length _
    have h3 : (OrbitalMechanicsSolver.nVecOf r v).lengthSq =
        (OrbitalMechanicsSolver.nVecOf r v).x ^ 2 +
          (OrbitalMechanicsSolver.nVecOf r v).y ^ 2 := by
      simp only [OrbitalMechanicsSolver.nVecOf, Vec3.lengthSq]; ring
    field_simp
    linarith [h2, h3]
  · intro h
    rw [div_nonpos_iff]
    right
    exact ⟨h.le, hnM.le⟩
  · intro h
    exact div_nonneg (not_lt.mp h) hnM.le

theorem elems_cos_w (r v : Vec3) (t mu : ℝ)
    (hn : 1e-10 < (OrbitalMechanicsSolver.nVecOf r v).length)
    (he : 1e-10 < (OrbitalMechanicsSolver.eVecOf r v mu).length) :
    Real.cos ((OrbitalMechanicsSolver.stateVectorToElements
        ⟨r, v, t⟩ mu).argumentOfPeriapsis) =
      Vec3.dot (OrbitalMechanicsSolver.nVecOf r v) (OrbitalMechanicsSolver.eVecOf r v mu) /
        ((OrbitalMechanicsSolver.nVecOf r v).length *
          (OrbitalMechanicsSolver.eVecOf r v mu).length) := by
  have hnM : 0 < (OrbitalMechanicsSolver.nVecOf r v).length :=
    lt_trans (by norm_num) hn
  have heM : 0 < (OrbitalMechanicsSolver.eVecOf r v mu).length :=
    lt_trans (by norm_num) he
  rw [sVTE_w, if_pos ⟨hn, he⟩]
  obtain ⟨hb1, hb2⟩ := div_abs_le_one (mul_pos hnM heM) (Vec3.abs_dot_le _ _)
  exact cos_acosClamp_branch _ hb1 hb2

theorem elems_sin_w (r v : Vec3) (t mu : ℝ)
    (hn : 1e-10 < (OrbitalMechanicsSolver.nVecOf r v).length)
    (he : 1e-10 < (OrbitalMechanicsSolver.eVecOf r v mu).length)
    (hr : r.length ≠ 0) :
    Real.sin ((OrbitalMechanicsSolver.stateVectorToElements
        ⟨r, v, t⟩ mu).argumentOfPeriapsis) =
      (OrbitalMechanicsSolver.eVecOf r v mu).z * (Vec3.cross r v).length /
        ((OrbitalMechanicsSolver.nVecOf r v).length *
          (OrbitalMechanicsSolver.eVecOf r v mu).length) := by
  have hnM : 0 < (OrbitalMechanicsSolver.nVecOf r v).length :=
    lt_trans (by norm_num) hn
  have heM : 0 < (OrbitalMechanicsSolver.eVecOf r v mu).length :=
    lt_trans (by norm_num) he
  have hX : ((OrbitalMechanicsSolver.nVecOf r v).length *
      (OrbitalMechanicsSolver.eVecOf r v mu).length) ^ 2 ≠ 0 :=
    pow_ne_zero _ (mul_pos hnM heM).ne'
  rw [sVTE_w, if_pos ⟨hn, he⟩]
  obtain ⟨hb1, hb2⟩ := div_abs_le_one (mul_pos hnM heM) (Vec3.abs_dot_le _ _)
  apply sin_acosClamp_branch _ hb1 hb2
  · -- 1 - cos² = sin² via the Lagrange identity and n × e = e_z · h
    have hperp : (Vec3.cross r v).dot (OrbitalMechanicsSolver.eVecOf r v mu) = 0 := by
      have := hVec_dot_eVec r v mu hr
      simpa only [OrbitalMechanicsSolver.hVecOf] using this
    have hc := nVec_cross r v (OrbitalMechanicsSolver.eVecOf r v mu) hperp
    have key := congrArg Vec3.lengthSq hc
    rw [Vec3.lengthSq_smul, Vec3.lagrange] at key
    have e1 : (OrbitalMechanicsSolver.nVecOf r v).length ^ 2 =
        (OrbitalMechanicsSolver.nVecOf r v).lengthSq := Vec3.sq_length _
    have e2 : (OrbitalMechanicsSolver.eVecOf r v mu).length ^ 2 =
        (OrbitalMechanicsSolver.eVecOf r v mu).lengthSq := Vec3.sq_length _
    have e3 : (Vec3.cross r v).length ^ 2 = (Vec3.cross r v).lengthSq :=
      Vec3.sq_length _
    have main : ((OrbitalMechanicsSolver.nVecOf r v).length *
        (OrbitalMechanicsSolver.eVecOf r v mu).length) ^ 2 -
          (Vec3.dot (OrbitalMechanicsSolver.nVecOf r v)
            (OrbitalMechanicsSolver.eVecOf r v mu)) ^ 2 =
        ((OrbitalMechanicsSolver.eVecOf r v mu).z * (Vec3.cross r v).length) ^ 2 := by
      rw [mul_pow, mul_pow, e1, e2, e3]
      linarith [key]
    rw [div_pow, div_pow, eq_div_iff hX, sub_mul, one_mul, div_mul_cancel₀ _ hX]
    linarith [main]
  · intro h
    rw [div_nonpos_iff]
    right
    refine ⟨?_, (mul_pos hnM heM).le⟩
    nlinarith [Vec3.length_nonneg (Vec3.cross r v)]
  · intro h
    apply div_nonneg _ (mul_pos hnM heM).le
    exact mul_nonneg (not_lt.mp h) (Vec3.length_nonneg _)

theorem elems_cos_nu (r v : Vec3) (t mu : ℝ)
    (he : 1e-10 < (OrbitalMechanicsSolver.eVecOf r v mu).length)
    (hr : 0 < r.length) :
    Real.cos ((OrbitalMechanicsSolver.stateVectorToElements
        ⟨r, v, t⟩ mu).trueAnomaly) =
      Vec3.dot (OrbitalMechanicsSolver.eVecOf r v mu) r /
        ((OrbitalMechanicsSolver.eVecOf r v mu).length * r.length) := by
  have heM : 0 < (OrbitalMechanicsSolver.eVecOf r v mu).length :=
    lt_trans (by norm_num) he
  rw [sVTE_nu, if_pos he]
  obtain ⟨hb1, hb2⟩ := div_abs_le_one (mul_pos heM hr) (Vec3.abs_dot_le _ _)
  exact cos_acosClamp_branch _ hb1 hb2

theorem elems_sin_nu (r v : Vec3) (t mu : ℝ)
    (he : 1e-10 < (OrbitalMechanicsSolver.eVecOf r v mu).length)
    (hr : 0 < r.length) (hmu : 0 < mu) :
    Real.sin ((OrbitalMechanicsSolver.stateVectorToElements
        ⟨r, v, t⟩ mu).trueAnomaly) =
      Vec3.dot r v * (Vec3.cross r v).length /
        (mu * ((OrbitalMechanicsSolver.eVecOf r v mu).length * r.length)) := by
  have heM : 0 < (OrbitalMechanicsSolver.eVecOf r v mu).length :=
    lt_trans (by norm_num) he
  have hX : ((OrbitalMechanicsSolver.eVecOf r v mu).length * r.length) ≠ 0 :=
    (mul_pos heM hr).ne'
  rw [sVTE_nu, if_pos he]
  obtain ⟨hb1, hb2⟩ := div_abs_le_one (mul_pos heM hr) (Vec3.abs_dot_le _ _)
  apply sin_acosClamp_branch _ hb1 hb2
  · -- 1 - cos² = sin² via the Lagrange identity and e × r = ((r·v)/μ) h
    have hc := eVec_cross_r r v mu hr.ne'
    have key := congrArg Vec3.lengthSq hc
    rw [Vec3.lengthSq_smul, Vec3.lagrange, div_pow,
      div_mul_eq_mul_div, eq_div_iff (pow_ne_zero 2 hmu.ne')] at key
    have e2 : (OrbitalMechanicsSolver.eVecOf r v mu).length ^ 2 =
        (OrbitalMechanicsSolver.eVecOf r v mu).lengthSq := Vec3.sq_length _
    have e3 : (Vec3.cross r v).length ^ 2 = (Vec3.cross r v).lengthSq :=
      Vec3.sq_length _
    have e4 : r.length ^ 2 = r.lengthSq := Vec3.sq_length _
    field_simp
    linear_combination
      ((OrbitalMechanicsSolver.eVecOf r v mu).length * r.length) ^ 2 * key +
        (OrbitalMechanicsSolver.eVecOf r v mu).length ^ 2 * r.length ^ 4 * mu ^ 2 * e2 +
        (OrbitalMechanicsSolver.eVecOf r v mu).length ^ 2 * r.length ^ 2 *
          (OrbitalMechanicsSolver.eVecOf r v mu).lengthSq * mu ^ 2 * e4 -
        (OrbitalMechanicsSolver.eVecOf r v mu).length ^ 2 * r.length ^ 2 *
          (Vec3.dot r v) ^ 2 * e3
  · intro h
    rw [div_nonpos_iff]
    right
    refine ⟨?_, (mul_nonneg hmu.le (mul_pos heM hr).le)⟩
    nlinarith [Vec3.length_nonneg (Vec3.cross r v)]
  · intro h
    apply div_nonneg _ (mul_nonneg hmu.le (mul_pos heM hr).le)
    exact mul_nonneg (not_lt.mp h) (Vec3.length_nonneg _)

theorem Vec3.smul_add (s : ℝ) (a b : Vec3) :
    Vec3.smul s (a.add b) = (Vec3.smul s a).add (Vec3.smul s b) := by
  ext <;> simp only [Vec3.smul, Vec3.add] <;> ring

set_option maxHeartbeats 2000000 in
/-- `state → elements → state` is the exact identity on position and
velocity for a non-degenerate elliptic orbit (the code's branch
conditions: node vector and eccentricity above `1e-10`, positive
semi-major axis). -/
theorem elements_roundtrip_exact (r v : Vec3) (t mu : ℝ) (hmu : 0 < mu)
    (hn : 1e-10 < (OrbitalMechanicsSolver.nVecOf r v).length)
    (he : 1e-10 < (OrbitalMechanicsSolver.eVecOf r v mu).length)
    (ha : 0 < (OrbitalMechanicsSolver.stateVectorToElements ⟨r, v, t⟩ mu).semiMajorAxis) :
    (OrbitalMechanicsSolver.elementsToStateVector
        (OrbitalMechanicsSolver.stateVectorToElements ⟨r, v, t⟩ mu) mu).position = r ∧
      (OrbitalMechanicsSolver.elementsToStateVector
        (OrbitalMechanicsSolver.stateVectorToElements ⟨r, v, t⟩ mu) mu).velocity = v := by
  obtain ⟨EL, hEL⟩ : ∃ EL, OrbitalMechanicsSolver.stateVectorToElements ⟨r, v, t⟩ mu = EL :=
    ⟨_, rfl⟩
  rw [hEL] at ha ⊢
  -- basic positivity
  have hnM : 0 < (OrbitalMechanicsSolver.nVecOf r v).length := lt_trans (by norm_num) hn
  have heM : 0 < (OrbitalMechanicsSolver.eVecOf r v mu).length := lt_trans (by norm_num) he
  have hhL : 0 < (Vec3.cross r v).lengthSq := by
    have h2 : 0 < (OrbitalMechanicsSolver.nVecOf r v).lengthSq := by
      rw [← Vec3.sq_length]; exact pow_pos hnM 2
    have h3 : (Vec3.cross r v).lengthSq =
        (OrbitalMechanicsSolver.nVecOf r v).lengthSq + (Vec3.cross r v).z ^ 2 := by
      simp only [OrbitalMechanicsSolver.nVecOf, Vec3.lengthSq]; ring
    nlinarith [sq_nonneg (Vec3.cross r v).z]
  have hhM : 0 < (Vec3.cross r v).length := Real.sqrt_pos.mpr hhL
  have hrM : 0 < r.length := by
    rcases lt_or_eq_of_le (Vec3.length_nonneg r) with h | h
    · exact h
    · exfalso
      have h0 : r = ⟨0, 0, 0⟩ := (Vec3.length_eq_zero_iff r).mp h.symm
      rw [h0] at hhL
      norm_num [Vec3.cross, Vec3.lengthSq] at hhL
  have hr' : r.length ≠ 0 := hrM.ne'
  have hmu' : mu ≠ 0 := hmu.ne'
  have hhM' : (Vec3.cross r v).length ≠ 0 := hhM.ne'
  have hhL' : (Vec3.cross r v).lengthSq ≠ 0 := hhL.ne'
  have hnM' : (OrbitalMechanicsSolver.nVecOf r v).length ≠ 0 := hnM.ne'
  have heM' : (OrbitalMechanicsSolver.eVecOf r v mu).length ≠ 0 := heM.ne'
  have hsq_h : (Vec3.cross r v).length * (Vec3.cross r v).length =
      (Vec3.cross r v).lengthSq := Vec3.length_mul_self _
  have hsq_e : (OrbitalMechanicsSolver.eVecOf r v mu).length *
      (OrbitalMechanicsSolver.eVecOf r v mu).length =
      (OrbitalMechanicsSolver.eVecOf r v mu).lengthSq := Vec3.length_mul_self _
  have heLS : 0 < (OrbitalMechanicsSolver.eVecOf r v mu).lengthSq := by
    rw [← hsq_e]; exact mul_pos heM heM
  have heLS0 : (OrbitalMechanicsSolver.eVecOf r v mu).lengthSq ≠ 0 := heLS.ne'
  -- the energy is nonzero (else the code's semi-major axis would be 0)
  have hEa := sVTE_a r v t mu
  rw [hEL] at hEa
  have haE := ha
  rw [hEa] at haE
  have hEne : v.length * v.length / 2 - mu / r.length ≠ 0 := by
    intro h0
    rw [h0] at haE
    norm_num at haE
  rw [Vec3.length_mul_self v] at hEne
  -- vector identities
  have hdote : (Vec3.cross r v).dot (OrbitalMechanicsSolver.eVecOf r v mu) = 0 := by
    simpa only [OrbitalMechanicsSolver.hVecOf] using hVec_dot_eVec r v mu hr'
  have her := eVec_dot_r r v mu hr' hmu'
  have hev := eVec_dot_v r v mu hr'
  have heL := eVec_lengthSq r v mu hr' hmu'
  have herP : mu * ((OrbitalMechanicsSolver.eVecOf r v mu).dot r) =
      (Vec3.cross r v).lengthSq - mu * r.length := by
    rw [her]; field_simp
  have heLP : mu ^ 2 * r.length * (OrbitalMechanicsSolver.eVecOf r v mu).lengthSq =
      v.lengthSq * (Vec3.cross r v).lengthSq * r.length -
        2 * (Vec3.cross r v).lengthSq * mu + mu ^ 2 * r.length := by
    rw [heL]; field_simp; ring
  -- trigonometric values of the computed elements
  have hci := elems_cos_i r v t mu hhM
  have hsi := elems_sin_i r v t mu hhM
  have hcO := elems_cos_Omega r v t mu hn
  have hsO := elems_sin_Omega r v t mu hn
  have hcw := elems_cos_w r v t mu hn he
  have hsw := elems_sin_w r v t mu hn he hr'
  have hcnu := elems_cos_nu r v t mu he hrM
  have hsnu := elems_sin_nu r v t mu he hrM hmu
  rw [hEL] at hci hsi hcO hsO hcw hsw hcnu hsnu
  have hEe := sVTE_e r v t mu
  rw [hEL] at hEe
  -- scalar plumbing: semi-latus rectum, radius, angular momentum
  have hEn2 : 2 * (v.lengthSq / 2 - mu / r.length) ≠ 0 := by
    intro h0
    apply hEne
    linarith
  have hp : EL.semiMajorAxis * (1 - EL.eccentricity * EL.eccentricity) =
      (Vec3.cross r v).lengthSq / mu := by
    rw [hEa, hEe, hsq_e, heL, Vec3.length_mul_self v, div_mul_eq_mul_div,
      div_eq_div_iff hEn2 hmu']
    field_simp
    ring
  have hecos : 1 + EL.eccentricity * Real.cos EL.trueAnomaly =
      (Vec3.cross r v).lengthSq / (mu * r.length) := by
    rw [hEe, hcnu]
    field_simp
    linear_combination (OrbitalMechanicsSolver.eVecOf r v mu).length * r.length * herP
  have hrcode : EL.semiMajorAxis * (1 - EL.eccentricity * EL.eccentricity) /
      (1 + EL.eccentricity * Real.cos EL.trueAnomaly) = r.length := by
    rw [hp, hecos]
    field_simp
    ring
  have hhcode : Real.sqrt (mu * (EL.semiMajorAxis *
      (1 - EL.eccentricity * EL.eccentricity))) = (Vec3.cross r v).length := by
    rw [hp, show mu * ((Vec3.cross r v).lengthSq / mu) = (Vec3.cross r v).lengthSq by
      field_simp]
    rfl
  -- node-vector components
  have hnx : (OrbitalMechanicsSolver.nVecOf r v).x = -(Vec3.cross r v).y := rfl
  have hny : (OrbitalMechanicsSolver.nVecOf r v).y = (Vec3.cross r v).x := rfl
  have hnn : (OrbitalMechanicsSolver.nVecOf r v).length *
      (OrbitalMechanicsSolver.nVecOf r v).length =
      (Vec3.cross r v).x ^ 2 + (Vec3.cross r v).y ^ 2 := by
    rw [Vec3.length_mul_self]
    simp only [OrbitalMechanicsSolver.nVecOf, Vec3.lengthSq]
    ring
  have hhh : (Vec3.cross r v).length * (Vec3.cross r v).length =
      (Vec3.cross r v).x ^ 2 + (Vec3.cross r v).y ^ 2 + (Vec3.cross r v).z ^ 2 := by
    rw [Vec3.length_mul_self]
    simp only [Vec3.lengthSq]
    ring
  have hnev : Vec3.dot (OrbitalMechanicsSolver.nVecOf r v)
      (OrbitalMechanicsSolver.eVecOf r v mu) =
      -(Vec3.cross r v).y * (OrbitalMechanicsSolver.eVecOf r v mu).x +
        (Vec3.cross r v).x * (OrbitalMechanicsSolver.eVecOf r v mu).y := by
    simp only [Vec3.dot, OrbitalMechanicsSolver.nVecOf]
    ring
  have hdote_c : (Vec3.cross r v).x * (OrbitalMechanicsSolver.eVecOf r v mu).x +
      (Vec3.cross r v).y * (OrbitalMechanicsSolver.eVecOf r v mu).y +
      (Vec3.cross r v).z * (OrbitalMechanicsSolver.eVecOf r v mu).z = 0 := by
    simpa only [Vec3.dot] using hdote
  have hXx : (Vec3.cross (Vec3.cross r v) (OrbitalMechanicsSolver.eVecOf r v mu)).x =
      (Vec3.cross r v).y * (OrbitalMechanicsSolver.eVecOf r v mu).z -
        (Vec3.cross r v).z * (OrbitalMechanicsSolver.eVecOf r v mu).y := rfl
  have hXy : (Vec3.cross (Vec3.cross r v) (OrbitalMechanicsSolver.eVecOf r v mu)).y =
      (Vec3.cross r v).z * (OrbitalMechanicsSolver.eVecOf r v mu).x -
        (Vec3.cross r v).x * (OrbitalMechanicsSolver.eVecOf r v mu).z := rfl
  have hXz : (Vec3.cross (Vec3.cross r v) (OrbitalMechanicsSolver.eVecOf r v mu)).z =
      (Vec3.cross r v).x * (OrbitalMechanicsSolver.eVecOf r v mu).y -
        (Vec3.cross r v).y * (OrbitalMechanicsSolver.eVecOf r v mu).x := rfl
  -- the rotation-matrix columns are the unit eccentricity vector and
  -- the unit (h × e) vector
  have hPC1 : (⟨Real.cos EL.longitudeOfAscendingNode * Real.cos EL.argumentOfPeriapsis -
        Real.sin EL.longitudeOfAscendingNode * Real.sin EL.argumentOfPeriapsis *
          Real.cos EL.inclination,
      Real.sin EL.longitudeOfAscendingNode * Real.cos EL.argumentOfPeriapsis +
        Real.cos EL.longitudeOfAscendingNode * Real.sin EL.argumentOfPeriapsis *
          Real.cos EL.inclination,
      Real.sin EL.argumentOfPeriapsis * Real.sin EL.inclination⟩ : Vec3) =
      Vec3.smul (1 / (OrbitalMechanicsSolver.eVecOf r v mu).length)
        (OrbitalMechanicsSolver.eVecOf r v mu) := by
    rw [hcO, hsO, hcw, hsw, hci, hsi, hnev, hnx, hny]
    ext <;> simp only [Vec3.smul] <;> field_simp
    · linear_combination (-((OrbitalMechanicsSolver.nVecOf r v).length ^ 2 *
          (OrbitalMechanicsSolver.eVecOf r v mu).length ^ 2 * (Vec3.cross r v).length *
          (Vec3.cross r v).x)) * hdote_c -
        ((OrbitalMechanicsSolver.nVecOf r v).length ^ 2 *
          (OrbitalMechanicsSolver.eVecOf r v mu).length ^ 2 * (Vec3.cross r v).length *
          (OrbitalMechanicsSolver.eVecOf r v mu).x) * hnn
    · linear_combination (-((OrbitalMechanicsSolver.nVecOf r v).length ^ 2 *
          (OrbitalMechanicsSolver.eVecOf r v mu).length ^ 2 * (Vec3.cross r v).length *
          (Vec3.cross r v).y)) * hdote_c -
        ((OrbitalMechanicsSolver.nVecOf r v).length ^ 2 *
          (OrbitalMechanicsSolver.eVecOf r v mu).length ^ 2 * (Vec3.cross r v).length *
          (OrbitalMechanicsSolver.eVecOf r v mu).y) * hnn
    · ring
  have hPC2 : (⟨-Real.cos EL.longitudeOfAscendingNode * Real.sin EL.argumentOfPeriapsis -
        Real.sin EL.longitudeOfAscendingNode * Real.cos EL.argumentOfPeriapsis *
          Real.cos EL.inclination,
      -Real.sin EL.longitudeOfAscendingNode * Real.sin EL.argumentOfPeriapsis +
        Real.cos EL.longitudeOfAscendingNode * Real.cos EL.argumentOfPeriapsis *
          Real.cos EL.inclination,
      Real.cos EL.argumentOfPeriapsis * Real.sin EL.inclination⟩ : Vec3) =
      Vec3.smul (1 / ((Vec3.cross r v).length * (OrbitalMechanicsSolver.eVecOf r v mu).length))
        (Vec3.cross (Vec3.cross r v) (OrbitalMechanicsSolver.eVecOf r v mu)) := by
    rw [hcO, hsO, hcw, hsw, hci, hsi, hnev, hnx, hny]
    ext
    · simp only [Vec3.smul]
      rw [hXx]
      field_simp
      linear_combination ((Vec3.cross r v).length * (OrbitalMechanicsSolver.nVecOf r v).length ^ 2 * (OrbitalMechanicsSolver.eVecOf r v mu).length ^ 2 * (Vec3.cross r v).y *
          (Vec3.cross r v).z) * hdote_c +
        ((Vec3.cross r v).length * (OrbitalMechanicsSolver.nVecOf r v).length ^ 2 * (OrbitalMechanicsSolver.eVecOf r v mu).length ^ 2 *
          ((Vec3.cross r v).z * (OrbitalMechanicsSolver.eVecOf r v mu).y -
            (Vec3.cross r v).y * (OrbitalMechanicsSolver.eVecOf r v mu).z)) * hnn +
        ((Vec3.cross r v).length * (OrbitalMechanicsSolver.nVecOf r v).length ^ 2 * (OrbitalMechanicsSolver.eVecOf r v mu).length ^ 2 * (Vec3.cross r v).y *
          (OrbitalMechanicsSolver.eVecOf r v mu).z) * hhh
    · simp only [Vec3.smul]
      rw [hXy]
      field_simp
      linear_combination (-((Vec3.cross r v).length * (OrbitalMechanicsSolver.nVecOf r v).length ^ 2 * (OrbitalMechanicsSolver.eVecOf r v mu).length ^ 2 * (Vec3.cross r v).x *
          (Vec3.cross r v).z)) * hdote_c +
        ((Vec3.cross r v).length * (OrbitalMechanicsSolver.nVecOf r v).length ^ 2 * (OrbitalMechanicsSolver.eVecOf r v mu).length ^ 2 *
          ((Vec3.cross r v).x * (OrbitalMechanicsSolver.eVecOf r v mu).z -
            (Vec3.cross r v).z * (OrbitalMechanicsSolver.eVecOf r v mu).x)) * hnn -
        ((Vec3.cross r v).length * (OrbitalMechanicsSolver.nVecOf r v).length ^ 2 * (OrbitalMechanicsSolver.eVecOf r v mu).length ^ 2 * (Vec3.cross r v).x *
          (OrbitalMechanicsSolver.eVecOf r v mu).z) * hhh
    · simp only [Vec3.smul]
      rw [hXz]
      field_simp
      ring
  -- the orthogonal plane decompositions along e and h × e
  have hg1 : (Vec3.smul (1 / (Vec3.cross r v).length) (Vec3.cross r v)).dot
      (Vec3.smul (1 / (Vec3.cross r v).length) (Vec3.cross r v)) = 1 := by
    rw [Vec3.dot_smul_left, Vec3.dot_smul_right, Vec3.dot_self_eq, ← hsq_h]
    field_simp
  have hwg : (OrbitalMechanicsSolver.eVecOf r v mu).dot
      (Vec3.smul (1 / (Vec3.cross r v).length) (Vec3.cross r v)) = 0 := by
    rw [Vec3.dot_smul_right, Vec3.dot_comm, hdote, mul_zero]
  have hrg : r.dot (Vec3.smul (1 / (Vec3.cross r v).length) (Vec3.cross r v)) = 0 := by
    rw [Vec3.dot_smul_right, Vec3.dot_comm,
      show (Vec3.cross r v).dot r = 0 from by
        simpa only [OrbitalMechanicsSolver.hVecOf] using hVec_dot_r r v, mul_zero]
  have hvg : v.dot (Vec3.smul (1 / (Vec3.cross r v).length) (Vec3.cross r v)) = 0 := by
    rw [Vec3.dot_smul_right, Vec3.dot_comm,
      show (Vec3.cross r v).dot v = 0 from by
        simpa only [OrbitalMechanicsSolver.hVecOf] using hVec_dot_v r v, mul_zero]
  have hXr : (Vec3.cross (Vec3.cross r v) (OrbitalMechanicsSolver.eVecOf r v mu)).dot r =
      r.dot v / mu * (Vec3.cross r v).lengthSq := by
    rw [Vec3.triple_rot, eVec_cross_r r v mu hr', Vec3.dot_smul_left, Vec3.dot_self_eq]
  have hXv : (Vec3.cross (Vec3.cross r v) (OrbitalMechanicsSolver.eVecOf r v mu)).dot v =
      (v.lengthSq / mu - 1 / r.length) * (Vec3.cross r v).lengthSq := by
    rw [Vec3.triple_rot, eVec_cross_v r v mu hr', Vec3.dot_smul_left, Vec3.dot_self_eq]
  have hdR := Vec3.planeDecomp hg1 hwg hrg
  rw [Vec3.cross_smul_left, Vec3.dot_smul_left, Vec3.smul_smul, hXr,
    Vec3.dot_self_eq] at hdR
  rw [show 1 / (Vec3.cross r v).length * (r.dot v / mu * (Vec3.cross r v).lengthSq) *
      (1 / (Vec3.cross r v).length) = r.dot v / mu from by
    rw [← hsq_h]; field_simp; ring] at hdR
  have hdV := Vec3.planeDecomp hg1 hwg hvg
  rw [Vec3.cross_smul_left, Vec3.dot_smul_left, Vec3.smul_smul, hXv,
    Vec3.dot_self_eq, hev] at hdV
  rw [show 1 / (Vec3.cross r v).length * ((v.lengthSq / mu - 1 / r.length) *
      (Vec3.cross r v).lengthSq) * (1 / (Vec3.cross r v).length) =
      v.lengthSq / mu - 1 / r.length from by
    rw [← hsq_h]; field_simp; ring] at hdV
  -- perifocal scalar coefficients
  have hc1 : r.length * (Vec3.dot (OrbitalMechanicsSolver.eVecOf r v mu) r /
      ((OrbitalMechanicsSolver.eVecOf r v mu).length * r.length)) *
      (1 / (OrbitalMechanicsSolver.eVecOf r v mu).length) =
      (OrbitalMechanicsSolver.eVecOf r v mu).dot r /
        (OrbitalMechanicsSolver.eVecOf r v mu).lengthSq := by
    rw [← hsq_e]; field_simp; ring
  have hc2 : r.length * (Vec3.dot r v * (Vec3.cross r v).length /
      (mu * ((OrbitalMechanicsSolver.eVecOf r v mu).length * r.length))) *
      (1 / ((Vec3.cross r v).length * (OrbitalMechanicsSolver.eVecOf r v mu).length)) =
      r.dot v / (mu * (OrbitalMechanicsSolver.eVecOf r v mu).lengthSq) := by
    rw [← hsq_e]; field_simp; ring
  have hc1v : -(mu / (Vec3.cross r v).length) * (Vec3.dot r v * (Vec3.cross r v).length /
      (mu * ((OrbitalMechanicsSolver.eVecOf r v mu).length * r.length))) *
      (1 / (OrbitalMechanicsSolver.eVecOf r v mu).length) =
      -(r.dot v) / (r.length * (OrbitalMechanicsSolver.eVecOf r v mu).lengthSq) := by
    rw [← hsq_e]; field_simp; ring
  have hc2v : mu / (Vec3.cross r v).length *
      ((OrbitalMechanicsSolver.eVecOf r v mu).length +
        Vec3.dot (OrbitalMechanicsSolver.eVecOf r v mu) r /
          ((OrbitalMechanicsSolver.eVecOf r v mu).length * r.length)) *
      (1 / ((Vec3.cross r v).length * (OrbitalMechanicsSolver.eVecOf r v mu).length)) =
      (v.lengthSq / mu - 1 / r.length) /
        (OrbitalMechanicsSolver.eVecOf r v mu).lengthSq := by
    rw [← hsq_e]
    field_simp
    linear_combination ((OrbitalMechanicsSolver.eVecOf r v mu).length ^ 2 * r.length) * heLP +
      ((OrbitalMechanicsSolver.eVecOf r v mu).length ^ 2 * r.length * (mu - r.length * v.lengthSq)) * hsq_h +
      ((OrbitalMechanicsSolver.eVecOf r v mu).length ^ 2 * r.length * mu) * herP +
      ((OrbitalMechanicsSolver.eVecOf r v mu).length ^ 2 * r.length ^ 2 * mu ^ 2) * hsq_e
  constructor
  · -- position
    simp only [OrbitalMechanicsSolver.elementsToStateVector]
    rw [Vec3.col_comb, hPC1, hPC2, hrcode, hcnu, hsnu, Vec3.smul_smul, Vec3.smul_smul,
      hc1, hc2]
    apply Vec3.smul_cancel heLS0
    rw [hdR, Vec3.smul_add, Vec3.smul_smul, Vec3.smul_smul]
    rw [show (OrbitalMechanicsSolver.eVecOf r v mu).lengthSq *
        ((OrbitalMechanicsSolver.eVecOf r v mu).dot r /
          (OrbitalMechanicsSolver.eVecOf r v mu).lengthSq) =
        (OrbitalMechanicsSolver.eVecOf r v mu).dot r from by field_simp]
    rw [show (OrbitalMechanicsSolver.eVecOf r v mu).lengthSq *
        (r.dot v / (mu * (OrbitalMechanicsSolver.eVecOf r v mu).lengthSq)) =
        r.dot v / mu from by field_simp; ring]
  · -- velocity
    simp only [OrbitalMechanicsSolver.elementsToStateVector]
    rw [Vec3.col_comb, hPC1, hPC2, hhcode, hEe, hcnu, hsnu, Vec3.smul_smul,
      Vec3.smul_smul, hc1v, hc2v]
    apply Vec3.smul_cancel heLS0
    rw [hdV, Vec3.smul_add, Vec3.smul_smul, Vec3.smul_smul]
    rw [show (OrbitalMechanicsSolver.eVecOf r v mu).lengthSq *
        (-(r.dot v) / (r.length * (OrbitalMechanicsSolver.eVecOf r v mu).lengthSq)) =
        -(r.dot v) / r.length from by field_simp; ring]
    rw [show (OrbitalMechanicsSolver.eVecOf r v mu).lengthSq *
        ((v.lengthSq / mu - 1 / r.length) /
          (OrbitalMechanicsSolver.eVecOf r v mu).lengthSq) =
        v.lengthSq / mu - 1 / r.length from by field_simp; ring]

/-- Claim C1: for every state vector describing a non-degenerate elliptic
orbit (eccentricity above `1e-10`, node-vector norm above `1e-10`,
positive semi-major axis — the code's branch conditions),
`elementsToStateVector` applied to `stateVectorToElements state mu`
reproduces the input position to `1e-8` relative error and the input
velocity to `1e-9` relative error (in exact arithmetic the round trip is
the identity, so both errors are zero). -/
theorem roundTrip_elements_spec (state : StateVector) (mu : ℝ) (hmu : 0 < mu)
    (hn : 1e-10 < (OrbitalMechanicsSolver.nVecOf state.position state.velocity).length)
    (he : 1e-10 < (OrbitalMechanicsSolver.eVecOf state.position state.velocity mu).length)
    (ha : 0 < (OrbitalMechanicsSolver.stateVectorToElements state mu).semiMajorAxis) :
    ((OrbitalMechanicsSolver.elementsToStateVector
        (OrbitalMechanicsSolver.stateVectorToElements state mu) mu).position.sub
          state.position).length ≤ 1e-8 * state.position.length ∧
      ((OrbitalMechanicsSolver.elementsToStateVector
        (OrbitalMechanicsSolver.stateVectorToElements state mu) mu).velocity.sub
          state.velocity).length ≤ 1e-9 * state.velocity.length := by
  have hcore := elements_roundtrip_exact state.position state.velocity state.time mu
    hmu hn he ha
  have hp : (OrbitalMechanicsSolver.elementsToStateVector
      (OrbitalMechanicsSolver.stateVectorToElements state mu) mu).position =
      state.position := hcore.1
  have hv : (OrbitalMechanicsSolver.elementsToStateVector
      (OrbitalMechanicsSolver.stateVectorToElements state mu) mu).velocity =
      state.velocity := hcore.2
  have hzero : ∀ a : Vec3, (a.sub a).length = 0 := by
    intro a
    have h0 : a.sub a = ⟨0, 0, 0⟩ := by ext <;> simp [Vec3.sub]
    rw [h0, show Vec3.length ⟨0, 0, 0⟩ = Real.sqrt 0 from by norm_num [Vec3.length, Vec3.lengthSq],
      Real.sqrt_zero]
  constructor
  · rw [hp, hzero]
    exact mul_nonneg (by norm_num) (Vec3.length_nonneg _)
  · rw [hv, hzero]
    exact mul_nonneg (by norm_num) (Vec3.length_nonneg _)

/-- Witness for claim C1 at the inclined elliptic state
`r = (1,0,0)`, `v = (0,1/2,1/2)`, `μ = 1` (eccentricity `1/2`, node
norm `1/2`, semi-major axis `2/3`). -/
theorem roundTrip_elements_spec_witness :
    (0 : ℝ) < 1 ∧
    1e-10 < (OrbitalMechanicsSolver.nVecOf ⟨1, 0, 0⟩ ⟨0, 1/2, 1/2⟩).length ∧
    1e-10 < (OrbitalMechanicsSolver.eVecOf ⟨1, 0, 0⟩ ⟨0, 1/2, 1/2⟩ 1).length ∧
    0 < (OrbitalMechanicsSolver.stateVectorToElements
        ⟨⟨1, 0, 0⟩, ⟨0, 1/2, 1/2⟩, 0⟩ 1).semiMajorAxis ∧
    ((OrbitalMechanicsSolver.elementsToStateVector
        (OrbitalMechanicsSolver.stateVectorToElements
          ⟨⟨1, 0, 0⟩, ⟨0, 1/2, 1/2⟩, 0⟩ 1) 1).position.sub
      (⟨1, 0, 0⟩ : Vec3)).length ≤ 1e-8 * (⟨1, 0, 0⟩ : Vec3).length := by
  have hhalf : Real.sqrt ((1 / 2 : ℝ) ^ 2) = 1 / 2 :=
    Real.sqrt_sq (by norm_num)
  have hn0 : 1e-10 < (OrbitalMechanicsSolver.nVecOf ⟨1, 0, 0⟩ ⟨0, 1/2, 1/2⟩).length := by
    show (1e-10 : ℝ) < Real.sqrt _
    rw [show (OrbitalMechanicsSolver.nVecOf ⟨1, 0, 0⟩ ⟨0, 1/2, 1/2⟩).lengthSq =
        (1 / 2 : ℝ) ^ 2 from by
      norm_num [OrbitalMechanicsSolver.nVecOf, Vec3.cross, Vec3.lengthSq], hhalf]
    norm_num
  have hrlen : (⟨1, 0, 0⟩ : Vec3).length = 1 := by
    show Real.sqrt _ = 1
    rw [show (⟨1, 0, 0⟩ : Vec3).lengthSq = 1 from by norm_num [Vec3.lengthSq],
      Real.sqrt_one]
  have hnorm : (⟨1, 0, 0⟩ : Vec3).normalize = ⟨1, 0, 0⟩ := by
    rw [Vec3.normalize_of_ne_zero (by rw [hrlen]; norm_num), hrlen]
    ext <;> norm_num [Vec3.smul]
  have heV : OrbitalMechanicsSolver.eVecOf ⟨1, 0, 0⟩ ⟨0, 1/2, 1/2⟩ 1 = ⟨-(1/2), 0, 0⟩ := by
    rw [OrbitalMechanicsSolver.eVecOf, hnorm]
    ext <;> norm_num [Vec3.cross, Vec3.divideScalar, Vec3.smul, Vec3.sub]
  have he0 : 1e-10 < (OrbitalMechanicsSolver.eVecOf ⟨1, 0, 0⟩ ⟨0, 1/2, 1/2⟩ 1).length := by
    rw [heV]
    show (1e-10 : ℝ) < Real.sqrt _
    rw [show (⟨-(1/2), 0, 0⟩ : Vec3).lengthSq = (1 / 2 : ℝ) ^ 2 from by
      norm_num [Vec3.lengthSq], hhalf]
    norm_num
  have hvlen2 : (⟨0, 1/2, 1/2⟩ : Vec3).length * (⟨0, 1/2, 1/2⟩ : Vec3).length = 1 / 2 := by
    show Real.sqrt _ * Real.sqrt _ = 1 / 2
    rw [Real.mul_self_sqrt (Vec3.lengthSq_nonneg _)]
    norm_num [Vec3.lengthSq]
  have ha0 : 0 < (OrbitalMechanicsSolver.stateVectorToElements
      ⟨⟨1, 0, 0⟩, ⟨0, 1/2, 1/2⟩, 0⟩ 1).semiMajorAxis := by
    rw [sVTE_a, hvlen2, hrlen]
    norm_num
  refine ⟨by norm_num, hn0, he0, ha0, ?_⟩
  exact (roundTrip_elements_spec ⟨⟨1, 0, 0⟩, ⟨0, 1/2, 1/2⟩, 0⟩ 1 (by norm_num)
    hn0 he0 ha0).1

/-! #### Lambert solver failure modes (claim C3) -/

/-- Claim C3 (amended): `LambertSolver.solve` returns `feasible = false`
— with zero velocity vectors, `deltaV = +∞` and an empty trajectory —
exactly when the requested time of flight is below the parabolic
minimum or the computed semi-major axis `a` or semi-latus rectum `p` is
non-finite, and `feasible = true` otherwise, never raising an exception
(the embedding is a total function).  Newton non-convergence is not
checked by the code and is not a failure mode. -/
theorem lambert_solve_failure_modes (config : LambertConfig)
    (c s tofMin : JSNum) (ap : JSNum × JSNum)
    (hc : c = (((config.r1.length.mul config.r1.length).add
        (config.r2.length.mul config.r2.length)).sub
        ((((JSNum.fin 2).mul config.r1.length).mul config.r2.length).mul
          ((config.r1.dot config.r2).div
            (config.r1.length.mul config.r2.length)))).sqrt)
    (hs : s = ((config.r1.length.add config.r2.length).add c).div (.fin 2))
    (htm : tofMin = LambertSolver.calculateMinimumTOF s c config.mu)
    (hap : ap = LambertSolver.solveLambertEquation s c config.tof config.mu
      config.multiRevolution config.r1.length config.r2.length) :
    ((LambertSolver.solve config).feasible = false ↔
      (JSNum.ltB config.tof tofMin = true ∨ ap.1.isFiniteB = false ∨
        ap.2.isFiniteB = false)) ∧
    ((LambertSolver.solve config).feasible = false →
      (LambertSolver.solve config).v1 = JSVec3.zero ∧
      (LambertSolver.solve config).v2 = JSVec3.zero ∧
      (LambertSolver.solve config).deltaV = JSNum.inf ∧
      (LambertSolver.solve config).trajectory = []) := by
  subst hc hs htm hap
  simp only [LambertSolver.solve]
  by_cases h1 : (JSNum.ltB config.tof
      (LambertSolver.calculateMinimumTOF
        (((config.r1.length.add config.r2.length).add
          ((((config.r1.length.mul config.r1.length).add
            (config.r2.length.mul config.r2.length)).sub
            ((((JSNum.fin 2).mul config.r1.length).mul config.r2.length).mul
              ((config.r1.dot config.r2).div
                (config.r1.length.mul config.r2.length)))).sqrt)).div (.fin 2))
        (((config.r1.length.mul config.r1.length).add
          (config.r2.length.mul config.r2.length)).sub
          ((((JSNum.fin 2).mul config.r1.length).mul config.r2.length).mul
            ((config.r1.dot config.r2).div
              (config.r1.length.mul config.r2.length)))).sqrt
        config.mu)) = true
  · rw [if_pos h1]
    refine ⟨⟨fun _ => Or.inl h1, fun _ => rfl⟩, fun _ => ⟨rfl, rfl, rfl, rfl⟩⟩
  · rw [if_neg h1]
    by_cases h2 : (!(LambertSolver.solveLambertEquation
        (((config.r1.length.add config.r2.length).add
          ((((config.r1.length.mul config.r1.length).add
            (config.r2.length.mul config.r2.length)).sub
            ((((JSNum.fin 2).mul config.r1.length).mul config.r2.length).mul
              ((config.r1.dot config.r2).div
                (config.r1.length.mul config.r2.length)))).sqrt)).div (.fin 2))
        (((config.r1.length.mul config.r1.length).add
          (config.r2.length.mul config.r2.length)).sub
          ((((JSNum.fin 2).mul config.r1.length).mul config.r2.length).mul
            ((config.r1.dot config.r2).div
              (config.r1.length.mul config.r2.length)))).sqrt
        config.tof config.mu config.multiRevolution
        config.r1.length config.r2.length).1.isFiniteB ||
        !(LambertSolver.solveLambertEquation
        (((config.r1.length.add config.r2.length).add
          ((((config.r1.length.mul config.r1.length).add
            (config.r2.length.mul config.r2.length)).sub
            ((((JSNum.fin 2).mul config.r1.length).mul config.r2.length).mul
              ((config.r1.dot config.r2).div
                (config.r1.length.mul config.r2.length)))).sqrt)).div (.fin 2))
        (((config.r1.length.mul config.r1.length).add
          (config.r2.length.mul config.r2.length)).sub
          ((((JSNum.fin 2).mul config.r1.length).mul config.r2.length).mul
            ((config.r1.dot config.r2).div
              (config.r1.length.mul config.r2.length)))).sqrt
        config.tof config.mu config.multiRevolution
        config.r1.length config.r2.length).2.isFiniteB) = true
    · rw [if_pos h2]
      simp only [Bool.or_eq_true, Bool.not_eq_true'] at h2
      refine ⟨⟨fun _ => Or.inr h2, fun _ => rfl⟩, fun _ => ⟨rfl, rfl, rfl, rfl⟩⟩
    · rw [if_neg h2]
      simp only [Bool.or_eq_true, Bool.not_eq_true'] at h2
      push_neg at h2
      constructor
      · constructor
        · intro hfalse
          exact absurd hfalse (by simp)
        · intro hor
          rcases hor with h | h | h
          · exact absurd h h1
          · exact absurd h h2.1
          · exact absurd h h2.2
      · intro hfalse
        exact absurd hfalse (by simp)

/-- Witness for the amended claim C3: the hypotheses are discharged by
`rfl` at a concrete configuration. -/
theorem lambert_solve_failure_modes_witness :
    (let cfg : LambertConfig := ⟨.fin 1, ⟨.fin 1, .fin 0, .fin 0⟩,
      ⟨.fin 0, .fin 1, .fin 0⟩, .fin 100, false, 0⟩
     let c := (((cfg.r1.length.mul cfg.r1.length).add
        (cfg.r2.length.mul cfg.r2.length)).sub
        ((((JSNum.fin 2).mul cfg.r1.length).mul cfg.r2.length).mul
          ((cfg.r1.dot cfg.r2).div (cfg.r1.length.mul cfg.r2.length)))).sqrt
     let s := ((cfg.r1.length.add cfg.r2.length).add c).div (.fin 2)
     let tofMin := LambertSolver.calculateMinimumTOF s c cfg.mu
     let ap := LambertSolver.solveLambertEquation s c cfg.tof cfg.mu
       cfg.multiRevolution cfg.r1.length cfg.r2.length
     ((LambertSolver.solve cfg).feasible = false ↔
       (JSNum.ltB cfg.tof tofMin = true ∨ ap.1.isFiniteB = false ∨
         ap.2.isFiniteB = false))) := by
  exact (lambert_solve_failure_modes _ _ _ _ _ rfl rfl rfl rfl).1

/-! Small evaluation rules for `JSNum` arithmetic, used to trace the
Lambert Newton iteration on a concrete input. -/

theorem JSNum.mul_fin (x y : ℝ) : (JSNum.fin x).mul (.fin y) = .fin (x * y) := rfl

theorem JSNum.add_fin (x y : ℝ) : (JSNum.fin x).add (.fin y) = .fin (x + y) := rfl

theorem JSNum.neg_fin (x : ℝ) : (JSNum.fin x).neg = .fin (-x) := rfl

theorem JSNum.sub_fin (x y : ℝ) : (JSNum.fin x).sub (.fin y) = .fin (x + -y) := rfl

theorem JSNum.sin_fin (x : ℝ) : (JSNum.fin x).sin = .fin (Real.sin x) := rfl

theorem JSNum.cos_fin (x : ℝ) : (JSNum.fin x).cos = .fin (Real.cos x) := rfl

theorem JSNum.abs_fin (x : ℝ) : (JSNum.fin x).abs = .fin |x| := rfl

theorem JSNum.ltB_fin (x y : ℝ) : JSNum.ltB (.fin x) (.fin y) = decide (x < y) := rfl

theorem JSNum.div_fin (x y : ℝ) (hy : y ≠ 0) :
    (JSNum.fin x).div (.fin y) = .fin (x / y) := by
  simp only [JSNum.div]
  rw [if_neg hy]

theorem JSNum.div_fin_zero_neg (x : ℝ) (hx : x < 0) :
    (JSNum.fin x).div (.fin 0) = .ninf := by
  simp only [JSNum.div]
  rw [if_pos trivial, if_neg (by linarith), if_pos hx]

theorem JSNum.div_fin_ninf (x : ℝ) : (JSNum.fin x).div .ninf = .fin 0 := rfl

theorem JSNum.sqrt_fin (x : ℝ) (hx : ¬x < 0) :
    (JSNum.fin x).sqrt = .fin (Real.sqrt x) := by
  simp only [JSNum.sqrt]
  rw [if_neg hx]

theorem JSNum.asin_fin (x : ℝ) (hx : |x| ≤ 1) :
    (JSNum.fin x).asin = .fin (Real.arcsin x) := by
  simp only [JSNum.asin]
  rw [if_pos hx]

theorem JSNum.mul_fin_ninf (x : ℝ) (hx : 0 < x) :
    (JSNum.fin x).mul .ninf = .ninf := by
  simp only [JSNum.mul]
  rw [if_pos hx]

theorem JSNum.add_fin_ninf (x : ℝ) : (JSNum.fin x).add .ninf = .ninf := rfl

theorem JSNum.sub_ninf_fin (x : ℝ) : JSNum.ninf.sub (.fin x) = .ninf := rfl

/-- At the configuration `r1 = (1,0,0)`, `r2 = (0,1,0)`, `μ = 1` the
semi-perimeter is `s = 1 + √2/2` and the Newton initial guess is
`a = s/2`; there `s/(2a) = 1`. -/
theorem lambert_stuck_inner1 :
    (JSNum.fin (1 + Real.sqrt 2 / 2)).div
      ((JSNum.fin 2).mul (.fin ((1 + Real.sqrt 2 / 2) / 2))) = .fin 1 := by
  have h2a0 : (2:ℝ) * ((1 + Real.sqrt 2 / 2) / 2) ≠ 0 := by
    have := Real.sqrt_nonneg 2
    positivity
  rw [JSNum.mul_fin, JSNum.div_fin _ _ h2a0,
    show (1 + Real.sqrt 2 / 2) / (2 * ((1 + Real.sqrt 2 / 2) / 2)) = 1 from by
      rw [show (2:ℝ) * ((1 + Real.sqrt 2 / 2) / 2) = 1 + Real.sqrt 2 / 2 from by ring]
      exact div_self (by positivity)]

/-- At the same configuration `(s - c)/(2a) = 3 - 2√2`. -/
theorem lambert_stuck_inner2 :
    ((JSNum.fin (1 + Real.sqrt 2 / 2)).sub (.fin (Real.sqrt 2))).div
      ((JSNum.fin 2).mul (.fin ((1 + Real.sqrt 2 / 2) / 2))) =
      .fin (3 - 2 * Real.sqrt 2) := by
  have hs2 : Real.sqrt 2 * Real.sqrt 2 = 2 := Real.mul_self_sqrt (by norm_num)
  have h2a0 : (2:ℝ) * ((1 + Real.sqrt 2 / 2) / 2) ≠ 0 := by
    have := Real.sqrt_nonneg 2
    positivity
  rw [JSNum.sub_fin, JSNum.mul_fin, JSNum.div_fin _ _ h2a0,
    show (1 + Real.sqrt 2 / 2 + -Real.sqrt 2) / (2 * ((1 + Real.sqrt 2 / 2) / 2)) =
        3 - 2 * Real.sqrt 2 from by
      rw [show (2:ℝ) * ((1 + Real.sqrt 2 / 2) / 2) = 1 + Real.sqrt 2 / 2 from by ring,
        div_eq_iff (by positivity : (1:ℝ) + Real.sqrt 2 / 2 ≠ 0)]
      linear_combination hs2]

/-- `α = 2·asin(√(s/(2a))) = 2·asin(1) = π` at the stuck iterate. -/
theorem lambert_stuck_alpha :
    (JSNum.fin 2).mul (((JSNum.fin (1 + Real.sqrt 2 / 2)).div
      ((JSNum.fin 2).mul (.fin ((1 + Real.sqrt 2 / 2) / 2)))).sqrt.asin) = .fin π := by
  rw [lambert_stuck_inner1, JSNum.sqrt_fin 1 (by norm_num), Real.sqrt_one,
    JSNum.asin_fin 1 (by norm_num), Real.arcsin_one, JSNum.mul_fin,
    show (2:ℝ) * (π / 2) = π from by ring]

/-- `β = 2·asin(√((s-c)/(2a))) = 2·asin(√2 - 1)` at the stuck iterate. -/
theorem lambert_stuck_beta :
    (JSNum.fin 2).mul ((((JSNum.fin (1 + Real.sqrt 2 / 2)).sub (.fin (Real.sqrt 2))).div
      ((JSNum.fin 2).mul (.fin ((1 + Real.sqrt 2 / 2) / 2)))).sqrt.asin) =
      .fin (2 * Real.arcsin (Real.sqrt 2 - 1)) := by
  have hs2 : Real.sqrt 2 * Real.sqrt 2 = 2 := Real.mul_self_sqrt (by norm_num)
  have h12 : (1:ℝ) < Real.sqrt 2 := by nlinarith [Real.sqrt_nonneg 2]
  have h32 : Real.sqrt 2 ≤ 3 / 2 := by nlinarith [Real.sqrt_nonneg 2]
  rw [lambert_stuck_inner2,
    JSNum.sqrt_fin _ (by nlinarith : ¬(3:ℝ) - 2 * Real.sqrt 2 < 0),
    show Real.sqrt (3 - 2 * Real.sqrt 2) = Real.sqrt 2 - 1 from by
      rw [show (3:ℝ) - 2 * Real.sqrt 2 = (Real.sqrt 2 - 1) ^ 2 from by
        linear_combination -hs2]
      exact Real.sqrt_sq (by linarith),
    JSNum.asin_fin _ (by rw [abs_le]; constructor <;> nlinarith), JSNum.mul_fin]

/-- The Newton iterate `a = s/2` is positive. -/
theorem lambert_stuck_pos :
    JSNum.ltB (.fin 0) (.fin ((1 + Real.sqrt 2 / 2) / 2)) = true := by
  rw [JSNum.ltB_fin]
  exact decide_eq_true (by positivity)

/-- At the stuck iterate `dt/da = -∞`: the derivative `dα/da` divides by
`√(1 - s/(2a)) = 0`, giving `-∞`, which propagates through the sum. -/
theorem lambert_stuck_dtda :
    LambertSolver.calculateDTDA (.fin ((1 + Real.sqrt 2 / 2) / 2))
      (.fin (1 + Real.sqrt 2 / 2)) (.fin (Real.sqrt 2)) (.fin 1) 0 = .ninf := by
  have hs2 : Real.sqrt 2 * Real.sqrt 2 = 2 := Real.mul_self_sqrt (by norm_num)
  have h12 : (1:ℝ) < Real.sqrt 2 := by nlinarith [Real.sqrt_nonneg 2]
  have hsnn := Real.sqrt_nonneg 2
  simp only [LambertSolver.calculateDTDA]
  rw [lambert_stuck_pos, if_pos rfl, lambert_stuck_alpha, lambert_stuck_beta,
    lambert_stuck_inner1, lambert_stuck_inner2]
  simp only [JSNum.mul_fin, JSNum.sin_fin, JSNum.cos_fin, JSNum.sub_fin]
  rw [show (1:ℝ) + -1 = 0 from by norm_num]
  rw [JSNum.div_fin (1 + Real.sqrt 2 / 2) _ (by positivity),
    JSNum.div_fin (1 + Real.sqrt 2 / 2 + -Real.sqrt 2) _ (by positivity),
    JSNum.sqrt_fin ((1 + Real.sqrt 2 / 2) / _) (not_lt.mpr (by positivity)),
    JSNum.sqrt_fin ((1 + Real.sqrt 2 / 2 + -Real.sqrt 2) / _)
      (not_lt.mpr (div_nonneg (by nlinarith) (by positivity))),
    JSNum.neg_fin, JSNum.neg_fin,
    JSNum.sqrt_fin 0 (by norm_num), Real.sqrt_zero,
    JSNum.sqrt_fin (1 + -(3 - 2 * Real.sqrt 2)) (by nlinarith),
    JSNum.div_fin_zero_neg _ (neg_lt_zero.mpr (Real.sqrt_pos.mpr (by positivity))),
    JSNum.div_fin _ _ (ne_of_gt (Real.sqrt_pos.mpr (by nlinarith)))]
  rw [JSNum.div_fin 3 2 (by norm_num),
    JSNum.div_fin ((1 + Real.sqrt 2 / 2) / 2) 1 one_ne_zero,
    JSNum.div_fin ((1 + Real.sqrt 2 / 2) / 2 * ((1 + Real.sqrt 2 / 2) / 2) *
      ((1 + Real.sqrt 2 / 2) / 2)) 1 one_ne_zero,
    JSNum.sqrt_fin (((1 + Real.sqrt 2 / 2) / 2) / 1) (not_lt.mpr (by positivity)),
    JSNum.sqrt_fin ((1 + Real.sqrt 2 / 2) / 2 * ((1 + Real.sqrt 2 / 2) / 2) *
      ((1 + Real.sqrt 2 / 2) / 2) / 1) (not_lt.mpr (by positivity))]
  simp only [JSNum.mul_fin, JSNum.add_fin]
  rw [JSNum.mul_fin_ninf _ (by rw [Real.cos_pi]; norm_num), JSNum.sub_ninf_fin,
    JSNum.mul_fin_ninf _ (Real.sqrt_pos.mpr (by positivity)), JSNum.add_fin_ninf]

/-- The Newton stopping test at the stuck iterate is never satisfied:
the computed time of flight is at most `4`, far from the requested
`100`. -/
theorem lambert_stuck_test :
    decide (|Real.sqrt ((1 + Real.sqrt 2 / 2) / 2 * ((1 + Real.sqrt 2 / 2) / 2) *
        ((1 + Real.sqrt 2 / 2) / 2) / 1) *
      (π + -Real.sin π + -(2 * Real.arcsin (Real.sqrt 2 - 1) +
        -Real.sin (2 * Real.arcsin (Real.sqrt 2 - 1))) + 2 * π * ((0:ℕ):ℝ)) +
      -100| < 1e-12) = false := by
  have hs2 : Real.sqrt 2 * Real.sqrt 2 = 2 := Real.mul_self_sqrt (by norm_num)
  have h12 : (1:ℝ) < Real.sqrt 2 := by nlinarith [Real.sqrt_nonneg 2]
  have h32 : Real.sqrt 2 ≤ 3 / 2 := by nlinarith [Real.sqrt_nonneg 2]
  apply decide_eq_false
  intro h
  rw [abs_lt] at h
  have hT : (1 + Real.sqrt 2 / 2) / 2 * ((1 + Real.sqrt 2 / 2) / 2) *
      ((1 + Real.sqrt 2 / 2) / 2) / 1 ≤ 1 := by nlinarith
  have hq1 : Real.sqrt ((1 + Real.sqrt 2 / 2) / 2 * ((1 + Real.sqrt 2 / 2) / 2) *
      ((1 + Real.sqrt 2 / 2) / 2) / 1) ≤ 1 := Real.sqrt_le_one.mpr hT
  have hq0 : 0 ≤ Real.sqrt ((1 + Real.sqrt 2 / 2) / 2 * ((1 + Real.sqrt 2 / 2) / 2) *
      ((1 + Real.sqrt 2 / 2) / 2) / 1) := Real.sqrt_nonneg _
  have harc : (0:ℝ) ≤ Real.arcsin (Real.sqrt 2 - 1) :=
    Real.arcsin_nonneg.mpr (by nlinarith)
  have hB0 : (0:ℝ) ≤ 2 * Real.arcsin (Real.sqrt 2 - 1) := by linarith
  have hsinle : Real.sin (2 * Real.arcsin (Real.sqrt 2 - 1)) ≤
      2 * Real.arcsin (Real.sqrt 2 - 1) := Real.sin_le hB0
  have hbr : π + -Real.sin π + -(2 * Real.arcsin (Real.sqrt 2 - 1) +
      -Real.sin (2 * Real.arcsin (Real.sqrt 2 - 1))) + 2 * π * ((0:ℕ):ℝ) ≤ 4 := by
    rw [Real.sin_pi]
    have hpi := Real.pi_le_four
    push_cast
    linarith
  have hm : Real.sqrt ((1 + Real.sqrt 2 / 2) / 2 * ((1 + Real.sqrt 2 / 2) / 2) *
      ((1 + Real.sqrt 2 / 2) / 2) / 1) *
      (π + -Real.sin π + -(2 * Real.arcsin (Real.sqrt 2 - 1) +
        -Real.sin (2 * Real.arcsin (Real.sqrt 2 - 1))) + 2 * π * ((0:ℕ):ℝ)) ≤
      Real.sqrt ((1 + Real.sqrt 2 / 2) / 2 * ((1 + Real.sqrt 2 / 2) / 2) *
      ((1 + Real.sqrt 2 / 2) / 2) / 1) * 4 := mul_le_mul_of_nonneg_left hbr hq0
  nlinarith [h.1, hm, hq1, hq0]

/-- One Newton iteration at `a = s/2` makes no progress: `dt/da = -∞`,
so `error / dtda = 0` and `a` is unchanged (and `α = π` is recorded). -/
theorem lambert_stuck_step (n : ℕ) (al : JSNum) :
    LambertSolver.solveLambertLoop (.fin (1 + Real.sqrt 2 / 2)) (.fin (Real.sqrt 2))
        (.fin 100) (.fin 1) 0 (n + 1) (.fin ((1 + Real.sqrt 2 / 2) / 2), al) =
      LambertSolver.solveLambertLoop (.fin (1 + Real.sqrt 2 / 2)) (.fin (Real.sqrt 2))
        (.fin 100) (.fin 1) 0 n (.fin ((1 + Real.sqrt 2 / 2) / 2), .fin π) := by
  simp only [LambertSolver.solveLambertLoop]
  rw [lambert_stuck_alpha, lambert_stuck_beta, lambert_stuck_pos, if_pos rfl]
  simp only [JSNum.mul_fin, JSNum.sin_fin, JSNum.sub_fin, JSNum.add_fin]
  rw [JSNum.div_fin ((1 + Real.sqrt 2 / 2) / 2 * ((1 + Real.sqrt 2 / 2) / 2) *
      ((1 + Real.sqrt 2 / 2) / 2)) 1 one_ne_zero,
    JSNum.sqrt_fin _ (not_lt.mpr (by positivity))]
  simp only [JSNum.mul_fin, JSNum.sub_fin, JSNum.abs_fin, JSNum.ltB_fin]
  rw [lambert_stuck_test, if_neg Bool.false_ne_true]
  rw [lambert_stuck_dtda, JSNum.div_fin_ninf, JSNum.sub_fin,
    show (1 + Real.sqrt 2 / 2) / 2 + -0 = (1 + Real.sqrt 2 / 2) / 2 from by norm_num]

/-- The stuck state is a fixed point of the whole loop. -/
theorem lambert_stuck_fix (n : ℕ) :
    LambertSolver.solveLambertLoop (.fin (1 + Real.sqrt 2 / 2)) (.fin (Real.sqrt 2))
        (.fin 100) (.fin 1) 0 n (.fin ((1 + Real.sqrt 2 / 2) / 2), .fin π) =
      (.fin ((1 + Real.sqrt 2 / 2) / 2), .fin π) := by
  induction n with
  | zero => rfl
  | succ m ih => rw [lambert_stuck_step m (.fin π)]; exact ih

/-- At the counterexample geometry the parabolic minimum TOF is at most
`8/3`, so the requested `tof = 100` is not below it. -/
theorem lambert_tofmin_lt :
    JSNum.ltB (.fin 100) (LambertSolver.calculateMinimumTOF
      (.fin (1 + Real.sqrt 2 / 2)) (.fin (Real.sqrt 2)) (.fin 1)) = false := by
  have hs2 : Real.sqrt 2 * Real.sqrt 2 = 2 := Real.mul_self_sqrt (by norm_num)
  have h12 : (1:ℝ) < Real.sqrt 2 := by nlinarith [Real.sqrt_nonneg 2]
  have h32 : Real.sqrt 2 ≤ 3 / 2 := by nlinarith [Real.sqrt_nonneg 2]
  have hsqrt4 : Real.sqrt 4 = 2 := by
    rw [show (4:ℝ) = 2 ^ 2 from by norm_num]
    exact Real.sqrt_sq (by norm_num)
  simp only [LambertSolver.calculateMinimumTOF]
  rw [JSNum.sub_fin]
  simp only [JSNum.mul_fin]
  rw [JSNum.div_fin 1 3 (by norm_num), JSNum.div_fin 2 1 one_ne_zero,
    JSNum.sqrt_fin (2 * (1 + Real.sqrt 2 / 2)) (not_lt.mpr (by positivity)),
    JSNum.sqrt_fin (2 * (1 + Real.sqrt 2 / 2 + -Real.sqrt 2))
      (not_lt.mpr (by nlinarith)),
    JSNum.sqrt_fin (2 / 1) (by norm_num)]
  simp only [JSNum.mul_fin, JSNum.sub_fin]
  rw [JSNum.ltB_fin]
  apply decide_eq_false
  intro h
  have h2s4 : Real.sqrt (2 * (1 + Real.sqrt 2 / 2)) ≤ 2 := by
    have h1 : Real.sqrt (2 * (1 + Real.sqrt 2 / 2)) ≤ Real.sqrt 4 :=
      Real.sqrt_le_sqrt (by nlinarith)
    linarith
  have h21 : Real.sqrt (2 / 1) ≤ 2 := by
    have h1 : Real.sqrt (2 / 1) ≤ Real.sqrt 4 := Real.sqrt_le_sqrt (by norm_num)
    linarith
  have hsc0 : (0:ℝ) ≤ 1 + Real.sqrt 2 / 2 + -Real.sqrt 2 := by nlinarith
  have hterm2 : (0:ℝ) ≤ (1 + Real.sqrt 2 / 2 + -Real.sqrt 2) *
      Real.sqrt (2 * (1 + Real.sqrt 2 / 2 + -Real.sqrt 2)) :=
    mul_nonneg hsc0 (Real.sqrt_nonneg _)
  have hterm1 : (1 + Real.sqrt 2 / 2) * Real.sqrt (2 * (1 + Real.sqrt 2 / 2)) ≤ 4 := by
    nlinarith [Real.sqrt_nonneg (2 * (1 + Real.sqrt 2 / 2))]
  have hbr4 : (1 + Real.sqrt 2 / 2) * Real.sqrt (2 * (1 + Real.sqrt 2 / 2)) +
      -((1 + Real.sqrt 2 / 2 + -Real.sqrt 2) *
        Real.sqrt (2 * (1 + Real.sqrt 2 / 2 + -Real.sqrt 2))) ≤ 4 := by linarith
  have hf0 : (0:ℝ) ≤ 1 / 3 * Real.sqrt (2 / 1) := by positivity
  have hmain := mul_le_mul_of_nonneg_left hbr4 hf0
  nlinarith [Real.sqrt_nonneg (2 / 1)]

/-- The Lambert equation solve at the counterexample: the Newton loop
returns the untouched initial guess `a = s/2` with `α = π`, and the
resulting `p` is a finite number. -/
theorem lambert_ap_eval :
    LambertSolver.solveLambertEquation (.fin (1 + Real.sqrt 2 / 2)) (.fin (Real.sqrt 2))
      (.fin 100) (.fin 1) 0 (.fin 1) (.fin 1) =
    (.fin ((1 + Real.sqrt 2 / 2) / 2),
     .fin (4 * ((1 + Real.sqrt 2 / 2) / 2) * (1 + Real.sqrt 2 / 2 + -1) *
       (1 + Real.sqrt 2 / 2 + -1) * (Real.sin (π / 2) * Real.sin (π / 2)) /
       (Real.sqrt 2 * Real.sqrt 2))) := by
  have hs2 : Real.sqrt 2 * Real.sqrt 2 = 2 := Real.mul_self_sqrt (by norm_num)
  simp only [LambertSolver.solveLambertEquation]
  rw [JSNum.div_fin (1 + Real.sqrt 2 / 2) 2 two_ne_zero]
  rw [show (100:ℕ) = 99 + 1 from rfl, lambert_stuck_step 99 (.fin 0),
    lambert_stuck_fix 99]
  rw [JSNum.sub_fin, JSNum.div_fin π 2 two_ne_zero, JSNum.sin_fin]
  simp only [JSNum.mul_fin]
  rw [JSNum.div_fin _ _ (by rw [hs2]; norm_num : Real.sqrt 2 * Real.sqrt 2 ≠ 0)]

/-- Claim C3 counterexample.  At `r1 = (1,0,0)`, `r2 = (0,1,0)`, `μ = 1`,
`tof = 100` (prograde, zero revolutions) the Newton iteration of
`solveLambertEquation` is stationary at its initial guess `a = s/2`:
`dα/da` divides by `√(1 - s/(2a)) = 0` giving `dt/da = -∞`, so the
update `a -= error/dtda` subtracts `0` forever, and the stopping
tolerance `|tofCalc - tof| < 1e-12` is never met (`tofCalc ≤ 4` while
`tof = 100`).  The loop exhausts its 100-iteration cap without
converging, yet `a = s/2` and the resulting `p` are finite, so
`LambertSolver.solve` returns `feasible = true` — refuting the claim
that Newton non-convergence is a `feasible = false` failure mode. -/
theorem lambert_nonconvergent_yet_feasible :
    (LambertSolver.solve ⟨.fin 1, ⟨.fin 1, .fin 0, .fin 0⟩, ⟨.fin 0, .fin 1, .fin 0⟩,
        .fin 100, false, 0⟩).feasible = true ∧
    (∀ n : ℕ,
      (LambertSolver.solveLambertLoop (.fin (1 + Real.sqrt 2 / 2)) (.fin (Real.sqrt 2))
        (.fin 100) (.fin 1) 0 n (.fin ((1 + Real.sqrt 2 / 2) / 2), .fin 0)).1 =
      .fin ((1 + Real.sqrt 2 / 2) / 2)) ∧
    decide (|Real.sqrt ((1 + Real.sqrt 2 / 2) / 2 * ((1 + Real.sqrt 2 / 2) / 2) *
        ((1 + Real.sqrt 2 / 2) / 2) / 1) *
      (π + -Real.sin π + -(2 * Real.arcsin (Real.sqrt 2 - 1) +
        -Real.sin (2 * Real.arcsin (Real.sqrt 2 - 1))) + 2 * π * ((0:ℕ):ℝ)) +
      -100| < 1e-12) = false := by
  have hlen1 : (⟨.fin 1, .fin 0, .fin 0⟩ : JSVec3).length = .fin 1 := by
    simp only [JSVec3.length, JSVec3.lengthSq, JSNum.mul_fin, JSNum.add_fin]
    rw [show (1:ℝ) * 1 + 0 * 0 + 0 * 0 = 1 from by norm_num,
      JSNum.sqrt_fin 1 (by norm_num), Real.sqrt_one]
  have hlen2 : (⟨.fin 0, .fin 1, .fin 0⟩ : JSVec3).length = .fin 1 := by
    simp only [JSVec3.length, JSVec3.lengthSq, JSNum.mul_fin, JSNum.add_fin]
    rw [show (0:ℝ) * 0 + 1 * 1 + 0 * 0 = 1 from by norm_num,
      JSNum.sqrt_fin 1 (by norm_num), Real.sqrt_one]
  have hdot : (⟨.fin 1, .fin 0, .fin 0⟩ : JSVec3).dot ⟨.fin 0, .fin 1, .fin 0⟩ =
      .fin 0 := by
    simp only [JSVec3.dot, JSNum.mul_fin, JSNum.add_fin]
    norm_num
  refine ⟨?_, ?_, lambert_stuck_test⟩
  · simp only [LambertSolver.solve]
    rw [hlen1, hlen2, hdot]
    simp only [JSNum.mul_fin, JSNum.add_fin, JSNum.sub_fin]
    rw [JSNum.div_fin 0 (1 * 1) (by norm_num)]
    simp only [JSNum.mul_fin, JSNum.sub_fin, JSNum.add_fin]
    rw [show (1:ℝ) * 1 + 1 * 1 + -(2 * 1 * 1 * (0 / (1 * 1))) = 2 from by norm_num]
    rw [JSNum.sqrt_fin 2 (by norm_num)]
    simp only [JSNum.add_fin]
    rw [JSNum.div_fin (1 + 1 + Real.sqrt 2) 2 two_ne_zero]
    rw [show (1 + 1 + Real.sqrt 2) / 2 = 1 + Real.sqrt 2 / 2 from by ring]
    rw [lambert_tofmin_lt, if_neg Bool.false_ne_true]
    rw [lambert_ap_eval]
    simp only [JSNum.isFiniteB, Bool.not_true, Bool.or_self]
    rw [if_neg Bool.false_ne_true]
  · intro n
    cases n with
    | zero => rfl
    | succ m => rw [lambert_stuck_step m (.fin 0), lambert_stuck_fix m]
